import Mathlib

/-!
# Budget planner front end (`static/js/main.js`)

A shallow embedding of the page script: the DOM the script reads and writes, the
budget progress renderer, the expense chart renderer, the form validation hook and
the AJAX form helper, followed by the properties proved about them.

Numbers are exact rationals; a JavaScript number that is finite is one of them, and
the comparisons of the script agree with the rational ones. The rounding error of
double arithmetic is not modelled.
-/

set_option autoImplicit false

namespace BudgetPlanner

/-! ## Data model -/

/-- One entry of the `budgets` array of `GET /api/budget-progress/`. -/
structure BudgetStatus where
  category : String
  percentage : ℚ
  spent : ℚ
  budgeted : ℚ
  over_budget : Bool
  deriving DecidableEq

/-- The attributes and properties of an element that the script reads or writes.
`classList` is the ordered token set of `element.classList`, `styleWidth = some q` is the
inline declaration `width: q%`, `ariaValuenow = some q` is the attribute
`aria-valuenow` holding the number `q`, and `value` is the `value` property of a form
control (`none` where the element has none). -/
structure Elem where
  tag : String
  elemId : Option String := none
  name : Option String := none
  value : Option String := none
  action : String := ""
  classList : List String := []
  dataBudget : Option String := none
  ariaValuenow : Option ℚ := none
  styleWidth : Option ℚ := none
  styleDisplay : Option String := none
  deriving DecidableEq

/-- A sequence of sibling nodes in document order: `text s rest` is a text node followed
by its later siblings, `elem e kids rest` an element with its child nodes `kids`,
followed by its later siblings `rest`. A document is the content of its root element. -/
inductive Forest where
  | nil : Forest
  | text (s : String) (rest : Forest) : Forest
  | elem (e : Elem) (kids : Forest) (rest : Forest) : Forest
  deriving DecidableEq

/-! ## `DOMTokenList` -/

/-- `classList.remove(t1, t2, ...)`: every listed token leaves the list. -/
def classListRemove (cl : List String) (tokens : List String) : List String :=
  cl.filter (fun t => !(tokens.contains t))

/-- `classList.add(t)`: the token is appended unless it is already present. -/
def classListAdd (cl : List String) (t : String) : List String :=
  if cl.contains t then cl else cl ++ [t]

/-- The three colour classes of a progress bar. -/
def colourClasses : List String := ["bg-success", "bg-warning", "bg-danger"]

/-- The colour tokens carried by a class list, in order. -/
def colourTokens (cl : List String) : List String :=
  cl.filter (fun t => colourClasses.contains t)

/-- The tokens of a class list that are not colour classes, in order. -/
def otherTokens (cl : List String) : List String :=
  cl.filter (fun t => !(colourClasses.contains t))

/-! ## Number formatting -/

/-- Left-pads a digit string with zeros to `k` characters. -/
def padZeros (k : Nat) (s : String) : String :=
  String.mk (List.replicate (k - s.length) '0') ++ s

/-- The integer `n` for which `n / 10^k` is nearest to `|x|`, the larger one on a tie:
the floor of `|x| * 10^k + 1/2`, computed on the numerator and the denominator. -/
def roundScaled (k : Nat) (x : ℚ) : Nat :=
  (2 * x.num.natAbs * 10 ^ k + x.den) / (2 * x.den)

/-- `Number.prototype.toFixed(k)` on a finite number below `10^21`: the nearest
multiple of `10^-k`, the larger one on a tie, printed with exactly `k` decimals. -/
def toFixed (k : Nat) (x : ℚ) : String :=
  let n : Nat := roundScaled k x
  let whole := toString (n / 10 ^ k)
  let sign := if x < 0 then "-" else ""
  if k = 0 then sign ++ whole
  else sign ++ whole ++ "." ++ padZeros k (toString (n % 10 ^ k))

/-! ## Budget progress renderer: the writes to one element -/

/-- Lines 109 to 120 of `updateBudgetProgressBar`: the writes to the progress bar. -/
def writeProgressBar (budget : BudgetStatus) (progressBar : Elem) : Elem :=
  let e1 := { progressBar with styleWidth := some budget.percentage }
  let e2 := { e1 with ariaValuenow := some budget.percentage }
  let e3 := { e2 with classList := classListRemove e2.classList colourClasses }
  if budget.over_budget then
    { e3 with classList := classListAdd e3.classList "bg-danger" }
  else if budget.percentage > 80 then
    { e3 with classList := classListAdd e3.classList "bg-warning" }
  else
    { e3 with classList := classListAdd e3.classList "bg-success" }

/-- The text of line 125. -/
def budgetTextContent (budget : BudgetStatus) : String :=
  "$" ++ toFixed 2 budget.spent ++ " of $" ++ toFixed 2 budget.budgeted

/-- The errors the script can meet. -/
inductive JsError where
  | typeError : JsError
  | syntaxError : JsError
  | networkError : JsError
  | notOk : JsError
  | thrown (what : String) : JsError
  deriving DecidableEq

/-! ## Selectors -/

/-- The selectors the script passes to `querySelector` and `getElementById`.
`budget c cls` is the selector `[data-budget="c"] .cls` for a category `c` that is an
identifier string, as the data model has it: an element of class `cls` that lies
below an element whose `data-budget` attribute is `c`. -/
inductive Selector where
  | byId (i : String) : Selector
  | byName (n : String) : Selector
  | budget (category : String) (cls : String) : Selector
  deriving DecidableEq

/-- Whether the element matches the selector; `inScope` tells whether one of its
ancestors carries the `data-budget` attribute the selector asks for. -/
def Selector.matchesElem : Selector → Bool → Elem → Bool
  | .byId i, _, e => e.elemId == some i
  | .byName n, _, e => e.name == some n
  | .budget _ cls, inScope, e => inScope && e.classList.contains cls

/-- The scope flag for the children of an element. -/
def Selector.enter : Selector → Bool → Elem → Bool
  | .byId _, inScope, _ => inScope
  | .byName _, inScope, _ => inScope
  | .budget c _, inScope, e => inScope || e.dataBudget == some c

/-- The first element in document order that matches the selector, with its child
nodes; `none` is the `null` of `querySelector`. -/
def querySelectorFrom (sel : Selector) : Bool → Forest → Option (Elem × Forest)
  | _, .nil => none
  | s, .text _ rest => querySelectorFrom sel s rest
  | s, .elem e kids rest =>
    if sel.matchesElem s e then some (e, kids)
    else
      match querySelectorFrom sel (sel.enter s e) kids with
      | some r => some r
      | none => querySelectorFrom sel s rest

/-- Applies a write `g` (to the element and its child nodes) to the first element in
document order that matches the selector; `none` when no element matches. -/
def withFirstFrom (sel : Selector) (g : Elem → Forest → Elem × Forest) :
    Bool → Forest → Option Forest
  | _, .nil => none
  | s, .text t rest => (withFirstFrom sel g s rest).map (Forest.text t)
  | s, .elem e kids rest =>
    if sel.matchesElem s e then some (Forest.elem (g e kids).1 (g e kids).2 rest)
    else
      match withFirstFrom sel g (sel.enter s e) kids with
      | some kids1 => some (Forest.elem e kids1 rest)
      | none => (withFirstFrom sel g s rest).map (Forest.elem e kids)

/-- The call `document.querySelector(sel)`. -/
def querySelector (sel : Selector) (document : Forest) : Option (Elem × Forest) :=
  querySelectorFrom sel false document

/-- A write through the reference that `document.querySelector(sel)` returns. -/
def withFirst (sel : Selector) (g : Elem → Forest → Elem × Forest) (document : Forest) :
    Option Forest :=
  withFirstFrom sel g false document

/-- The assignment `element.textContent = s` for a non-empty string: the child nodes
are replaced by one text node. -/
def setTextContent (s : String) (e : Elem) (_kids : Forest) : Elem × Forest :=
  (e, Forest.text s Forest.nil)

/-! ## Budget progress renderer -/

/-- The document after the writes of lines 109 to 126, for a category that stands in
the selector texts of lines 107 and 123 as it is: the writes to the first progress bar
of the category and, when there is such a bar, the text write to the first companion
text element of the category. -/
def budgetWrites (document : Forest) (budget : BudgetStatus) : Forest :=
  match withFirst (.budget budget.category "progress-bar")
      (fun e kids => (writeProgressBar budget e, kids)) document with
  | none => document
  | some d1 =>
    match withFirst (.budget budget.category "budget-text")
        (setTextContent (budgetTextContent budget)) d1 with
    | none => d1
    | some d2 => d2

/-- Whether the category stands between the quotes of the selector text
`[data-budget="..."]` as it is: it holds no double quote (34), no backslash (92), no
line feed, form feed or carriage return (10, 12, 13) and no NUL (0). -/
def selectorSafe (category : String) : Bool :=
  category.data.all (fun ch =>
    !(ch.toNat == 34 || ch.toNat == 92 || ch.toNat == 10 || ch.toNat == 12
      || ch.toNat == 13 || ch.toNat == 0))

/-- The selector that `querySelector` reads from the template text
`[data-budget="${category}"] .${cls}`. A category that is not `selectorSafe` ends or
escapes the quoted string early; the text is then no attribute test on the category
and `querySelector` throws a `SyntaxError`, as it does for a category with a double
quote in it. -/
def budgetSelector (category cls : String) : Except JsError Selector :=
  if selectorSafe category then .ok (.budget category cls) else .error .syntaxError

/-- The document after a call or a loop, and the error it threw, if it threw. -/
structure Completion where
  document : Forest
  thrown : Option JsError
  deriving DecidableEq

/-- The function `updateBudgetProgressBar(budget)`, lines 106 to 128. -/
def updateBudgetProgressBar (document : Forest) (budget : BudgetStatus) : Completion :=
  match budgetSelector budget.category "progress-bar" with
  | .error e => { document := document, thrown := some e }
  | .ok barSelector =>
    match withFirst barSelector (fun e kids => (writeProgressBar budget e, kids))
        document with
    | none => { document := document, thrown := none }
    | some d1 =>
      match budgetSelector budget.category "budget-text" with
      | .error e => { document := d1, thrown := some e }
      | .ok textSelector =>
        match withFirst textSelector (setTextContent (budgetTextContent budget)) d1 with
        | none => { document := d1, thrown := none }
        | some d2 => { document := d2, thrown := none }

/-- The loop `data.budgets.forEach(budget => updateBudgetProgressBar(budget))` of
`initializeBudgetProgress`, lines 96 to 98: an entry that throws ends the loop, and
the writes of the entries before it stay. -/
def forEachBudget : Forest → List BudgetStatus → Completion
  | document, [] => { document := document, thrown := none }
  | document, budget :: rest =>
    match updateBudgetProgressBar document budget with
    | { document := d1, thrown := none } => forEachBudget d1 rest
    | { document := d1, thrown := some e } => { document := d1, thrown := some e }

/-- Whether the first progress bar of the category lies inside the first companion
text element of the category, in a sequence of siblings that has one of the two;
`none` when it has neither. -/
def barInsideTextFrom (category : String) : Bool → Forest → Option Bool
  | _, .nil => none
  | s, .text _ rest => barInsideTextFrom category s rest
  | s, .elem e kids rest =>
    if (Selector.budget category "progress-bar").matchesElem s e then some false
    else if (Selector.budget category "budget-text").matchesElem s e then
      some (querySelectorFrom (.budget category "progress-bar")
        ((Selector.budget category "progress-bar").enter s e) kids).isSome
    else
      match barInsideTextFrom category
          ((Selector.budget category "budget-text").enter s e) kids with
      | some r => some r
      | none => barInsideTextFrom category s rest

/-- Whether the first progress bar of the category lies inside the first companion
text element of the category. -/
def barInsideText (category : String) (document : Forest) : Bool :=
  barInsideTextFrom category false document == some true

/-! ## Expense chart renderer -/

/-- A JavaScript number: a finite double, given by its exact value, `NaN`, or an
infinity. The two zeros are one value here: no operation of the tooltip callback
tells them apart on non-negative data. -/
inductive JsNumber where
  | finite (q : ℚ) : JsNumber
  | nan : JsNumber
  | infinity (negative : Bool) : JsNumber
  deriving DecidableEq

/-- The integer nearest to `x`, the even one on a tie. -/
def roundHalfEven (x : ℚ) : ℤ :=
  if x - ⌊x⌋ < 1 / 2 then ⌊x⌋
  else if 1 / 2 < x - ⌊x⌋ then ⌊x⌋ + 1
  else if ⌊x⌋ % 2 = 0 then ⌊x⌋ else ⌊x⌋ + 1

/-- The exponent `e` with `2^e ≤ |x| < 2^(e+1)`, and the least normal exponent `-1022`
for the numbers below `2^-1022`: the doubles around `x` are the multiples of
`2^(e-52)`. -/
def binade (x : ℚ) : ℤ := max (Int.log 2 |x|) (-1022)

/-- The double that an exact result `x` is rounded to (IEEE 754 binary64, round to
nearest, ties to even): the nearest multiple of `2^(binade x - 52)`, or an infinity when
that is `2^1024` or more in absolute value. -/
def roundDouble (x : ℚ) : JsNumber :=
  if (2 : ℚ) ^ (1024 : ℕ)
      ≤ |(roundHalfEven (x / (2 : ℚ) ^ (binade x - 52)) : ℚ) * (2 : ℚ) ^ (binade x - 52)| then
    .infinity (decide (x < 0))
  else .finite ((roundHalfEven (x / (2 : ℚ) ^ (binade x - 52)) : ℚ) * (2 : ℚ) ^ (binade x - 52))

/-- The sum `a + b` of two numbers. -/
def JsNumber.add : JsNumber → JsNumber → JsNumber
  | .finite a, .finite b => roundDouble (a + b)
  | .finite _, .infinity n => .infinity n
  | .infinity n, .finite _ => .infinity n
  | .infinity n, .infinity m => if n = m then .infinity n else .nan
  | _, _ => .nan

/-- The quotient `a / b` of two numbers. -/
def JsNumber.div : JsNumber → JsNumber → JsNumber
  | .finite a, .finite b =>
    if b = 0 then (if a = 0 then .nan else .infinity (decide (a < 0)))
    else roundDouble (a / b)
  | .finite _, .infinity _ => .finite 0
  | .infinity n, .finite b => .infinity (n != decide (b < 0))
  | _, _ => .nan

/-- The product `a * b` of two numbers. -/
def JsNumber.mul : JsNumber → JsNumber → JsNumber
  | .finite a, .finite b => roundDouble (a * b)
  | .finite a, .infinity n => if a = 0 then .nan else .infinity (n != decide (a < 0))
  | .infinity n, .finite b => if b = 0 then .nan else .infinity (n != decide (b < 0))
  | .infinity n, .infinity m => .infinity (n != m)
  | _, _ => .nan

/-- The method `toFixed(k)` on any number. -/
def JsNumber.toFixed (k : Nat) : JsNumber → String
  | .finite q => BudgetPlanner.toFixed k q
  | .nan => "NaN"
  | .infinity false => "Infinity"
  | .infinity true => "-Infinity"

/-- The constant `total` of line 73: `context.dataset.data.reduce((a, b) => a + b, 0)`,
the double sum taken from the left, starting from 0. The entries of `data` are the
doubles that the JSON of the response parsed to. -/
def tooltipTotal (data : List ℚ) : JsNumber :=
  data.foldl (fun a b => JsNumber.add a (.finite b)) (.finite 0)

/-- The number `(value / total) * 100` of line 74, before `toFixed(1)`: a double
division followed by a double product. -/
def tooltipPercentageValue (data : List ℚ) (value : ℚ) : JsNumber :=
  JsNumber.mul (JsNumber.div (.finite value) (tooltipTotal data)) (.finite 100)

/-- The constant `percentage` of line 74. -/
def tooltipPercentage (data : List ℚ) (value : ℚ) : String :=
  (tooltipPercentageValue data value).toFixed 1

/-- The tooltip label callback, lines 70 to 76, for a slice with the given name and
parsed value in a dataset `data`. -/
def tooltipLabel (sliceName : String) (data : List ℚ) (value : ℚ) : String :=
  sliceName ++ ": $" ++ toFixed 2 value ++ " (" ++ tooltipPercentage data value ++ "%)"

/-- The double that the decimal 24.71 parses to. -/
def double2471 : ℚ := 3477623337260155 / 140737488355328

/-- The double that the decimal 28.09 parses to. -/
def double2809 : ℚ := 7906632095802327 / 281474976710656

/-- The largest power of two among the doubles. -/
def double1023 : ℚ := 2 ^ (1023 : ℕ)

/-- The way a `fetch` ends: it rejects, or it resolves to a response with an `ok` flag
whose body parses as JSON or fails to. -/
inductive Fetched (α : Type) where
  | rejected (e : JsError) : Fetched α
  | response (ok : Bool) (json : Except JsError α) : Fetched α

/-- The body of `GET /api/expense-data/`. -/
structure ExpenseDataset where
  labels : List String
  data : List ℚ
  colors : List String
  deriving DecidableEq

/-- The document after a promise chain has run, and the error that escaped the chain,
if one did. -/
structure Settled where
  document : Forest
  escaped : Option JsError
  deriving DecidableEq

/-- The markup of lines 86 and 87. -/
def placeholder : Forest :=
  .elem { tag := "p", classList := ["text-muted", "text-center"] }
    (.text "No expense data available" .nil) .nil

/-- Where the first match of a selector lies in a sequence of siblings: among the
siblings themselves (`here`), or deeper, in which case `below f` is the sequence with
the content of the parent of that match replaced. -/
inductive Located where
  | here : Located
  | below (f : Forest) : Located
  deriving DecidableEq

/-- Replaces the child nodes of the parent of the first match by `content`; the
parent of a match among the siblings themselves is left to the caller. -/
def setParentContentFrom (sel : Selector) (content : Forest) :
    Bool → Forest → Option Located
  | _, .nil => none
  | s, .text t rest =>
    match setParentContentFrom sel content s rest with
    | none => none
    | some .here => some .here
    | some (.below rest1) => some (.below (.text t rest1))
  | s, .elem e kids rest =>
    if sel.matchesElem s e then some .here
    else
      match setParentContentFrom sel content (sel.enter s e) kids with
      | some .here => some (.below (.elem e content rest))
      | some (.below kids1) => some (.below (.elem e kids1 rest))
      | none =>
        match setParentContentFrom sel content s rest with
        | none => none
        | some .here => some .here
        | some (.below rest1) => some (.below (.elem e kids rest1))

/-- The assignment `document.querySelector(sel).parentNode.innerHTML = content`;
`none` when `querySelector` returns `null`. The parent of a top-level node is the
root element, whose content is the document. -/
def setParentInnerHTML (sel : Selector) (content : Forest) (document : Forest) :
    Option Forest :=
  match setParentContentFrom sel content false document with
  | none => none
  | some .here => some content
  | some (.below d) => some d

/-- The handler passed to `.catch`, lines 83 to 88. -/
def expenseChartCatch (document : Forest) : Settled :=
  match withFirst (.byId "expenseChart")
      (fun e kids => ({ e with styleDisplay := some "none" }, kids)) document with
  | none => { document := document, escaped := some .typeError }
  | some d1 =>
    match setParentInnerHTML (.byId "expenseChart") placeholder d1 with
    | none => { document := d1, escaped := some .typeError }
    | some d2 => { document := d2, escaped := none }

/-- The function `initializeExpenseChart`, lines 45 to 89. `newChart` is the outcome
of the constructor `new Chart(ctx, config)` of the charting library. -/
def initializeExpenseChart (newChart : ExpenseDataset → Except JsError Unit)
    (fetched : Fetched ExpenseDataset) (document : Forest) : Settled :=
  match fetched with
  | .rejected _ => expenseChartCatch document
  | .response _ (.error _) => expenseChartCatch document
  | .response _ (.ok data) =>
    match querySelector (.byId "expenseChart") document with
    | none => expenseChartCatch document
    | some _ =>
      match newChart data with
      | .error _ => expenseChartCatch document
      | .ok _ => { document := document, escaped := none }

/-- The number of text nodes with content `s`. -/
def countText (s : String) : Forest → Nat
  | .nil => 0
  | .text t rest => (if t = s then 1 else 0) + countText s rest
  | .elem _ kids rest => countText s kids + countText s rest

/-- The number of elements that match the selector. -/
def countMatchesFrom (sel : Selector) : Bool → Forest → Nat
  | _, .nil => 0
  | s, .text _ rest => countMatchesFrom sel s rest
  | s, .elem e kids rest =>
    (if sel.matchesElem s e then 1 else 0) + countMatchesFrom sel (sel.enter s e) kids
      + countMatchesFrom sel s rest

/-- The elements of a forest with their child nodes, in document order. -/
def elements : Forest → List (Elem × Forest)
  | .nil => []
  | .text _ rest => elements rest
  | .elem e kids rest => (e, kids) :: (elements kids ++ elements rest)

/-! ## Form validation hook -/

/-- The flags of a submit event that the handler sets. -/
structure SubmitEvent where
  defaultPrevented : Bool := false
  propagationStopped : Bool := false
  deriving DecidableEq

/-- The submit listener of lines 34 to 40; `valid` is the result of the native
`form.checkValidity()`. -/
def submitListener (form : Elem) (valid : Bool) (event : SubmitEvent) :
    Elem × SubmitEvent :=
  let event1 :=
    if !valid then
      { { event with defaultPrevented := true } with propagationStopped := true }
    else event
  ({ form with classList := classListAdd form.classList "was-validated" }, event1)

/-- The form after a sequence of submit attempts, each on a fresh event, with the
native validity the form has at each attempt. -/
def submitAttempts (form : Elem) (valid : List Bool) : Elem :=
  valid.foldl (fun f v => (submitListener f v {}).1) form

/-! ## AJAX form helper -/

/-- What a call of `submitFormAjax` is seen to do, in order. -/
inductive Event (α : Type) where
  | fetch (url : String) (csrfToken : Option String) : Event α
  | consoleError (e : JsError) : Event α
  | successCallback (data : α) : Event α
  | errorCallback (e : JsError) : Event α

/-- The record of one call: the error thrown to the caller before the call returns,
the events, and the rejection no handler took. -/
structure CallRecord (α : Type) where
  thrown : Option JsError
  events : List (Event α)
  unhandled : Option JsError

/-- Whether the success callback was invoked. -/
def CallRecord.successFired {α : Type} (r : CallRecord α) : Bool :=
  r.events.any (fun ev => match ev with | .successCallback _ => true | _ => false)

/-- Whether the error callback was invoked. -/
def CallRecord.errorFired {α : Type} (r : CallRecord α) : Bool :=
  r.events.any (fun ev => match ev with | .errorCallback _ => true | _ => false)

/-- The value of the `X-CSRFToken` header of the request, when one was sent. -/
def CallRecord.csrfHeader {α : Type} (r : CallRecord α) : Option (Option String) :=
  r.events.findSome? (fun ev => match ev with | .fetch _ t => some t | _ => none)

/-- The handler passed to `.catch`, lines 170 to 175. -/
def submitCatch {α : Type} (errorCallback : Option (JsError → Except JsError Unit))
    (error : JsError) : List (Event α) × Option JsError :=
  match errorCallback with
  | none => ([.consoleError error], none)
  | some cb =>
    match cb error with
    | .ok _ => ([.consoleError error, .errorCallback error], none)
    | .error e => ([.consoleError error, .errorCallback error], some e)

/-- The promise chain of lines 159 to 175 on the way the fetch ended. -/
def submitChain {α : Type} (successCallback : Option (α → Except JsError Unit))
    (errorCallback : Option (JsError → Except JsError Unit)) (fetched : Fetched α) :
    List (Event α) × Option JsError :=
  match fetched with
  | .rejected e => submitCatch errorCallback e
  | .response false _ => submitCatch errorCallback .notOk
  | .response true (.error e) => submitCatch errorCallback e
  | .response true (.ok data) =>
    match successCallback with
    | none => ([], none)
    | some cb =>
      match cb data with
      | .ok _ => ([.successCallback data], none)
      | .error e =>
        let caught : List (Event α) × Option JsError := submitCatch errorCallback e
        (.successCallback data :: caught.1, caught.2)

/-- The function `submitFormAjax(form, successCallback, errorCallback)`, lines 149 to
176. A callback is the outcome of invoking it: it returns or it throws. The reading
of `.value` on the `null` that `querySelector` returns for a document without a
`csrfmiddlewaretoken` element throws while the arguments of `fetch` are built. -/
def submitFormAjax {α : Type} (document : Forest) (form : Elem)
    (successCallback : Option (α → Except JsError Unit))
    (errorCallback : Option (JsError → Except JsError Unit)) (fetched : Fetched α) :
    CallRecord α :=
  match querySelector (.byName "csrfmiddlewaretoken") document with
  | none => { thrown := some .typeError, events := [], unhandled := none }
  | some (field, _) =>
    let chain := submitChain successCallback errorCallback fetched
    { thrown := none
      events := .fetch form.action field.value :: chain.1
      unhandled := chain.2 }

/-- Whether some element of the forest carries the class. -/
def hasClass (cls : String) : Forest → Bool
  | .nil => false
  | .text _ rest => hasClass cls rest
  | .elem e kids rest => e.classList.contains cls || hasClass cls kids || hasClass cls rest

/-! ## Example pages -/

/-- A hidden input named `csrfmiddlewaretoken` with the given value. -/
def tokenField (token : String) : Forest :=
  .elem { tag := "input", name := some "csrfmiddlewaretoken", value := some token } .nil .nil

/-- A page whose only content is one form with its token field. -/
def oneFormPage (token : String) : Forest :=
  .elem { tag := "form", action := "/add/" } (tokenField token) .nil

/-- A page with a card that holds a heading and the chart canvas, and a footer. -/
def chartPage : Forest :=
  .elem { tag := "div", classList := ["card"] }
    (.elem { tag := "h5" } (.text "Expenses" .nil)
      (.elem { tag := "canvas", elemId := some "expenseChart" } .nil .nil))
    (.elem { tag := "footer" } .nil .nil)

/-- The page `chartPage` with the content of the card replaced by the placeholder. -/
def chartPageFailed : Forest :=
  .elem { tag := "div", classList := ["card"] } placeholder
    (.elem { tag := "footer" } .nil .nil)

/-- A page whose `food` block holds a progress bar and, next to it, a text element. -/
def foodPage : Forest :=
  .elem { tag := "div", dataBudget := some "food" }
    (.elem { tag := "div", classList := ["progress-bar", "bg-success"] } .nil
      (.elem { tag := "small", classList := ["budget-text"] } .nil .nil)) .nil

/-- A page whose `food` block holds a text element with a progress bar inside it,
followed by a second progress bar. -/
def nestedBarPage : Forest :=
  .elem { tag := "div", dataBudget := some "food" }
    (.elem { tag := "span", classList := ["budget-text"] }
      (.elem { tag := "div", classList := ["progress-bar"] } .nil .nil)
      (.elem { tag := "div", classList := ["progress-bar"] } .nil .nil)) .nil

/-- A status for the category `food`: 85 of 100 spent. -/
def foodStatus : BudgetStatus :=
  { category := "food", percentage := 85, spent := 85, budgeted := 100, over_budget := false }

/-- A status for the category `rent`: 900 of 1000 spent. -/
def rentStatus : BudgetStatus :=
  { category := "rent", percentage := 90, spent := 900, budgeted := 1000,
    over_budget := false }

/-- A page with two forms whose token fields hold `A` and `B`. -/
def twoFormPage : Forest :=
  .elem { tag := "form", action := "/a/" } (tokenField "A")
    (.elem { tag := "form", action := "/b/" } (tokenField "B") .nil)

/-- A page whose only content is a form without a token field. -/
def noTokenPage : Forest :=
  .elem { tag := "form", action := "/add/" } .nil .nil

/-- A success callback that returns. -/
def returns (α : Type) : Option (α → Except JsError Unit) :=
  some (fun _ => Except.ok ())

/-- A success callback that returns on the data 7 and throws on any other. -/
def pickyCallback : Nat → Except JsError Unit :=
  fun n => if n = 7 then .ok () else .error (JsError.thrown "unexpected data")

/-- A success callback that throws. -/
def throws (α : Type) : Option (α → Except JsError Unit) :=
  some (fun _ => Except.error (JsError.thrown "render failed"))

/-! # Properties -/

/-! ## Class lists -/

theorem classListRemove_colours (cl : List String) :
    classListRemove cl colourClasses = otherTokens cl := rfl

theorem classListAdd_of_not_mem (cl : List String) (t : String) (h : t ∉ cl) :
    classListAdd cl t = cl ++ [t] := by
  simp [classListAdd, h]

theorem not_mem_otherTokens (cl : List String) (t : String) (h : t ∈ colourClasses) :
    t ∉ otherTokens cl := by
  simp [otherTokens, h]

theorem colourTokens_otherTokens (cl : List String) : colourTokens (otherTokens cl) = [] := by
  simp [colourTokens, otherTokens, List.filter_filter]

theorem otherTokens_otherTokens (cl : List String) :
    otherTokens (otherTokens cl) = otherTokens cl := by
  simp [otherTokens, List.filter_filter]

theorem recolour_eq (cl : List String) (t : String) (h : t ∈ colourClasses) :
    classListAdd (classListRemove cl colourClasses) t = otherTokens cl ++ [t] := by
  rw [classListRemove_colours, classListAdd_of_not_mem _ _ (not_mem_otherTokens cl t h)]

theorem colourTokens_recolour (cl : List String) (t : String) (h : t ∈ colourClasses) :
    colourTokens (otherTokens cl ++ [t]) = [t] := by
  have h1 : colourTokens (otherTokens cl ++ [t]) = colourTokens (otherTokens cl) ++ colourTokens [t] := by
    simp [colourTokens]
  rw [h1, colourTokens_otherTokens]
  simp [colourTokens, h]

theorem otherTokens_recolour (cl : List String) (t : String) (h : t ∈ colourClasses) :
    otherTokens (otherTokens cl ++ [t]) = otherTokens cl := by
  have h1 : otherTokens (otherTokens cl ++ [t]) = otherTokens (otherTokens cl) ++ otherTokens [t] := by
    simp [otherTokens]
  rw [h1, otherTokens_otherTokens]
  simp [otherTokens, h]

/-- The class list the writes to the progress bar leave behind. -/
theorem writeProgressBar_classList (b : BudgetStatus) (e : Elem) :
    (writeProgressBar b e).classList = otherTokens e.classList ++
      [if b.over_budget then "bg-danger" else if b.percentage > 80 then "bg-warning"
        else "bg-success"] := by
  unfold writeProgressBar
  by_cases h1 : b.over_budget = true
  · simp only [h1, if_true]
    exact recolour_eq _ _ (by decide)
  · by_cases h2 : b.percentage > 80
    · simp only [h1, h2, if_true, if_false]
      exact recolour_eq _ _ (by decide)
    · simp only [h1, h2, if_false]
      exact recolour_eq _ _ (by decide)

theorem colourRule_mem (b : BudgetStatus) :
    (if b.over_budget then "bg-danger" else if b.percentage > 80 then "bg-warning"
        else "bg-success") ∈ colourClasses := by
  split
  · decide
  · split <;> decide

/-- C1. The colour class on the bar after the writes of `updateBudgetProgressBar` is
decided in order: `bg-danger` if `over_budget`, else `bg-warning` if the percentage
is above 80, else `bg-success`; so 50 with `over_budget` gives danger, 85 gives
warning, 50 gives success and 80 exactly gives success. -/
theorem updateBudgetProgressBar_colour_rule (b : BudgetStatus) (e : Elem) :
    colourTokens (writeProgressBar b e).classList =
        [if b.over_budget then "bg-danger" else if b.percentage > 80 then "bg-warning"
          else "bg-success"]
      ∧ (∀ c s g, colourTokens (writeProgressBar ⟨c, 50, s, g, true⟩ e).classList
          = ["bg-danger"])
      ∧ (∀ c s g, colourTokens (writeProgressBar ⟨c, 85, s, g, false⟩ e).classList
          = ["bg-warning"])
      ∧ (∀ c s g, colourTokens (writeProgressBar ⟨c, 50, s, g, false⟩ e).classList
          = ["bg-success"])
      ∧ (∀ c s g, colourTokens (writeProgressBar ⟨c, 80, s, g, false⟩ e).classList
          = ["bg-success"]) := by
  have key : ∀ b : BudgetStatus, colourTokens (writeProgressBar b e).classList =
        [if b.over_budget then "bg-danger" else if b.percentage > 80 then "bg-warning"
          else "bg-success"] := by
    intro b
    rw [writeProgressBar_classList]
    exact colourTokens_recolour _ _ (colourRule_mem b)
  refine ⟨key b, ?_, ?_, ?_, ?_⟩ <;> intro c s g <;> rw [key] <;> norm_num

/-- C4. Whatever classes the progress bar carries before the call, after the writes
of `updateBudgetProgressBar` exactly one colour class is on it, and the classes that
are not colour classes are the ones it had: the earlier colour classes are gone. -/
theorem updateBudgetProgressBar_one_colour (b : BudgetStatus) (e : Elem) :
    (colourTokens (writeProgressBar b e).classList).length = 1
      ∧ (∃ t, t ∈ colourClasses ∧ t ∈ (writeProgressBar b e).classList
          ∧ ∀ u, u ∈ colourClasses → u ∈ (writeProgressBar b e).classList → u = t)
      ∧ otherTokens (writeProgressBar b e).classList = otherTokens e.classList := by
  rw [writeProgressBar_classList]
  have hm := colourRule_mem b
  refine ⟨?_, ⟨_, hm, by simp, ?_⟩, otherTokens_recolour _ _ hm⟩
  · rw [colourTokens_recolour _ _ hm]; rfl
  · intro u hu hin
    rcases List.mem_append.1 hin with h | h
    · exact absurd h (not_mem_otherTokens _ _ hu)
    · simpa using h

/-! ## Form validation hook -/

theorem mem_classListAdd_self (cl : List String) (t : String) : t ∈ classListAdd cl t := by
  unfold classListAdd
  split
  · rename_i h; simpa using h
  · simp

theorem mem_classListAdd_of_mem (cl : List String) (t u : String) (h : u ∈ cl) :
    u ∈ classListAdd cl t := by
  unfold classListAdd
  split
  · exact h
  · exact List.mem_append_left _ h

theorem submitAttempts_keeps_marker (valid : List Bool) :
    ∀ form : Elem, "was-validated" ∈ form.classList →
      "was-validated" ∈ (submitAttempts form valid).classList := by
  induction valid with
  | nil => intro form h; exact h
  | cons v vs ih =>
    intro form h
    exact ih _ (mem_classListAdd_of_mem _ _ _ h)

/-- C8. The submit listener of a `needs-validation` form calls `preventDefault` and
`stopPropagation` exactly when the native validity check fails and leaves the event
of a valid form as it is; after an attempt the form carries `was-validated`, and the
marker is still there after every sequence of later attempts. -/
theorem submitListener_blocks_iff_invalid (form : Elem) (valid : Bool) :
    (submitListener form valid {}).2.defaultPrevented = !valid
      ∧ (submitListener form valid {}).2.propagationStopped = !valid
      ∧ (∀ event, (submitListener form true event).2 = event)
      ∧ (∀ event, (submitListener form false event).2
          = { defaultPrevented := true, propagationStopped := true })
      ∧ "was-validated" ∈ (submitListener form valid {}).1.classList
      ∧ (∀ later : List Bool, "was-validated" ∈
          (submitAttempts (submitListener form valid {}).1 later).classList) := by
  refine ⟨?_, ?_, ?_, ?_, ?_, ?_⟩
  · cases valid <;> rfl
  · cases valid <;> rfl
  · intro event; rfl
  · intro event; rfl
  · exact mem_classListAdd_self _ _
  · intro later
    exact submitAttempts_keeps_marker later _ (mem_classListAdd_self _ _)

/-! ## AJAX form helper -/

theorem submitCatch_successFired {α : Type} (ec : Option (JsError → Except JsError Unit))
    (e : JsError) :
    (submitCatch ec e : List (Event α) × Option JsError).1.any
      (fun ev => match ev with | .successCallback _ => true | _ => false) = false := by
  unfold submitCatch
  cases ec with
  | none => rfl
  | some cb =>
    simp only []
    split <;> rfl

/-- C2 (as amended). When the success callback returns normally each time it is
invoked in the call, at most one of the two callbacks fires in that call of
`submitFormAjax`, whatever the document, the form, the error callback and the end of
the fetch, and whatever the success callback would do on other data. -/
theorem submitFormAjax_callbacks_exclusive {α : Type} (document : Forest) (form : Elem)
    (successCallback : α → Except JsError Unit)
    (errorCallback : JsError → Except JsError Unit) (fetched : Fetched α)
    (h : ∀ data, Event.successCallback data ∈
        (submitFormAjax document form (some successCallback) (some errorCallback)
          fetched).events → successCallback data = .ok ()) :
    ¬ ((submitFormAjax document form (some successCallback) (some errorCallback)
          fetched).successFired = true
      ∧ (submitFormAjax document form (some successCallback) (some errorCallback)
          fetched).errorFired = true) := by
  unfold submitFormAjax at h ⊢
  cases hq : querySelector (.byName "csrfmiddlewaretoken") document with
  | none => simp [CallRecord.successFired]
  | some r =>
    obtain ⟨field, kids⟩ := r
    rw [hq] at h
    cases fetched with
    | rejected e =>
      simp [CallRecord.successFired, submitChain, submitCatch_successFired]
    | response ok json =>
      cases ok with
      | false => simp [CallRecord.successFired, submitChain, submitCatch_successFired]
      | true =>
        cases json with
        | error e => simp [CallRecord.successFired, submitChain, submitCatch_successFired]
        | ok data =>
          have hret : successCallback data = .ok () := by
            apply h
            simp only [submitChain]
            cases successCallback data <;> simp
          simp [CallRecord.errorFired, submitChain, hret]

/-- The witness of C2 as amended: a page with a token field, a response that is fine
and a success callback that returns on the data of the response and would throw on
any other. -/
theorem submitFormAjax_callbacks_exclusive_witness :
    (∀ data, Event.successCallback data ∈
        (submitFormAjax (oneFormPage "t") { tag := "form", action := "/add/" }
          (some pickyCallback) (some (fun _ => Except.ok ()))
          (.response true (.ok 7))).events → pickyCallback data = .ok ())
      ∧ ¬ ((submitFormAjax (oneFormPage "t") { tag := "form", action := "/add/" }
              (some pickyCallback) (some (fun _ => Except.ok ()))
              (.response true (.ok 7))).successFired = true
          ∧ (submitFormAjax (oneFormPage "t") { tag := "form", action := "/add/" }
              (some pickyCallback) (some (fun _ => Except.ok ()))
              (.response true (.ok 7))).errorFired = true) :=
  have hw : ∀ data, Event.successCallback data ∈
      (submitFormAjax (oneFormPage "t") { tag := "form", action := "/add/" }
        (some pickyCallback) (some (fun _ => Except.ok ()))
        (.response true (.ok 7))).events → pickyCallback data = .ok () := by
    intro data hmem
    have hev : (submitFormAjax (oneFormPage "t") { tag := "form", action := "/add/" }
        (some pickyCallback) (some (fun _ => Except.ok ()))
        (.response true (.ok 7))).events
        = [.fetch "/add/" (some "t"), .successCallback 7] := rfl
    rw [hev] at hmem
    simp only [List.mem_cons, List.mem_singleton, Event.successCallback.injEq,
      List.not_mem_nil, or_false] at hmem
    rcases hmem with h1 | h1
    · cases h1
    · subst h1; rfl
  ⟨hw, submitFormAjax_callbacks_exclusive _ _ _ _ _ hw⟩

/-- C2, counterexample. The response is fine and the success callback throws: the
rejection reaches the `.catch` handler of the same chain, and the error callback is
invoked as well. -/
theorem submitFormAjax_both_callbacks_fire :
    (submitFormAjax (oneFormPage "t") { tag := "form", action := "/add/" }
        (throws Nat) (returns JsError) (.response true (.ok 7))).successFired = true
      ∧ (submitFormAjax (oneFormPage "t") { tag := "form", action := "/add/" }
        (throws Nat) (returns JsError) (.response true (.ok 7))).errorFired = true := by
  constructor <;> decide

/-- C6, the failing input. On a page with no `csrfmiddlewaretoken` element the call
throws a `TypeError` to its caller before any request is issued, and the error
callback is not invoked. -/
theorem submitFormAjax_throws_without_token :
    (submitFormAjax noTokenPage { tag := "form", action := "/add/" }
        (returns Nat) (returns JsError) (.response true (.ok 7))).thrown = some .typeError
      ∧ (submitFormAjax noTokenPage { tag := "form", action := "/add/" }
        (returns Nat) (returns JsError) (.response true (.ok 7))).errorFired = false
      ∧ (submitFormAjax noTokenPage { tag := "form", action := "/add/" }
        (returns Nat) (returns JsError) (.response true (.ok 7))).csrfHeader = none := by
  refine ⟨?_, ?_, ?_⟩ <;> decide

/-! ## Expense chart tooltip -/

/-- The integer that `toFixed` prints is the floor of `|x| * 10^k + 1/2`. -/
theorem roundScaled_eq_floor (k : Nat) (x : ℚ) :
    roundScaled k x = ⌊|x| * (10 : ℚ) ^ k + 1 / 2⌋₊ := by
  have hden : (0 : ℚ) < x.den := by exact_mod_cast x.den_pos
  have habs : |x| = (x.num.natAbs : ℚ) / (x.den : ℚ) := by
    conv_lhs => rw [← Rat.num_div_den x]
    rw [abs_div, Nat.abs_cast, Nat.cast_natAbs, Int.cast_abs]
  have hval : |x| * (10 : ℚ) ^ k + 1 / 2
      = ((2 * x.num.natAbs * 10 ^ k + x.den : ℕ) : ℚ) / ((2 * x.den : ℕ) : ℚ) := by
    rw [habs]
    push_cast
    field_simp
    ring
  rw [hval, Nat.floor_div_eq_div]
  rfl

/-! ### Rounding to double -/

theorem roundHalfEven_error (x : ℚ) : |(roundHalfEven x : ℚ) - x| ≤ 1 / 2 := by
  have h1 : (⌊x⌋ : ℚ) ≤ x := Int.floor_le x
  have h2 : x < ⌊x⌋ + 1 := Int.lt_floor_add_one x
  unfold roundHalfEven
  split
  · rw [abs_le]; constructor <;> linarith
  · split
    · push_cast; rw [abs_le]; constructor <;> linarith
    · have heq : x - ⌊x⌋ = 1 / 2 := by linarith
      split
      · rw [abs_le]; constructor <;> linarith
      · push_cast; rw [abs_le]; constructor <;> linarith

theorem roundHalfEven_eq_of_near (x : ℚ) (m : ℤ) (h : |x - m| < 1 / 2) :
    roundHalfEven x = m := by
  have h1 := roundHalfEven_error x
  have h2 : |((roundHalfEven x - m : ℤ) : ℚ)| < 1 := by
    push_cast
    have : (roundHalfEven x : ℚ) - m = ((roundHalfEven x : ℚ) - x) + (x - m) := by ring
    rw [this]
    calc |((roundHalfEven x : ℚ) - x) + (x - m)| ≤ |(roundHalfEven x : ℚ) - x| + |x - m| :=
          abs_add _ _
      _ < 1 := by linarith
  have h3 : |roundHalfEven x - m| < 1 := by exact_mod_cast h2
  have h4 : roundHalfEven x - m = 0 := Int.abs_lt_one_iff.1 h3
  omega

theorem roundHalfEven_intCast (m : ℤ) : roundHalfEven (m : ℚ) = m :=
  roundHalfEven_eq_of_near _ m (by simp)

theorem roundHalfEven_nonneg (x : ℚ) (h : 0 ≤ x) : 0 ≤ roundHalfEven x := by
  have h0 : 0 ≤ ⌊x⌋ := Int.floor_nonneg.2 h
  unfold roundHalfEven
  split
  · exact h0
  · split
    · omega
    · split <;> omega

theorem binade_ge (x : ℚ) : -1022 ≤ binade x := le_max_right _ _

theorem zpow_binade_le (x : ℚ) (h : (2 : ℚ) ^ (-1022 : ℤ) ≤ |x|) :
    (2 : ℚ) ^ (binade x) ≤ |x| := by
  have hpos : 0 < |x| := lt_of_lt_of_le (by positivity) h
  unfold binade
  rcases max_cases (Int.log 2 |x|) (-1022) with ⟨h1, _⟩ | ⟨h1, _⟩
  · rw [h1]; exact Int.zpow_log_le_self (by norm_num) hpos
  · rw [h1]; exact h

theorem lt_zpow_binade (x : ℚ) : |x| < (2 : ℚ) ^ (binade x + 1) := by
  have h1 : |x| < (2 : ℚ) ^ (Int.log 2 |x| + 1) := Int.lt_zpow_succ_log_self (by norm_num) _
  refine lt_of_lt_of_le h1 ?_
  apply zpow_le_zpow_right₀ (by norm_num)
  have := le_max_left (Int.log 2 |x|) (-1022)
  unfold binade
  omega

theorem binade_eq_of_small (x : ℚ) (hx : x ≠ 0) (h : |x| < (2 : ℚ) ^ (-1022 : ℤ)) :
    binade x = -1022 := by
  unfold binade
  apply max_eq_right
  have hpos : 0 < |x| := abs_pos.2 hx
  have := (Int.lt_zpow_iff_log_lt (b := 2) (by norm_num) hpos).1 h
  omega

theorem roundDouble_zero : roundDouble 0 = .finite 0 := by
  unfold roundDouble
  simp [roundHalfEven]

/-- The value that `roundDouble` rounds to, before the range is checked. -/
theorem roundDouble_finite_eq (x y : ℚ) (h : roundDouble x = .finite y) :
    y = (roundHalfEven (x / (2 : ℚ) ^ (binade x - 52)) : ℚ) * (2 : ℚ) ^ (binade x - 52)
      ∧ |y| < (2 : ℚ) ^ (1024 : ℕ) := by
  unfold roundDouble at h
  split at h
  · cases h
  · rename_i hlt
    simp only [JsNumber.finite.injEq] at h
    subst h
    exact ⟨rfl, not_le.1 hlt⟩

theorem roundDouble_error (x y : ℚ) (h : roundDouble x = .finite y) :
    |y - x| ≤ (2 : ℚ) ^ (binade x - 53) := by
  obtain ⟨hy, _⟩ := roundDouble_finite_eq x y h
  have hq : (0 : ℚ) < (2 : ℚ) ^ (binade x - 52) := by positivity
  have h1 := roundHalfEven_error (x / (2 : ℚ) ^ (binade x - 52))
  have h2 : y - x = ((roundHalfEven (x / (2 : ℚ) ^ (binade x - 52)) : ℚ)
      - x / (2 : ℚ) ^ (binade x - 52)) * (2 : ℚ) ^ (binade x - 52) := by
    rw [hy]; field_simp
  rw [h2, abs_mul, abs_of_pos hq]
  have h3 : (2 : ℚ) ^ (binade x - 53) = 1 / 2 * (2 : ℚ) ^ (binade x - 52) := by
    rw [show binade x - 52 = (binade x - 53) + 1 by ring, zpow_add_one₀ (by norm_num)]
    ring
  rw [h3]
  exact mul_le_mul_of_nonneg_right h1 (le_of_lt hq)

theorem roundDouble_rel_error (x y : ℚ) (hx : (2 : ℚ) ^ (-1022 : ℤ) ≤ |x|)
    (h : roundDouble x = .finite y) : |y - x| ≤ |x| / 2 ^ (53 : ℕ) := by
  have h1 := roundDouble_error x y h
  have h2 := zpow_binade_le x hx
  have h3 : (2 : ℚ) ^ (binade x - 53) = (2 : ℚ) ^ (binade x) / 2 ^ (53 : ℕ) := by
    rw [zpow_sub₀ (by norm_num)]
    norm_cast
  rw [h3] at h1
  refine le_trans h1 ?_
  exact div_le_div_of_nonneg_right h2 (by positivity)

theorem roundDouble_abs_error (x y : ℚ) (hx : |x| < (2 : ℚ) ^ (-1022 : ℤ))
    (h : roundDouble x = .finite y) : |y - x| ≤ (2 : ℚ) ^ (-1075 : ℤ) := by
  by_cases h0 : x = 0
  · subst h0
    rw [roundDouble_zero] at h
    cases h
    simp only [sub_self, abs_zero]
    positivity
  · have h1 := roundDouble_error x y h
    rw [binade_eq_of_small x h0 hx] at h1
    norm_num at h1 ⊢
    exact h1

theorem roundDouble_nonneg (x y : ℚ) (hx : 0 ≤ x) (h : roundDouble x = .finite y) :
    0 ≤ y := by
  obtain ⟨hy, _⟩ := roundDouble_finite_eq x y h
  rw [hy]
  have hq : (0 : ℚ) < (2 : ℚ) ^ (binade x - 52) := by positivity
  have := roundHalfEven_nonneg (x / (2 : ℚ) ^ (binade x - 52)) (div_nonneg hx (le_of_lt hq))
  have h2 : (0 : ℚ) ≤ (roundHalfEven (x / (2 : ℚ) ^ (binade x - 52)) : ℚ) := by exact_mod_cast this
  exact mul_nonneg h2 (le_of_lt hq)

/-- A double is a multiple of the least positive double. -/
theorem roundDouble_grid (x y : ℚ) (h : roundDouble x = .finite y) :
    ∃ m : ℤ, y = (m : ℚ) * (2 : ℚ) ^ (-1074 : ℤ) := by
  obtain ⟨hy, _⟩ := roundDouble_finite_eq x y h
  have hb := binade_ge x
  obtain ⟨k, hk⟩ : ∃ k : ℕ, binade x - 52 = (k : ℤ) + (-1074) :=
    ⟨(binade x - 52 + 1074).toNat, by omega⟩
  refine ⟨roundHalfEven (x / (2 : ℚ) ^ (binade x - 52)) * 2 ^ k, ?_⟩
  rw [hy, hk, zpow_add₀ (by norm_num)]
  push_cast
  rw [zpow_natCast]
  ring

/-- A number with a significand below `2^53` and an exponent in range rounds to
itself. -/
theorem roundDouble_exact (x : ℚ) (m e : ℤ) (hx : x = (m : ℚ) * (2 : ℚ) ^ e)
    (hm : |m| < 2 ^ (53 : ℕ)) (he : -1074 ≤ e) (hfin : |x| < (2 : ℚ) ^ (1024 : ℕ)) :
    roundDouble x = .finite x := by
  by_cases h0 : x = 0
  · rw [h0]; exact roundDouble_zero
  · have hpos : 0 < |x| := abs_pos.2 h0
    have hlt : |x| < (2 : ℚ) ^ (e + 53) := by
      rw [hx, abs_mul, abs_of_pos (show (0 : ℚ) < (2 : ℚ) ^ e by positivity),
        zpow_add₀ (by norm_num), mul_comm ((2 : ℚ) ^ e)]
      apply mul_lt_mul_of_pos_right _ (by positivity)
      have : ((|m| : ℤ) : ℚ) < ((2 ^ (53 : ℕ) : ℤ) : ℚ) := by exact_mod_cast hm
      norm_num at this ⊢
      exact this
    have hlog : Int.log 2 |x| < e + 53 :=
      (Int.lt_zpow_iff_log_lt (b := 2) (by norm_num) hpos).1 (by exact_mod_cast hlt)
    have hb : binade x - 52 ≤ e := by
      unfold binade
      rcases max_cases (Int.log 2 |x|) (-1022) with ⟨h1, _⟩ | ⟨h1, _⟩ <;> omega
    unfold roundDouble
    generalize binade x = B at hb ⊢
    obtain ⟨k, hk⟩ : ∃ k : ℕ, e = (B - 52) + (k : ℤ) := ⟨(e - (B - 52)).toNat, by omega⟩
    have hq : (0 : ℚ) < (2 : ℚ) ^ (B - 52) := by positivity
    have hdiv : x / (2 : ℚ) ^ (B - 52) = ((m * 2 ^ k : ℤ) : ℚ) := by
      rw [hx, hk, zpow_add₀ (by norm_num : (2 : ℚ) ≠ 0)]
      push_cast
      rw [zpow_natCast]
      field_simp
      ring
    have hval : (roundHalfEven (x / (2 : ℚ) ^ (B - 52)) : ℚ) * (2 : ℚ) ^ (B - 52) = x := by
      rw [hdiv, roundHalfEven_intCast, ← hdiv]
      field_simp
    rw [hval, if_neg (not_le.2 hfin)]

theorem roundDouble_isFinite (x : ℚ) (hx : |x| ≤ (2 : ℚ) ^ (1023 : ℕ)) :
    ∃ y, roundDouble x = .finite y := by
  have h1 := roundHalfEven_error (x / (2 : ℚ) ^ (binade x - 52))
  have hq : (0 : ℚ) < (2 : ℚ) ^ (binade x - 52) := by positivity
  -- the binade is at most 1023
  have hb : binade x ≤ 1023 := by
    unfold binade
    apply max_le _ (by norm_num)
    by_cases h0 : x = 0
    · rw [h0]; simp [Int.log_zero_right]
    · have hpos : 0 < |x| := abs_pos.2 h0
      have hlt : |x| < (2 : ℚ) ^ (1024 : ℤ) := lt_of_le_of_lt hx (by norm_num)
      have := (Int.lt_zpow_iff_log_lt (b := 2) (by norm_num) hpos).1 hlt
      omega
  have hq2 : (2 : ℚ) ^ (binade x - 52) ≤ (2 : ℚ) ^ (971 : ℤ) :=
    zpow_le_zpow_right₀ (by norm_num) (by omega)
  have hy : |(roundHalfEven (x / (2 : ℚ) ^ (binade x - 52)) : ℚ) * (2 : ℚ) ^ (binade x - 52)|
      < (2 : ℚ) ^ (1024 : ℕ) := by
    have h2 : (roundHalfEven (x / (2 : ℚ) ^ (binade x - 52)) : ℚ) * (2 : ℚ) ^ (binade x - 52)
        = x + ((roundHalfEven (x / (2 : ℚ) ^ (binade x - 52)) : ℚ)
          - x / (2 : ℚ) ^ (binade x - 52)) * (2 : ℚ) ^ (binade x - 52) := by
      field_simp
    rw [h2]
    calc |x + ((roundHalfEven (x / (2 : ℚ) ^ (binade x - 52)) : ℚ)
            - x / (2 : ℚ) ^ (binade x - 52)) * (2 : ℚ) ^ (binade x - 52)|
        ≤ |x| + |((roundHalfEven (x / (2 : ℚ) ^ (binade x - 52)) : ℚ)
            - x / (2 : ℚ) ^ (binade x - 52)) * (2 : ℚ) ^ (binade x - 52)| := abs_add _ _
      _ ≤ (2 : ℚ) ^ (1023 : ℕ) + 1 / 2 * (2 : ℚ) ^ (971 : ℤ) := by
          rw [abs_mul, abs_of_pos hq]
          apply add_le_add hx
          exact mul_le_mul h1 hq2 (le_of_lt hq) (by norm_num)
      _ < (2 : ℚ) ^ (1024 : ℕ) := by norm_num
  unfold roundDouble
  rw [if_neg (not_le.2 hy)]
  exact ⟨_, rfl⟩

theorem roundDouble_unique (x y z : ℚ) (h1 : roundDouble x = .finite y)
    (h2 : roundDouble x = .finite z) : y = z := by
  rw [h1] at h2
  exact JsNumber.finite.inj h2

/-- The sum of two non-negative doubles is rounded with a relative error of at most
`2^-53`: a sum below the least normal double is exact. -/
theorem roundDouble_add_bounds (a b y : ℚ) (ha : 0 ≤ a) (hb : 0 ≤ b)
    (hga : ∃ m : ℤ, a = (m : ℚ) * (2 : ℚ) ^ (-1074 : ℤ))
    (hgb : ∃ m : ℤ, b = (m : ℚ) * (2 : ℚ) ^ (-1074 : ℤ))
    (h : roundDouble (a + b) = .finite y) :
    (a + b) * (1 - 1 / 2 ^ (53 : ℕ)) ≤ y ∧ y ≤ (a + b) * (1 + 1 / 2 ^ (53 : ℕ)) := by
  have hs : 0 ≤ a + b := add_nonneg ha hb
  by_cases hbig : (2 : ℚ) ^ (-1022 : ℤ) ≤ |a + b|
  · have herr := roundDouble_rel_error (a + b) y hbig h
    rw [abs_of_nonneg hs, abs_le] at herr
    constructor
    · have := herr.1
      field_simp at this ⊢
      linarith
    · have := herr.2
      field_simp at this ⊢
      linarith
  · have hsmall : |a + b| < (2 : ℚ) ^ (-1022 : ℤ) := not_le.1 hbig
    obtain ⟨ma, hma⟩ := hga
    obtain ⟨mb, hmb⟩ := hgb
    have hx : a + b = ((ma + mb : ℤ) : ℚ) * (2 : ℚ) ^ (-1074 : ℤ) := by
      rw [hma, hmb]; push_cast; ring
    have hm : |ma + mb| < 2 ^ (53 : ℕ) := by
      have h1 : |((ma + mb : ℤ) : ℚ)| * (2 : ℚ) ^ (-1074 : ℤ) < (2 : ℚ) ^ (-1022 : ℤ) := by
        have := hsmall
        rw [hx, abs_mul, abs_of_pos (show (0 : ℚ) < (2 : ℚ) ^ (-1074 : ℤ) by positivity)] at this
        exact this
      have h2 : |((ma + mb : ℤ) : ℚ)| < (2 : ℚ) ^ (52 : ℕ) := by
        have h3 : (2 : ℚ) ^ (-1022 : ℤ) = (2 : ℚ) ^ (52 : ℕ) * (2 : ℚ) ^ (-1074 : ℤ) := by
          rw [← zpow_natCast, ← zpow_add₀ (by norm_num)]
          norm_num
        rw [h3] at h1
        exact lt_of_mul_lt_mul_right h1 (by positivity)
      have h4 : |((ma + mb : ℤ) : ℚ)| < (2 : ℚ) ^ (53 : ℕ) := lt_trans h2 (by norm_num)
      exact_mod_cast h4
    have hfin : |a + b| < (2 : ℚ) ^ (1024 : ℕ) := lt_trans hsmall (by norm_num)
    have hexact := roundDouble_exact (a + b) (ma + mb) (-1074) hx hm (by norm_num) hfin
    have hy : a + b = y := roundDouble_unique _ _ _ hexact h
    rw [← hy]
    constructor
    · nlinarith
    · nlinarith

/-- The rounding of a non-negative number has a relative error of at most `2^-53` and
an absolute error of at most `2^-1075` on top. -/
theorem roundDouble_bounds (x y : ℚ) (hx : 0 ≤ x) (h : roundDouble x = .finite y) :
    x * (1 - 1 / 2 ^ (53 : ℕ)) - (2 : ℚ) ^ (-1075 : ℤ) ≤ y
      ∧ y ≤ x * (1 + 1 / 2 ^ (53 : ℕ)) + (2 : ℚ) ^ (-1075 : ℤ) := by
  have heta : (0 : ℚ) < (2 : ℚ) ^ (-1075 : ℤ) := by positivity
  by_cases hbig : (2 : ℚ) ^ (-1022 : ℤ) ≤ |x|
  · have herr := roundDouble_rel_error x y hbig h
    rw [abs_of_nonneg hx, abs_le] at herr
    constructor
    · have := herr.1
      field_simp at this
      have h2 : x * (1 - 1 / 2 ^ (53 : ℕ)) ≤ y := by
        field_simp
        linarith
      linarith
    · have := herr.2
      field_simp at this
      have h2 : y ≤ x * (1 + 1 / 2 ^ (53 : ℕ)) := by
        field_simp
        linarith
      linarith
  · have herr := roundDouble_abs_error x y (not_le.1 hbig) h
    rw [abs_le] at herr
    have hu : (0 : ℚ) ≤ x * (1 / 2 ^ (53 : ℕ)) := mul_nonneg hx (by positivity)
    have e1 : x * (1 - 1 / 2 ^ (53 : ℕ)) = x - x * (1 / 2 ^ (53 : ℕ)) := by ring
    have e2 : x * (1 + 1 / 2 ^ (53 : ℕ)) = x + x * (1 / 2 ^ (53 : ℕ)) := by ring
    rw [e1, e2]
    obtain ⟨h1, h2⟩ := herr
    generalize x * (1 / 2 ^ (53 : ℕ)) = w at hu ⊢
    generalize (2 : ℚ) ^ (-1075 : ℤ) = eta at heta h1 h2 ⊢
    constructor <;> linarith

theorem foldl_add_nan (data : List ℚ) :
    data.foldl (fun a b => JsNumber.add a (.finite b)) .nan = .nan := by
  induction data with
  | nil => rfl
  | cons x xs ih => simpa [List.foldl, JsNumber.add] using ih

theorem foldl_add_infinity (data : List ℚ) (n : Bool) :
    data.foldl (fun a b => JsNumber.add a (.finite b)) (.infinity n) = .infinity n := by
  induction data with
  | nil => rfl
  | cons x xs ih => simpa [List.foldl, JsNumber.add] using ih

/-- The double sum of non-negative doubles, taken left to right, lies within a factor
`1 - 2^-53` and `1 + 2^-53` per addition of the exact sum. -/
theorem foldl_add_bounds :
    ∀ (data : List ℚ) (acc A T : ℚ) (k : ℕ),
      (∀ x ∈ data, 0 ≤ x ∧ roundDouble x = .finite x) →
      0 ≤ A → 0 ≤ acc → (∃ m : ℤ, acc = (m : ℚ) * (2 : ℚ) ^ (-1074 : ℤ)) →
      A * (1 - 1 / 2 ^ (53 : ℕ)) ^ k ≤ acc → acc ≤ A * (1 + 1 / 2 ^ (53 : ℕ)) ^ k →
      data.foldl (fun a b => JsNumber.add a (.finite b)) (.finite acc) = .finite T →
        (A + data.sum) * (1 - 1 / 2 ^ (53 : ℕ)) ^ (k + data.length) ≤ T
          ∧ T ≤ (A + data.sum) * (1 + 1 / 2 ^ (53 : ℕ)) ^ (k + data.length) := by
  intro data
  induction data with
  | nil =>
    intro acc A T k _ _ _ _ hlo hhi h
    simp only [List.foldl, JsNumber.finite.injEq] at h
    subst h
    simp only [List.sum_nil, List.length_nil, add_zero]
    exact ⟨hlo, hhi⟩
  | cons x xs ih =>
    intro acc A T k hdata hA hacc hgrid hlo hhi h
    obtain ⟨hx0, hxd⟩ := hdata x (List.mem_cons_self _ _)
    have hrest : ∀ z ∈ xs, 0 ≤ z ∧ roundDouble z = .finite z :=
      fun z hz => hdata z (List.mem_cons_of_mem _ hz)
    simp only [List.foldl_cons] at h
    have hadd : JsNumber.add (.finite acc) (.finite x) = roundDouble (acc + x) := rfl
    rw [hadd] at h
    cases hy : roundDouble (acc + x) with
    | nan => rw [hy, foldl_add_nan] at h; cases h
    | infinity n => rw [hy, foldl_add_infinity] at h; cases h
    | finite y =>
      rw [hy] at h
      have hb := roundDouble_add_bounds acc x y hacc hx0 hgrid (roundDouble_grid x x hxd) hy
      have hL1 : (0 : ℚ) < 1 - 1 / 2 ^ (53 : ℕ) := by norm_num
      have hL2 : (1 : ℚ) - 1 / 2 ^ (53 : ℕ) ≤ 1 := by norm_num
      have hU1 : (1 : ℚ) ≤ 1 + 1 / 2 ^ (53 : ℕ) := by norm_num
      have hLk : ((1 : ℚ) - 1 / 2 ^ (53 : ℕ)) ^ k ≤ 1 := pow_le_one₀ (le_of_lt hL1) hL2
      have hUk : (1 : ℚ) ≤ (1 + 1 / 2 ^ (53 : ℕ)) ^ k := one_le_pow₀ hU1
      have hy0 : 0 ≤ y := roundDouble_nonneg _ _ (add_nonneg hacc hx0) hy
      have hlo' : (A + x) * (1 - 1 / 2 ^ (53 : ℕ)) ^ (k + 1) ≤ y := by
        have h1 : (A + x) * (1 - 1 / 2 ^ (53 : ℕ)) ^ k ≤ acc + x := by
          have : x * (1 - 1 / 2 ^ (53 : ℕ)) ^ k ≤ x := by
            calc x * (1 - 1 / 2 ^ (53 : ℕ)) ^ k ≤ x * 1 := mul_le_mul_of_nonneg_left hLk hx0
              _ = x := mul_one x
          linarith
        calc (A + x) * (1 - 1 / 2 ^ (53 : ℕ)) ^ (k + 1)
            = ((A + x) * (1 - 1 / 2 ^ (53 : ℕ)) ^ k) * (1 - 1 / 2 ^ (53 : ℕ)) := by ring
          _ ≤ (acc + x) * (1 - 1 / 2 ^ (53 : ℕ)) :=
              mul_le_mul_of_nonneg_right h1 (le_of_lt hL1)
          _ ≤ y := hb.1
      have hhi' : y ≤ (A + x) * (1 + 1 / 2 ^ (53 : ℕ)) ^ (k + 1) := by
        have h1 : acc + x ≤ (A + x) * (1 + 1 / 2 ^ (53 : ℕ)) ^ k := by
          have : x ≤ x * (1 + 1 / 2 ^ (53 : ℕ)) ^ k := by
            calc x = x * 1 := (mul_one x).symm
              _ ≤ x * (1 + 1 / 2 ^ (53 : ℕ)) ^ k := mul_le_mul_of_nonneg_left hUk hx0
          linarith
        calc y ≤ (acc + x) * (1 + 1 / 2 ^ (53 : ℕ)) := hb.2
          _ ≤ ((A + x) * (1 + 1 / 2 ^ (53 : ℕ)) ^ k) * (1 + 1 / 2 ^ (53 : ℕ)) :=
              mul_le_mul_of_nonneg_right h1 (by linarith)
          _ = (A + x) * (1 + 1 / 2 ^ (53 : ℕ)) ^ (k + 1) := by ring
      have := ih y (A + x) T (k + 1) hrest (add_nonneg hA hx0) hy0
        (roundDouble_grid _ _ hy) hlo' hhi' h
      have e1 : A + x + xs.sum = A + (x :: xs).sum := by simp [List.sum_cons]; ring
      have e2 : k + 1 + xs.length = k + (x :: xs).length := by simp [List.length_cons]; ring
      rw [e1, e2] at this
      exact this

/-! ### The printed percentage -/

theorem one_add_pow_le (ε : ℚ) (h0 : 0 ≤ ε) :
    ∀ m : ℕ, 2 * (m : ℚ) * ε ≤ 1 → (1 + ε) ^ m ≤ 1 + 2 * (m : ℚ) * ε := by
  intro m
  induction m with
  | zero => intro _; simp
  | succ m ih =>
    intro h
    push_cast at h ⊢
    have hm : 2 * (m : ℚ) * ε ≤ 1 := by nlinarith
    have h1 := ih hm
    have hm0 : (0 : ℚ) ≤ m := Nat.cast_nonneg m
    calc (1 + ε) ^ (m + 1) = (1 + ε) ^ m * (1 + ε) := pow_succ _ _
      _ ≤ (1 + 2 * (m : ℚ) * ε) * (1 + ε) := mul_le_mul_of_nonneg_right h1 (by linarith)
      _ ≤ 1 + 2 * ((m : ℚ) + 1) * ε := by nlinarith [mul_nonneg hm0 h0, mul_nonneg h0 h0]

theorem one_sub_pow_ge (ε : ℚ) (h1 : ε ≤ 1) (m : ℕ) :
    1 - (m : ℚ) * ε ≤ (1 - ε) ^ m := by
  have := one_add_mul_le_pow (show (-2 : ℚ) ≤ -ε by linarith) m
  calc 1 - (m : ℚ) * ε = 1 + (m : ℚ) * -ε := by ring
    _ ≤ (1 + -ε) ^ m := this
    _ = (1 - ε) ^ m := by ring_nf

/-- The value that `toFixed(1)` prints for a non-negative number is within one
twentieth of it. -/
theorem roundScaled_one_near (x : ℚ) (hx : 0 ≤ x) :
    |(roundScaled 1 x : ℚ) / 10 - x| ≤ 1 / 20 := by
  rw [roundScaled_eq_floor, abs_of_nonneg hx]
  have hnn : (0 : ℚ) ≤ x * (10 : ℚ) ^ 1 + 1 / 2 := by positivity
  have h1 := Nat.floor_le hnn
  have h2 := Nat.lt_floor_add_one (x * (10 : ℚ) ^ 1 + 1 / 2)
  rw [abs_le]
  constructor <;> linarith

theorem toString_digit_length (d : ℕ) (h : d < 10) : (toString d).length = 1 := by
  interval_cases d <;> rfl

theorem toFixed_one_of_nonneg (x : ℚ) (hx : 0 ≤ x) :
    toFixed 1 x = toString (roundScaled 1 x / 10) ++ "." ++ toString (roundScaled 1 x % 10) := by
  have hlen := toString_digit_length (roundScaled 1 x % 10) (Nat.mod_lt _ (by norm_num))
  have hpad : padZeros 1 (toString (roundScaled 1 x % 10)) = toString (roundScaled 1 x % 10) := by
    unfold padZeros
    rw [hlen]
    rfl
  unfold toFixed
  simp only [not_lt.2 hx, if_false, Nat.one_ne_zero, pow_one, hpad]
  rfl

theorem tooltipTotal_bounds (data : List ℚ) (T : ℚ)
    (hdata : ∀ x ∈ data, 0 ≤ x ∧ roundDouble x = .finite x)
    (htotal : tooltipTotal data = .finite T) :
    data.sum * (1 - 1 / 2 ^ (53 : ℕ)) ^ data.length ≤ T
      ∧ T ≤ data.sum * (1 + 1 / 2 ^ (53 : ℕ)) ^ data.length := by
  have hb := foldl_add_bounds data 0 0 T 0 hdata le_rfl le_rfl ⟨0, by simp⟩ (by simp) (by simp)
    htotal
  simpa only [zero_add] using hb

/-- The double `(value / total) * 100` of line 74 is finite, non-negative and within
`(length + 2) / 2^44` of the exact `100 * value / sum(data)`. -/
theorem tooltipPercentageValue_near (data : List ℚ) (value T : ℚ)
    (hdata : ∀ x ∈ data, 0 ≤ x ∧ roundDouble x = .finite x)
    (hvalue : value ∈ data) (hlen : data.length < 2 ^ 32)
    (hpos : 0 < data.sum) (htotal : tooltipTotal data = .finite T) :
    ∃ p : ℚ, tooltipPercentageValue data value = .finite p ∧ 0 ≤ p
      ∧ |p - 100 * value / data.sum| ≤ ((data.length : ℚ) + 2) / 2 ^ (44 : ℕ) := by
  obtain ⟨hlo, hhi⟩ := tooltipTotal_bounds data T hdata htotal
  have hv0 : 0 ≤ value := (hdata value hvalue).1
  have hvS : value ≤ data.sum := List.single_le_sum (fun x hx => (hdata x hx).1) value hvalue
  -- the constants
  have hn : (data.length : ℚ) < 2 ^ (32 : ℕ) := by exact_mod_cast hlen
  have hn0 : (0 : ℚ) ≤ (data.length : ℚ) := Nat.cast_nonneg _
  generalize data.length = n at hlo hhi hn hn0 ⊢
  generalize data.sum = S at hlo hhi hpos hvS ⊢
  have hL : 0 < (1 - 1 / 2 ^ (53 : ℕ) : ℚ) ^ n := pow_pos (by norm_num) n
  have hU : 0 < (1 + 1 / 2 ^ (53 : ℕ) : ℚ) ^ n := pow_pos (by norm_num) n
  have hT : 0 < T := lt_of_lt_of_le (mul_pos hpos hL) hlo
  -- the exact quotient and the quotient by the double total
  have ha0 : 0 ≤ value / S := div_nonneg hv0 (le_of_lt hpos)
  have ha1 : value / S ≤ 1 := (div_le_one hpos).2 hvS
  have hxhi : value / T ≤ value / S * (1 + 2 / 2 ^ (53 : ℕ)) ^ n := by
    have h1 : value / T ≤ value / (S * (1 - 1 / 2 ^ (53 : ℕ)) ^ n) :=
      div_le_div_of_nonneg_left hv0 (mul_pos hpos hL) hlo
    have h2 : value / (S * (1 - 1 / 2 ^ (53 : ℕ)) ^ n)
        = value / S * (1 / (1 - 1 / 2 ^ (53 : ℕ))) ^ n := by
      rw [one_div_pow]; field_simp
    have h3 : (1 / (1 - 1 / 2 ^ (53 : ℕ)) : ℚ) ^ n ≤ (1 + 2 / 2 ^ (53 : ℕ)) ^ n :=
      pow_le_pow_left₀ (by norm_num) (by norm_num) n
    rw [h2] at h1
    exact le_trans h1 (mul_le_mul_of_nonneg_left h3 ha0)
  have hxlo : value / S * (1 - 1 / 2 ^ (53 : ℕ)) ^ n ≤ value / T := by
    have h1 : value / (S * (1 + 1 / 2 ^ (53 : ℕ)) ^ n) ≤ value / T :=
      div_le_div_of_nonneg_left hv0 hT hhi
    have h2 : value / (S * (1 + 1 / 2 ^ (53 : ℕ)) ^ n)
        = value / S * (1 / (1 + 1 / 2 ^ (53 : ℕ))) ^ n := by
      rw [one_div_pow]; field_simp
    have h3 : (1 - 1 / 2 ^ (53 : ℕ) : ℚ) ^ n ≤ (1 / (1 + 1 / 2 ^ (53 : ℕ))) ^ n :=
      pow_le_pow_left₀ (by norm_num) (by norm_num) n
    rw [h2] at h1
    exact le_trans (mul_le_mul_of_nonneg_left h3 ha0) h1
  -- the growth of the rounding factors over the additions, the division and the product
  have hE : (1 + 2 / 2 ^ (53 : ℕ) : ℚ) ^ (n + 2)
      ≤ 1 + 2 * ((n + 2 : ℕ) : ℚ) * (2 / 2 ^ (53 : ℕ)) := by
    apply one_add_pow_le _ (by norm_num)
    push_cast
    have : (n : ℚ) + 2 ≤ 2 ^ (33 : ℕ) := by
      have : (2 : ℚ) ^ (32 : ℕ) + 2 ≤ 2 ^ (33 : ℕ) := by norm_num
      linarith
    have h2 : 2 * ((n : ℚ) + 2) * (2 / 2 ^ (53 : ℕ)) ≤ 2 * 2 ^ (33 : ℕ) * (2 / 2 ^ (53 : ℕ)) := by
      apply mul_le_mul_of_nonneg_right _ (by norm_num)
      linarith
    refine le_trans h2 ?_
    norm_num
  have hD : 1 - ((n + 2 : ℕ) : ℚ) * (1 / 2 ^ (53 : ℕ)) ≤ (1 - 1 / 2 ^ (53 : ℕ) : ℚ) ^ (n + 2) :=
    one_sub_pow_ge _ (by norm_num) (n + 2)
  push_cast at hE hD
  rw [pow_add] at hE hD
  have hEn1 : (1 : ℚ) ≤ (1 + 2 / 2 ^ (53 : ℕ) : ℚ) ^ n := one_le_pow₀ (by norm_num)
  have hDn1 : (1 - 1 / 2 ^ (53 : ℕ) : ℚ) ^ n ≤ 1 := pow_le_one₀ (by norm_num) (by norm_num)
  generalize (1 + 2 / 2 ^ (53 : ℕ) : ℚ) ^ n = En at hxhi hE hEn1
  generalize (1 - 1 / 2 ^ (53 : ℕ) : ℚ) ^ n = Dn at hxlo hD hDn1 hL hlo
  have hEn2 : En ≤ 2 := by
    have : En * 1 ≤ En * (1 + 2 / 2 ^ (53 : ℕ)) ^ 2 :=
      mul_le_mul_of_nonneg_left (by norm_num) (by linarith)
    have h3 : (2 : ℚ) * (n + 2) * (2 / 2 ^ (53 : ℕ)) ≤ 1 := by
      have : (n : ℚ) + 2 ≤ 2 ^ (33 : ℕ) := by
        have : (2 : ℚ) ^ (32 : ℕ) + 2 ≤ 2 ^ (33 : ℕ) := by norm_num
        linarith
      have h2 : 2 * ((n : ℚ) + 2) * (2 / 2 ^ (53 : ℕ))
          ≤ 2 * 2 ^ (33 : ℕ) * (2 / 2 ^ (53 : ℕ)) := by
        apply mul_le_mul_of_nonneg_right _ (by norm_num)
        linarith
      refine le_trans h2 ?_
      norm_num
    linarith
  -- the quotient
  have hx0 : 0 ≤ value / T := div_nonneg hv0 (le_of_lt hT)
  have hx2 : value / T ≤ 2 := by
    have : value / S * En ≤ 1 * 2 := mul_le_mul ha1 hEn2 (by linarith) (by norm_num)
    linarith
  obtain ⟨q, hq⟩ := roundDouble_isFinite (value / T) (by
    rw [abs_of_nonneg hx0]
    exact le_trans hx2 (by norm_num))
  have hq0 : 0 ≤ q := roundDouble_nonneg _ _ hx0 hq
  obtain ⟨hqlo, hqhi⟩ := roundDouble_bounds _ _ hx0 hq
  have heta0 : (0 : ℚ) < (2 : ℚ) ^ (-1075 : ℤ) := by positivity
  have heta1 : (2 : ℚ) ^ (-1075 : ℤ) ≤ 1 / 2 ^ (53 : ℕ) := by
    rw [show (1 : ℚ) / 2 ^ (53 : ℕ) = (2 : ℚ) ^ (-53 : ℤ) by norm_num]
    exact zpow_le_zpow_right₀ (by norm_num) (by norm_num)
  have hq5 : q ≤ 5 := by
    have : value / T * (1 + 1 / 2 ^ (53 : ℕ)) ≤ 2 * 2 :=
      mul_le_mul hx2 (by norm_num) (by norm_num) (by norm_num)
    have h1 : (1 : ℚ) / 2 ^ (53 : ℕ) ≤ 1 := by norm_num
    linarith
  -- the product
  have hy0 : 0 ≤ q * 100 := by positivity
  obtain ⟨p, hp⟩ := roundDouble_isFinite (q * 100) (by
    rw [abs_of_nonneg hy0]
    have : q * 100 ≤ 500 := by linarith
    exact le_trans this (by norm_num))
  have hp0 : 0 ≤ p := roundDouble_nonneg _ _ hy0 hp
  obtain ⟨hplo, hphi⟩ := roundDouble_bounds _ _ hy0 hp
  refine ⟨p, ?_, hp0, ?_⟩
  · unfold tooltipPercentageValue
    rw [htotal]
    simp only [JsNumber.div, if_neg (ne_of_gt hT), hq, JsNumber.mul, hp]
  · generalize (2 : ℚ) ^ (-1075 : ℤ) = eta at hqlo hqhi hplo hphi heta0 heta1
    generalize value / T = x at hxhi hxlo hx0 hx2 hqlo hqhi
    have hp' : 100 * value / S = 100 * (value / S) := by ring
    rw [hp']
    generalize value / S = a at ha0 ha1 hxhi hxlo ⊢
    rw [abs_le]
    constructor
    · -- from below
      have h3 : a * (1 - ((n : ℚ) + 2) * (1 / 2 ^ (53 : ℕ)))
          ≤ a * (Dn * (1 - 1 / 2 ^ (53 : ℕ)) ^ 2) := mul_le_mul_of_nonneg_left hD ha0
      have h4 : a * ((n : ℚ) + 2) ≤ 1 * ((n : ℚ) + 2) :=
        mul_le_mul_of_nonneg_right ha1 (by linarith)
      have h5 : ((n : ℚ) + 2) / 2 ^ (44 : ℕ) = 512 * (((n : ℚ) + 2) * (1 / 2 ^ (53 : ℕ))) := by
        norm_num; ring
      rw [h5]
      have e3 : a * (Dn * (1 - 1 / 2 ^ (53 : ℕ)) ^ 2)
          = (a * Dn) * ((1 - 1 / 2 ^ (53 : ℕ)) ^ 2) := by ring
      have e4 : a * (1 - ((n : ℚ) + 2) * (1 / 2 ^ (53 : ℕ)))
          = a - (a * ((n : ℚ) + 2)) * (1 / 2 ^ (53 : ℕ)) := by ring
      rw [e3, e4] at h3
      generalize a * Dn = aD at h3 hxlo
      generalize a * ((n : ℚ) + 2) = an at h3 h4
      norm_num at h3 hqlo hplo heta1 ⊢
      linarith
    · -- from above
      have haE : 0 ≤ a * En := mul_nonneg ha0 (by linarith)
      have h3 : a * (En * (1 + 2 / 2 ^ (53 : ℕ)) ^ 2)
          ≤ a * (1 + 2 * ((n : ℚ) + 2) * (2 / 2 ^ (53 : ℕ))) := mul_le_mul_of_nonneg_left hE ha0
      have h4 : a * ((n : ℚ) + 2) ≤ 1 * ((n : ℚ) + 2) :=
        mul_le_mul_of_nonneg_right ha1 (by linarith)
      have h5 : ((n : ℚ) + 2) / 2 ^ (44 : ℕ) = 512 * (((n : ℚ) + 2) * (1 / 2 ^ (53 : ℕ))) := by
        norm_num; ring
      rw [h5]
      have e3 : a * (En * (1 + 2 / 2 ^ (53 : ℕ)) ^ 2)
          = (a * En) * ((1 + 2 / 2 ^ (53 : ℕ)) ^ 2) := by ring
      have e4 : a * (1 + 2 * ((n : ℚ) + 2) * (2 / 2 ^ (53 : ℕ)))
          = a + (a * ((n : ℚ) + 2)) * (4 / 2 ^ (53 : ℕ)) := by ring
      rw [e3, e4] at h3
      generalize a * En = aE at h3 hxhi haE
      generalize a * ((n : ℚ) + 2) = an at h3 h4
      norm_num at h3 hqhi hphi heta1 ⊢
      linarith

/-- Rounding to the nearest integer, with the even one on a tie, finds `m` when `x` is
within a half of `m` and `m` is even in case of a tie. -/
theorem roundHalfEven_eq_of_le (x : ℚ) (m : ℤ)
    (h : |x - m| < 1 / 2 ∨ (|x - m| = 1 / 2 ∧ m % 2 = 0)) : roundHalfEven x = m := by
  rcases h with h | ⟨h, heven⟩
  · exact roundHalfEven_eq_of_near x m h
  · rcases abs_eq (show (0 : ℚ) ≤ 1 / 2 by norm_num) |>.1 h with h1 | h1
    · have hx : x = (m : ℚ) + 1 / 2 := by linarith
      have hfl : ⌊x⌋ = m := by
        rw [Int.floor_eq_iff]
        constructor <;> linarith
      unfold roundHalfEven
      rw [hfl]
      have e1 : ¬ (x - (m : ℚ) < 1 / 2) := by rw [hx]; norm_num
      have e2 : ¬ ((1 : ℚ) / 2 < x - (m : ℚ)) := by rw [hx]; norm_num
      rw [if_neg e1, if_neg e2, if_pos heven]
    · have hx : x = (m : ℚ) - 1 / 2 := by linarith
      have hfl : ⌊x⌋ = m - 1 := by
        rw [Int.floor_eq_iff]
        push_cast
        constructor <;> linarith
      unfold roundHalfEven
      rw [hfl]
      have e1 : ¬ (x - ((m - 1 : ℤ) : ℚ) < 1 / 2) := by rw [hx]; push_cast; norm_num
      have e2 : ¬ ((1 : ℚ) / 2 < x - ((m - 1 : ℤ) : ℚ)) := by rw [hx]; push_cast; norm_num
      have e3 : ¬ ((m - 1) % 2 = 0) := by omega
      rw [if_neg e1, if_neg e2, if_neg e3]
      ring

/-- The double nearest to a normal `x` of binade `e` is `m * 2^(e-52)` for the integer
`m` nearest to `x / 2^(e-52)`, the even one on a tie. -/
theorem roundDouble_eval (x : ℚ) (e m : ℤ) (he : -1022 ≤ e)
    (hlo : (2 : ℚ) ^ e ≤ |x|) (hhi : |x| < (2 : ℚ) ^ (e + 1))
    (hm : |x / (2 : ℚ) ^ (e - 52) - m| < 1 / 2
      ∨ (|x / (2 : ℚ) ^ (e - 52) - m| = 1 / 2 ∧ m % 2 = 0))
    (hfin : |(m : ℚ) * (2 : ℚ) ^ (e - 52)| < (2 : ℚ) ^ (1024 : ℕ)) :
    roundDouble x = .finite ((m : ℚ) * (2 : ℚ) ^ (e - 52)) := by
  have hpos : 0 < |x| := lt_of_lt_of_le (by positivity) hlo
  have h1 : e ≤ Int.log 2 |x| := (Int.zpow_le_iff_le_log (by norm_num) hpos).1 hlo
  have h2 : Int.log 2 |x| < e + 1 := (Int.lt_zpow_iff_log_lt (by norm_num) hpos).1 hhi
  have hb : binade x = e := by
    unfold binade
    rw [max_eq_left (by omega)]
    omega
  unfold roundDouble
  rw [hb, roundHalfEven_eq_of_le _ m hm, if_neg (not_le.2 hfin)]


/-- A result whose nearest multiple of `2^(e-52)` is `2^1024` or more in absolute value
overflows to an infinity. -/
theorem roundDouble_eval_overflow (x : ℚ) (e m : ℤ) (he : -1022 ≤ e)
    (hlo : (2 : ℚ) ^ e ≤ |x|) (hhi : |x| < (2 : ℚ) ^ (e + 1))
    (hm : |x / (2 : ℚ) ^ (e - 52) - m| < 1 / 2
      ∨ (|x / (2 : ℚ) ^ (e - 52) - m| = 1 / 2 ∧ m % 2 = 0))
    (hbig : (2 : ℚ) ^ (1024 : ℕ) ≤ |(m : ℚ) * (2 : ℚ) ^ (e - 52)|) :
    roundDouble x = .infinity (decide (x < 0)) := by
  have hpos : 0 < |x| := lt_of_lt_of_le (by positivity) hlo
  have h1 : e ≤ Int.log 2 |x| := (Int.zpow_le_iff_le_log (by norm_num) hpos).1 hlo
  have h2 : Int.log 2 |x| < e + 1 := (Int.lt_zpow_iff_log_lt (by norm_num) hpos).1 hhi
  have hb : binade x = e := by
    unfold binade
    rw [max_eq_left (by omega)]
    omega
  unfold roundDouble
  rw [hb, roundHalfEven_eq_of_le _ m hm, if_pos hbig]

/-- The double sum of non-negative doubles whose exact sum stays below the largest
binade does not overflow. -/
theorem foldl_add_finite :
    ∀ (data : List ℚ) (acc A : ℚ) (k : ℕ),
      (∀ x ∈ data, 0 ≤ x ∧ roundDouble x = .finite x) →
      0 ≤ A → 0 ≤ acc → (∃ m : ℤ, acc = (m : ℚ) * (2 : ℚ) ^ (-1074 : ℤ)) →
      acc ≤ A * (1 + 1 / 2 ^ (53 : ℕ)) ^ k →
      (A + data.sum) * (1 + 1 / 2 ^ (53 : ℕ)) ^ (k + data.length) ≤ (2 : ℚ) ^ (1023 : ℕ) →
      ∃ T, data.foldl (fun a b => JsNumber.add a (.finite b)) (.finite acc) = .finite T := by
  intro data
  induction data with
  | nil =>
    intro acc A k _ _ _ _ _ _
    exact ⟨acc, rfl⟩
  | cons x xs ih =>
    intro acc A k hdata hA hacc hgrid hhi hmax
    obtain ⟨hx0, hxd⟩ := hdata x (List.mem_cons_self _ _)
    have hrest : ∀ z ∈ xs, 0 ≤ z ∧ roundDouble z = .finite z :=
      fun z hz => hdata z (List.mem_cons_of_mem _ hz)
    have hs0 : 0 ≤ xs.sum := List.sum_nonneg (fun z hz => (hrest z hz).1)
    simp only [List.foldl_cons]
    have hadd : JsNumber.add (.finite acc) (.finite x) = roundDouble (acc + x) := rfl
    rw [hadd]
    have hU1 : (1 : ℚ) ≤ 1 + 1 / 2 ^ (53 : ℕ) := by norm_num
    have hUk : (1 : ℚ) ≤ (1 + 1 / 2 ^ (53 : ℕ)) ^ k := one_le_pow₀ hU1
    have hUr : (1 : ℚ) ≤ (1 + 1 / 2 ^ (53 : ℕ)) ^ (1 + xs.length) := one_le_pow₀ hU1
    have e1 : A + x + xs.sum = A + (x :: xs).sum := by simp [List.sum_cons]; ring
    have e2 : k + 1 + xs.length = k + (x :: xs).length := by simp [List.length_cons]; ring
    have h1 : acc + x ≤ (A + x) * (1 + 1 / 2 ^ (53 : ℕ)) ^ k := by
      have : x ≤ x * (1 + 1 / 2 ^ (53 : ℕ)) ^ k := by
        calc x = x * 1 := (mul_one x).symm
          _ ≤ x * (1 + 1 / 2 ^ (53 : ℕ)) ^ k := mul_le_mul_of_nonneg_left hUk hx0
      linarith
    have hAk : 0 ≤ (A + x) * (1 + 1 / 2 ^ (53 : ℕ)) ^ k :=
      mul_nonneg (add_nonneg hA hx0) (by linarith)
    have h2 : (A + x) * (1 + 1 / 2 ^ (53 : ℕ)) ^ k ≤ (2 : ℚ) ^ (1023 : ℕ) := by
      refine le_trans ?_ hmax
      rw [← e2, ← e1, add_assoc k 1, pow_add, ← mul_assoc]
      calc (A + x) * (1 + 1 / 2 ^ (53 : ℕ)) ^ k
          = (A + x) * (1 + 1 / 2 ^ (53 : ℕ)) ^ k * 1 := (mul_one _).symm
        _ ≤ (A + x) * (1 + 1 / 2 ^ (53 : ℕ)) ^ k * (1 + 1 / 2 ^ (53 : ℕ)) ^ (1 + xs.length) :=
            mul_le_mul_of_nonneg_left hUr hAk
        _ ≤ (A + x + xs.sum) * (1 + 1 / 2 ^ (53 : ℕ)) ^ k
              * (1 + 1 / 2 ^ (53 : ℕ)) ^ (1 + xs.length) := by
            apply mul_le_mul_of_nonneg_right _ (by linarith)
            apply mul_le_mul_of_nonneg_right _ (by linarith)
            linarith
    obtain ⟨y, hy⟩ := roundDouble_isFinite (acc + x) (by
      rw [abs_of_nonneg (add_nonneg hacc hx0)]
      exact le_trans h1 h2)
    rw [hy]
    have hb := roundDouble_add_bounds acc x y hacc hx0 hgrid (roundDouble_grid x x hxd) hy
    have hy0 : 0 ≤ y := roundDouble_nonneg _ _ (add_nonneg hacc hx0) hy
    have hhi' : y ≤ (A + x) * (1 + 1 / 2 ^ (53 : ℕ)) ^ (k + 1) := by
      calc y ≤ (acc + x) * (1 + 1 / 2 ^ (53 : ℕ)) := hb.2
        _ ≤ ((A + x) * (1 + 1 / 2 ^ (53 : ℕ)) ^ k) * (1 + 1 / 2 ^ (53 : ℕ)) :=
            mul_le_mul_of_nonneg_right h1 (by linarith)
        _ = (A + x) * (1 + 1 / 2 ^ (53 : ℕ)) ^ (k + 1) := by ring
    refine ih y (A + x) (k + 1) hrest (add_nonneg hA hx0) hy0 (roundDouble_grid _ _ hy) hhi' ?_
    rw [e1, e2]
    exact hmax

/-- The total of line 73 is a finite double when the exact sum is at most `2^1022`. -/
theorem tooltipTotal_finite (data : List ℚ)
    (hdata : ∀ x ∈ data, 0 ≤ x ∧ roundDouble x = .finite x)
    (hlen : data.length < 2 ^ 32) (hmax : data.sum ≤ (2 : ℚ) ^ (1022 : ℕ)) :
    ∃ T, tooltipTotal data = .finite T := by
  have hs0 : 0 ≤ data.sum := List.sum_nonneg (fun z hz => (hdata z hz).1)
  have hn : (data.length : ℚ) < 2 ^ (32 : ℕ) := by exact_mod_cast hlen
  have hpow : (1 + 1 / 2 ^ (53 : ℕ) : ℚ) ^ data.length ≤ 2 := by
    have h1 := one_add_pow_le (1 / 2 ^ (53 : ℕ) : ℚ) (by norm_num) data.length (by
      have : 2 * (data.length : ℚ) * (1 / 2 ^ (53 : ℕ)) ≤ 2 * 2 ^ (32 : ℕ) * (1 / 2 ^ (53 : ℕ)) := by
        apply mul_le_mul_of_nonneg_right _ (by norm_num)
        linarith
      exact le_trans this (by norm_num))
    have h2 : 2 * (data.length : ℚ) * (1 / 2 ^ (53 : ℕ)) ≤ 1 := by
      have : 2 * (data.length : ℚ) * (1 / 2 ^ (53 : ℕ)) ≤ 2 * 2 ^ (32 : ℕ) * (1 / 2 ^ (53 : ℕ)) := by
        apply mul_le_mul_of_nonneg_right _ (by norm_num)
        linarith
      exact le_trans this (by norm_num)
    linarith
  refine foldl_add_finite data 0 0 0 hdata le_rfl le_rfl ⟨0, by simp⟩ (by simp) ?_
  rw [zero_add, zero_add]
  calc data.sum * (1 + 1 / 2 ^ (53 : ℕ)) ^ data.length
      ≤ (2 : ℚ) ^ (1022 : ℕ) * 2 := mul_le_mul hmax hpow (by positivity) (by positivity)
    _ = (2 : ℚ) ^ (1023 : ℕ) := by norm_num

/-- The string that `toFixed(1)` prints for a finite non-negative percentage value. -/
theorem tooltipPercentage_of_value (data : List ℚ) (value p : ℚ) (n : ℕ)
    (hp : tooltipPercentageValue data value = .finite p) (h0 : 0 ≤ p)
    (hlo : (n : ℚ) ≤ p * 10 + 1 / 2) (hhi : p * 10 + 1 / 2 < (n : ℚ) + 1) :
    tooltipPercentage data value = toString (n / 10) ++ "." ++ toString (n % 10) := by
  have hn : roundScaled 1 p = n := by
    rw [roundScaled_eq_floor, abs_of_nonneg h0, pow_one]
    exact (Nat.floor_eq_iff (by positivity)).2 ⟨hlo, hhi⟩
  unfold tooltipPercentage
  rw [hp]
  show toFixed 1 p = _
  rw [toFixed_one_of_nonneg p h0, hn]

/-- The percentage shown for a slice of a dataset of non-negative doubles, in any
order of the dataset. -/
theorem tooltipPercentage_shown (data : List ℚ) (value : ℚ)
    (hdata : ∀ x ∈ data, 0 ≤ x ∧ roundDouble x = .finite x)
    (hvalue : value ∈ data) (hlen : data.length < 2 ^ 32)
    (hpos : 0 < data.sum) (hmax : data.sum ≤ (2 : ℚ) ^ (1022 : ℕ)) :
    ∃ n : ℕ,
      tooltipPercentage data value = toString (n / 10) ++ "." ++ toString (n % 10)
      ∧ |(n : ℚ) / 10 - 100 * value / data.sum|
          ≤ 1 / 20 + ((data.length : ℚ) + 2) / 2 ^ (44 : ℕ)
      ∧ ∀ m : ℕ,
          (m : ℚ) + 10 * (((data.length : ℚ) + 2) / 2 ^ (44 : ℕ))
              ≤ 1000 * value / data.sum + 1 / 2 →
          1000 * value / data.sum + 1 / 2 + 10 * (((data.length : ℚ) + 2) / 2 ^ (44 : ℕ))
              < (m : ℚ) + 1 →
          n = m := by
  obtain ⟨T, hT⟩ := tooltipTotal_finite data hdata hlen hmax
  obtain ⟨p, hp, hp0, hnear⟩ := tooltipPercentageValue_near data value T hdata hvalue hlen hpos hT
  have hnn : (0 : ℚ) ≤ p * 10 + 1 / 2 := by linarith
  have hfl : roundScaled 1 p = ⌊p * 10 + 1 / 2⌋₊ := by
    rw [roundScaled_eq_floor, abs_of_nonneg hp0, pow_one]
  refine ⟨roundScaled 1 p, ?_, ?_, ?_⟩
  · unfold tooltipPercentage
    rw [hp]
    show toFixed 1 p = _
    exact toFixed_one_of_nonneg p hp0
  · have h1 := roundScaled_one_near p hp0
    calc |(roundScaled 1 p : ℚ) / 10 - 100 * value / data.sum|
        = |((roundScaled 1 p : ℚ) / 10 - p) + (p - 100 * value / data.sum)| := by ring_nf
      _ ≤ |(roundScaled 1 p : ℚ) / 10 - p| + |p - 100 * value / data.sum| := abs_add _ _
      _ ≤ 1 / 20 + ((data.length : ℚ) + 2) / 2 ^ (44 : ℕ) := add_le_add h1 hnear
  · intro m hlo hhi
    rw [hfl, Nat.floor_eq_iff hnn]
    rw [abs_le] at hnear
    have e : 1000 * value / data.sum = 10 * (100 * value / data.sum) := by ring
    rw [e] at hlo hhi
    constructor <;> linarith [hnear.1, hnear.2]

/-! ### Four datasets -/

theorem JsNumber.add_finite (a b : ℚ) :
    JsNumber.add (.finite a) (.finite b) = roundDouble (a + b) := rfl

theorem JsNumber.mul_finite (a b : ℚ) :
    JsNumber.mul (.finite a) (.finite b) = roundDouble (a * b) := rfl

theorem JsNumber.div_finite (a b : ℚ) (hb : b ≠ 0) :
    JsNumber.div (.finite a) (.finite b) = roundDouble (a / b) := by
  simp only [JsNumber.div, if_neg hb]

theorem JsNumber.div_infinity (a : ℚ) (n : Bool) :
    JsNumber.div (.finite a) (.infinity n) = .finite 0 := rfl

theorem tooltipTotal_pair (a b : ℚ) :
    tooltipTotal [a, b] = JsNumber.add (JsNumber.add (.finite 0) (.finite a)) (.finite b) :=
  rfl

theorem tooltipTotal_triple (a b c : ℚ) :
    tooltipTotal [a, b, c]
      = JsNumber.add (JsNumber.add (JsNumber.add (.finite 0) (.finite a)) (.finite b))
          (.finite c) :=
  rfl

theorem roundDouble_ints_add0 :
    roundDouble (0 + 23) = .finite (23) := by
  have h := roundDouble_eval (0 + 23) (4) 6473924464345088 (by norm_num)
    (by norm_num [abs_of_nonneg]) (by norm_num [abs_of_nonneg])
    (Or.inl (by norm_num [abs_lt])) (by norm_num [abs_lt])
  rw [h]
  congr 1
  norm_num

theorem roundDouble_ints_add1 :
    roundDouble (23 + 57) = .finite (80) := by
  have h := roundDouble_eval (23 + 57) (6) 5629499534213120 (by norm_num)
    (by norm_num [abs_of_nonneg]) (by norm_num [abs_of_nonneg])
    (Or.inl (by norm_num [abs_lt])) (by norm_num [abs_lt])
  rw [h]
  congr 1
  norm_num

theorem roundDouble_ints_div :
    roundDouble (23 / 80) = .finite (2589569785738035 / 9007199254740992) := by
  have h := roundDouble_eval (23 / 80) (-2) 5179139571476070 (by norm_num)
    (by norm_num [abs_of_nonneg]) (by norm_num [abs_of_nonneg])
    (Or.inl (by norm_num [abs_lt])) (by norm_num [abs_lt])
  rw [h]
  congr 1
  norm_num

theorem roundDouble_ints_mul :
    roundDouble (2589569785738035 / 9007199254740992 * 100) = .finite (8092405580431359 / 281474976710656) := by
  have h := roundDouble_eval (2589569785738035 / 9007199254740992 * 100) (4) 8092405580431359 (by norm_num)
    (by norm_num [abs_of_nonneg]) (by norm_num [abs_of_nonneg])
    (Or.inl (by norm_num [abs_lt])) (by norm_num [abs_lt])
  rw [h]
  congr 1
  norm_num

theorem tooltipPercentageValue_ints :
    tooltipPercentageValue [23, 57] (23) = .finite (8092405580431359 / 281474976710656) := by
  unfold tooltipPercentageValue
  rw [tooltipTotal_pair, JsNumber.add_finite, roundDouble_ints_add0, JsNumber.add_finite, roundDouble_ints_add1, JsNumber.div_finite _ _ (by norm_num), roundDouble_ints_div, JsNumber.mul_finite, roundDouble_ints_mul]

theorem tooltipPercentage_ints :
    tooltipPercentage [23, 57] (23) = "28.7" :=
  (tooltipPercentage_of_value _ _ _ 287 tooltipPercentageValue_ints (by norm_num)
    (by norm_num) (by norm_num)).trans (by decide)

theorem roundDouble_forward_add0 :
    roundDouble (0 + 3477623337260155 / 140737488355328) = .finite (3477623337260155 / 140737488355328) := by
  have h := roundDouble_eval (0 + 3477623337260155 / 140737488355328) (4) 6955246674520310 (by norm_num)
    (by norm_num [abs_of_nonneg]) (by norm_num [abs_of_nonneg])
    (Or.inl (by norm_num [abs_lt])) (by norm_num [abs_lt])
  rw [h]
  congr 1
  norm_num

theorem roundDouble_forward_add1 :
    roundDouble (3477623337260155 / 140737488355328 + 7906632095802327 / 281474976710656) = .finite (3715469692580659 / 70368744177664) := by
  have h := roundDouble_eval (3477623337260155 / 140737488355328 + 7906632095802327 / 281474976710656) (5) 7430939385161318 (by norm_num)
    (by norm_num [abs_of_nonneg]) (by norm_num [abs_of_nonneg])
    (Or.inr ⟨by norm_num [abs_of_nonneg, abs_of_nonpos], by decide⟩) (by norm_num [abs_lt])
  rw [h]
  congr 1
  norm_num

theorem roundDouble_forward_add2 :
    roundDouble (3715469692580659 / 70368744177664 + 24) = .finite (5404319552844595 / 70368744177664) := by
  have h := roundDouble_eval (3715469692580659 / 70368744177664 + 24) (6) 5404319552844595 (by norm_num)
    (by norm_num [abs_of_nonneg]) (by norm_num [abs_of_nonneg])
    (Or.inl (by norm_num [abs_lt])) (by norm_num [abs_lt])
  rw [h]
  congr 1
  norm_num

theorem roundDouble_forward_div :
    roundDouble (24 / (5404319552844595 / 70368744177664)) = .finite (5 / 16) := by
  have h := roundDouble_eval (24 / (5404319552844595 / 70368744177664)) (-2) 5629499534213120 (by norm_num)
    (by norm_num [abs_of_nonneg]) (by norm_num [abs_of_nonneg])
    (Or.inl (by norm_num [abs_lt])) (by norm_num [abs_lt])
  rw [h]
  congr 1
  norm_num

theorem roundDouble_forward_mul :
    roundDouble (5 / 16 * 100) = .finite (125 / 4) := by
  have h := roundDouble_eval (5 / 16 * 100) (4) 8796093022208000 (by norm_num)
    (by norm_num [abs_of_nonneg]) (by norm_num [abs_of_nonneg])
    (Or.inl (by norm_num [abs_lt])) (by norm_num [abs_lt])
  rw [h]
  congr 1
  norm_num

theorem tooltipPercentageValue_forward :
    tooltipPercentageValue [3477623337260155 / 140737488355328, 7906632095802327 / 281474976710656, 24] (24) = .finite (125 / 4) := by
  unfold tooltipPercentageValue
  rw [tooltipTotal_triple, JsNumber.add_finite, roundDouble_forward_add0, JsNumber.add_finite, roundDouble_forward_add1, JsNumber.add_finite, roundDouble_forward_add2, JsNumber.div_finite _ _ (by norm_num), roundDouble_forward_div, JsNumber.mul_finite, roundDouble_forward_mul]

theorem tooltipPercentage_forward :
    tooltipPercentage [3477623337260155 / 140737488355328, 7906632095802327 / 281474976710656, 24] (24) = "31.3" :=
  (tooltipPercentage_of_value _ _ _ 313 tooltipPercentageValue_forward (by norm_num)
    (by norm_num) (by norm_num)).trans (by decide)

theorem roundDouble_reversed_add0 :
    roundDouble (0 + 24) = .finite (24) := by
  have h := roundDouble_eval (0 + 24) (4) 6755399441055744 (by norm_num)
    (by norm_num [abs_of_nonneg]) (by norm_num [abs_of_nonneg])
    (Or.inl (by norm_num [abs_lt])) (by norm_num [abs_lt])
  rw [h]
  congr 1
  norm_num

theorem roundDouble_reversed_add1 :
    roundDouble (24 + 7906632095802327 / 281474976710656) = .finite (1832753942107259 / 35184372088832) := by
  have h := roundDouble_eval (24 + 7906632095802327 / 281474976710656) (5) 7331015768429036 (by norm_num)
    (by norm_num [abs_of_nonneg]) (by norm_num [abs_of_nonneg])
    (Or.inr ⟨by norm_num [abs_of_nonneg, abs_of_nonpos], by decide⟩) (by norm_num [abs_lt])
  rw [h]
  congr 1
  norm_num

theorem roundDouble_reversed_add2 :
    roundDouble (1832753942107259 / 35184372088832 + 3477623337260155 / 140737488355328) = .finite (1351079888211149 / 17592186044416) := by
  have h := roundDouble_eval (1832753942107259 / 35184372088832 + 3477623337260155 / 140737488355328) (6) 5404319552844596 (by norm_num)
    (by norm_num [abs_of_nonneg]) (by norm_num [abs_of_nonneg])
    (Or.inr ⟨by norm_num [abs_of_nonneg, abs_of_nonpos], by decide⟩) (by norm_num [abs_lt])
  rw [h]
  congr 1
  norm_num

theorem roundDouble_reversed_div :
    roundDouble (24 / (1351079888211149 / 17592186044416)) = .finite (5629499534213119 / 18014398509481984) := by
  have h := roundDouble_eval (24 / (1351079888211149 / 17592186044416)) (-2) 5629499534213119 (by norm_num)
    (by norm_num [abs_of_nonneg]) (by norm_num [abs_of_nonneg])
    (Or.inl (by norm_num [abs_lt])) (by norm_num [abs_lt])
  rw [h]
  congr 1
  norm_num

theorem roundDouble_reversed_mul :
    roundDouble (5629499534213119 / 18014398509481984 * 100) = .finite (4398046511103999 / 140737488355328) := by
  have h := roundDouble_eval (5629499534213119 / 18014398509481984 * 100) (4) 8796093022207998 (by norm_num)
    (by norm_num [abs_of_nonneg]) (by norm_num [abs_of_nonneg])
    (Or.inl (by norm_num [abs_lt])) (by norm_num [abs_lt])
  rw [h]
  congr 1
  norm_num

theorem tooltipPercentageValue_reversed :
    tooltipPercentageValue [24, 7906632095802327 / 281474976710656, 3477623337260155 / 140737488355328] (24) = .finite (4398046511103999 / 140737488355328) := by
  unfold tooltipPercentageValue
  rw [tooltipTotal_triple, JsNumber.add_finite, roundDouble_reversed_add0, JsNumber.add_finite, roundDouble_reversed_add1, JsNumber.add_finite, roundDouble_reversed_add2, JsNumber.div_finite _ _ (by norm_num), roundDouble_reversed_div, JsNumber.mul_finite, roundDouble_reversed_mul]

theorem tooltipPercentage_reversed :
    tooltipPercentage [24, 7906632095802327 / 281474976710656, 3477623337260155 / 140737488355328] (24) = "31.2" :=
  (tooltipPercentage_of_value _ _ _ 312 tooltipPercentageValue_reversed (by norm_num)
    (by norm_num) (by norm_num)).trans (by decide)

theorem roundDouble_2471 :
    roundDouble (2471 / 100) = .finite (3477623337260155 / 140737488355328) := by
  have h := roundDouble_eval (2471 / 100) (4) 6955246674520310 (by norm_num)
    (by norm_num [abs_of_nonneg]) (by norm_num [abs_of_nonneg])
    (Or.inl (by norm_num [abs_lt])) (by norm_num [abs_lt])
  rw [h]
  congr 1
  norm_num

theorem roundDouble_2809 :
    roundDouble (2809 / 100) = .finite (7906632095802327 / 281474976710656) := by
  have h := roundDouble_eval (2809 / 100) (4) 7906632095802327 (by norm_num)
    (by norm_num [abs_of_nonneg]) (by norm_num [abs_of_nonneg])
    (Or.inl (by norm_num [abs_lt])) (by norm_num [abs_lt])
  rw [h]
  congr 1
  norm_num

theorem roundDouble_large_add0 : roundDouble (0 + double1023) = .finite double1023 := by
  rw [zero_add]
  exact roundDouble_exact double1023 1 1023 (by norm_num [double1023])
    (by norm_num) (by norm_num) (by norm_num [double1023, abs_of_nonneg])

theorem roundDouble_large_add1 :
    roundDouble (double1023 + double1023) = .infinity false := by
  have h := roundDouble_eval_overflow (double1023 + double1023) 1024 (2 ^ (52 : ℕ))
    (by norm_num) (by norm_num [double1023, abs_of_nonneg])
    (by norm_num [double1023, abs_of_nonneg])
    (Or.inl (by norm_num [double1023])) (by norm_num [abs_of_nonneg])
  rw [h]
  congr 1
  norm_num [double1023]

theorem tooltipPercentageValue_large :
    tooltipPercentageValue [double1023, double1023] double1023 = .finite 0 := by
  unfold tooltipPercentageValue
  rw [tooltipTotal_pair, JsNumber.add_finite, roundDouble_large_add0, JsNumber.add_finite,
    roundDouble_large_add1, JsNumber.div_infinity, JsNumber.mul_finite, zero_mul,
    roundDouble_zero]

theorem tooltipPercentage_large :
    tooltipPercentage [double1023, double1023] double1023 = "0.0" :=
  (tooltipPercentage_of_value _ _ _ 0 tooltipPercentageValue_large (by norm_num) (by norm_num)
    (by norm_num)).trans (by decide)

theorem tooltipPercentage_zeros : tooltipPercentage [0, 0] 0 = "NaN" := by
  have h0 : roundDouble (0 + 0) = .finite 0 := by rw [add_zero]; exact roundDouble_zero
  have hdiv : JsNumber.div (.finite 0) (.finite 0) = .nan := by
    simp only [JsNumber.div, if_true]
  unfold tooltipPercentage tooltipPercentageValue
  rw [tooltipTotal_pair, JsNumber.add_finite, h0, JsNumber.add_finite, h0, hdiv]
  rfl

/-- C3 (amended): for a dataset of fewer than 2^32 non-negative doubles whose exact sum
is positive and at most 2^1022, in whatever order the dataset is shown, the tooltip of a
slice prints a one-decimal number `n / 10` that lies within
`0.05 + (length + 2) / 2^44` of `100 * value / sum(data)`; and `n` is exactly
`100 * value / sum(data)` rounded to one decimal (ties upwards) whenever
`1000 * value / sum(data) + 1/2` is at least `10 * (length + 2) / 2^44` away from the
integers around it. -/
theorem tooltipPercentage_near_exact (data : List ℚ) (value : ℚ)
    (hdata : ∀ x ∈ data, 0 ≤ x ∧ roundDouble x = .finite x)
    (hvalue : value ∈ data) (hlen : data.length < 2 ^ 32)
    (hpos : 0 < data.sum) (hmax : data.sum ≤ (2 : ℚ) ^ (1022 : ℕ)) :
    ∀ shown : List ℚ, shown.Perm data →
      ∃ n : ℕ,
        tooltipPercentage shown value = toString (n / 10) ++ "." ++ toString (n % 10)
        ∧ |(n : ℚ) / 10 - 100 * value / data.sum|
            ≤ 1 / 20 + ((data.length : ℚ) + 2) / 2 ^ (44 : ℕ)
        ∧ ∀ m : ℕ,
            (m : ℚ) + 10 * (((data.length : ℚ) + 2) / 2 ^ (44 : ℕ))
                ≤ 1000 * value / data.sum + 1 / 2 →
            1000 * value / data.sum + 1 / 2 + 10 * (((data.length : ℚ) + 2) / 2 ^ (44 : ℕ))
                < (m : ℚ) + 1 →
            n = m := by
  intro shown hperm
  have h := tooltipPercentage_shown shown value
    (fun x hx => hdata x (hperm.mem_iff.1 hx)) (hperm.mem_iff.2 hvalue)
    (by rw [hperm.length_eq]; exact hlen) (by rw [hperm.sum_eq]; exact hpos)
    (by rw [hperm.sum_eq]; exact hmax)
  rw [hperm.sum_eq, hperm.length_eq] at h
  exact h

/-- Slices 1 and 3, in either order: the tooltip of the slice 1 shows 25.0. -/
theorem tooltipPercentage_near_exact_witness :
    tooltipPercentage [1, 3] 1 = "25.0" ∧ tooltipPercentage [3, 1] 1 = "25.0" := by
  have hdata : ∀ x ∈ ([1, 3] : List ℚ), 0 ≤ x ∧ roundDouble x = .finite x := by
    intro x hx
    simp only [List.mem_cons, List.mem_singleton, List.not_mem_nil, or_false] at hx
    rcases hx with rfl | rfl
    · exact ⟨by norm_num, roundDouble_exact 1 1 0 (by norm_num) (by norm_num) (by norm_num)
        (by norm_num)⟩
    · exact ⟨by norm_num, roundDouble_exact 3 3 0 (by norm_num) (by norm_num) (by norm_num)
        (by norm_num)⟩
  have h := tooltipPercentage_near_exact [1, 3] 1 hdata (by simp) (by norm_num) (by norm_num)
    (by norm_num)
  constructor
  · obtain ⟨n, hs, _, hn⟩ := h [1, 3] (List.Perm.refl _)
    have h250 : n = 250 := hn 250 (by norm_num) (by norm_num)
    rw [hs, h250]
    decide
  · obtain ⟨n, hs, _, hn⟩ := h [3, 1] (List.Perm.swap 1 3 [])
    have h250 : n = 250 := hn 250 (by norm_num) (by norm_num)
    rw [hs, h250]
    decide

/-- C3 (counterexample): with all values zero the tooltip shows NaN; for the dataset
23, 57 the slice 23 is 28.75 percent of the total and the tooltip shows 28.7; for the
doubles of 24.71, 28.09 and 24 the slice 24 shows 31.3 in this order and 31.2 in the
reverse order, while its exact percentage is below 31.25; and for two slices of
`2^1023` the total overflows and each slice, half of the sum, shows 0.0. -/
theorem tooltipPercentage_depends_on_rounding :
    tooltipPercentage [0, 0] 0 = "NaN"
    ∧ (tooltipPercentage [23, 57] 23 = "28.7"
        ∧ 100 * 23 / ([23, 57] : List ℚ).sum = 28.75)
    ∧ (roundDouble (2471 / 100) = .finite double2471
        ∧ roundDouble (2809 / 100) = .finite double2809
        ∧ [24, double2809, double2471].Perm [double2471, double2809, 24]
        ∧ tooltipPercentage [double2471, double2809, 24] 24 = "31.3"
        ∧ tooltipPercentage [24, double2809, double2471] 24 = "31.2"
        ∧ 100 * 24 / [double2471, double2809, 24].sum < 31.25)
    ∧ (roundDouble double1023 = .finite double1023
        ∧ tooltipPercentage [double1023, double1023] double1023 = "0.0"
        ∧ 100 * double1023 / [double1023, double1023].sum = 50) := by
  refine ⟨tooltipPercentage_zeros, ⟨tooltipPercentage_ints, by norm_num⟩,
    ⟨roundDouble_2471, roundDouble_2809, List.reverse_perm [double2471, double2809, 24],
      tooltipPercentage_forward, tooltipPercentage_reversed, ?_⟩, ?_, tooltipPercentage_large,
    ?_⟩
  · unfold double2471 double2809
    norm_num
  · have h := roundDouble_large_add0
    rw [zero_add] at h
    exact h
  · unfold double1023
    norm_num

/-! ## Queries and writes on a document -/

theorem querySelectorFrom_elem_match (sel : Selector) (s : Bool) (e : Elem)
    (kids rest : Forest) (h : sel.matchesElem s e = true) :
    querySelectorFrom sel s (.elem e kids rest) = some (e, kids) := by
  simp [querySelectorFrom, h]

theorem querySelectorFrom_elem_kids (sel : Selector) (s : Bool) (e : Elem)
    (kids rest : Forest) (r : Elem × Forest) (h : sel.matchesElem s e = false)
    (hk : querySelectorFrom sel (sel.enter s e) kids = some r) :
    querySelectorFrom sel s (.elem e kids rest) = some r := by
  simp [querySelectorFrom, h, hk]

theorem querySelectorFrom_elem_rest (sel : Selector) (s : Bool) (e : Elem)
    (kids rest : Forest) (h : sel.matchesElem s e = false)
    (hk : querySelectorFrom sel (sel.enter s e) kids = none) :
    querySelectorFrom sel s (.elem e kids rest) = querySelectorFrom sel s rest := by
  simp [querySelectorFrom, h, hk]

theorem withFirstFrom_elem_match (sel : Selector) (g : Elem → Forest → Elem × Forest)
    (s : Bool) (e : Elem) (kids rest : Forest) (h : sel.matchesElem s e = true) :
    withFirstFrom sel g s (.elem e kids rest)
      = some (.elem (g e kids).1 (g e kids).2 rest) := by
  simp [withFirstFrom, h]

theorem withFirstFrom_elem_kids (sel : Selector) (g : Elem → Forest → Elem × Forest)
    (s : Bool) (e : Elem) (kids rest k1 : Forest) (h : sel.matchesElem s e = false)
    (hk : withFirstFrom sel g (sel.enter s e) kids = some k1) :
    withFirstFrom sel g s (.elem e kids rest) = some (.elem e k1 rest) := by
  simp [withFirstFrom, h, hk]

theorem withFirstFrom_elem_rest (sel : Selector) (g : Elem → Forest → Elem × Forest)
    (s : Bool) (e : Elem) (kids rest : Forest) (h : sel.matchesElem s e = false)
    (hk : withFirstFrom sel g (sel.enter s e) kids = none) :
    withFirstFrom sel g s (.elem e kids rest)
      = (withFirstFrom sel g s rest).map (Forest.elem e kids) := by
  simp [withFirstFrom, h, hk]

theorem withFirstFrom_eq_none (sel : Selector) (g : Elem → Forest → Elem × Forest) :
    ∀ (f : Forest) (s : Bool),
      withFirstFrom sel g s f = none ↔ querySelectorFrom sel s f = none := by
  intro f
  induction f with
  | nil => intro s; simp [withFirstFrom, querySelectorFrom]
  | text t rest ih => intro s; simp [withFirstFrom, querySelectorFrom, ih]
  | elem e kids rest ihk ihr =>
    intro s
    cases hm : sel.matchesElem s e with
    | true =>
      rw [withFirstFrom_elem_match _ _ _ _ _ _ hm, querySelectorFrom_elem_match _ _ _ _ _ hm]
      simp
    | false =>
      cases hq : querySelectorFrom sel (sel.enter s e) kids with
      | none =>
        have hw := (ihk (sel.enter s e)).2 hq
        rw [withFirstFrom_elem_rest _ _ _ _ _ _ hm hw,
          querySelectorFrom_elem_rest _ _ _ _ _ hm hq]
        simp [ihr]
      | some r =>
        cases hw : withFirstFrom sel g (sel.enter s e) kids with
        | none => rw [(ihk (sel.enter s e)).1 hw] at hq; cases hq
        | some k1 =>
          rw [withFirstFrom_elem_kids _ _ _ _ _ _ _ hm hw,
            querySelectorFrom_elem_kids _ _ _ _ _ _ hm hq]
          simp

theorem withFirstFrom_fixed (sel : Selector) (g : Elem → Forest → Elem × Forest) :
    ∀ (f : Forest) (s : Bool) (e : Elem) (k : Forest),
      querySelectorFrom sel s f = some (e, k) → g e k = (e, k) →
        withFirstFrom sel g s f = some f := by
  intro f
  induction f with
  | nil => intro s e k h; simp [querySelectorFrom] at h
  | text t rest ih =>
    intro s e k h hg
    simp only [querySelectorFrom] at h
    simp [withFirstFrom, ih s e k h hg]
  | elem e0 kids rest ihk ihr =>
    intro s e k h hg
    cases hm : sel.matchesElem s e0 with
    | true =>
      rw [querySelectorFrom_elem_match _ _ _ _ _ hm] at h
      simp only [Option.some.injEq, Prod.mk.injEq] at h
      obtain ⟨rfl, rfl⟩ := h
      rw [withFirstFrom_elem_match _ _ _ _ _ _ hm, hg]
    | false =>
      cases hq : querySelectorFrom sel (sel.enter s e0) kids with
      | some r =>
        rw [querySelectorFrom_elem_kids _ _ _ _ _ _ hm hq] at h
        simp only [Option.some.injEq] at h
        subst h
        rw [withFirstFrom_elem_kids _ _ _ _ _ _ _ hm (ihk _ e k hq hg)]
      | none =>
        rw [querySelectorFrom_elem_rest _ _ _ _ _ hm hq] at h
        rw [withFirstFrom_elem_rest _ _ _ _ _ _ hm ((withFirstFrom_eq_none sel g kids _).2 hq),
          ihr s e k h hg]
        rfl

theorem querySelectorFrom_withFirstFrom_self (sel : Selector)
    (g : Elem → Forest → Elem × Forest)
    (hg : ∀ s e k, sel.matchesElem s e = true → sel.matchesElem s (g e k).1 = true) :
    ∀ (f : Forest) (s : Bool) (f1 : Forest) (e : Elem) (k : Forest),
      withFirstFrom sel g s f = some f1 → querySelectorFrom sel s f = some (e, k) →
        querySelectorFrom sel s f1 = some (g e k) := by
  intro f
  induction f with
  | nil => intro s f1 e k h; simp [withFirstFrom] at h
  | text t rest ih =>
    intro s f1 e k h hq
    simp only [withFirstFrom, querySelectorFrom, Option.map_eq_some'] at h hq
    obtain ⟨r1, hr1, rfl⟩ := h
    simp only [querySelectorFrom]
    exact ih s r1 e k hr1 hq
  | elem e0 kids rest ihk ihr =>
    intro s f1 e k h hq
    cases hm : sel.matchesElem s e0 with
    | true =>
      rw [querySelectorFrom_elem_match _ _ _ _ _ hm] at hq
      rw [withFirstFrom_elem_match _ _ _ _ _ _ hm] at h
      simp only [Option.some.injEq, Prod.mk.injEq] at h hq
      obtain ⟨rfl, rfl⟩ := hq
      subst h
      rw [querySelectorFrom_elem_match _ _ _ _ _ (hg s e0 kids hm)]
    | false =>
      cases hw : withFirstFrom sel g (sel.enter s e0) kids with
      | some k1 =>
        rw [withFirstFrom_elem_kids _ _ _ _ _ _ _ hm hw] at h
        simp only [Option.some.injEq] at h
        subst h
        cases hqk : querySelectorFrom sel (sel.enter s e0) kids with
        | none => rw [(withFirstFrom_eq_none sel g kids _).2 hqk] at hw; cases hw
        | some r =>
          rw [querySelectorFrom_elem_kids _ _ _ _ _ _ hm hqk] at hq
          simp only [Option.some.injEq] at hq
          subst hq
          exact querySelectorFrom_elem_kids _ _ _ _ _ _ hm (ihk _ k1 e k hw hqk)
      | none =>
        rw [withFirstFrom_elem_rest _ _ _ _ _ _ hm hw] at h
        simp only [Option.map_eq_some'] at h
        obtain ⟨r1, hr1, rfl⟩ := h
        have hqk := (withFirstFrom_eq_none sel g kids _).1 hw
        rw [querySelectorFrom_elem_rest _ _ _ _ _ hm hqk] at hq
        rw [querySelectorFrom_elem_rest _ _ _ _ _ hm hqk]
        exact ihr s r1 e k hr1 hq

/-- A write through one selector makes no element match another selector, when it
keeps the matching and the scope of the element it writes and brings no match into
its child nodes. -/
theorem querySelectorFrom_none_after_write (sel sel2 : Selector)
    (g : Elem → Forest → Elem × Forest)
    (hm : ∀ s e k, sel2.matchesElem s (g e k).1 = sel2.matchesElem s e)
    (he : ∀ s e k, sel2.enter s (g e k).1 = sel2.enter s e)
    (hk : ∀ s e k, querySelectorFrom sel2 s k = none →
      querySelectorFrom sel2 s (g e k).2 = none) :
    ∀ (f : Forest) (t s : Bool) (f1 : Forest),
      withFirstFrom sel g t f = some f1 → querySelectorFrom sel2 s f = none →
        querySelectorFrom sel2 s f1 = none := by
  intro f
  induction f with
  | nil => intro t s f1 h; simp [withFirstFrom] at h
  | text x rest ih =>
    intro t s f1 h hq
    simp only [withFirstFrom, querySelectorFrom, Option.map_eq_some'] at h hq
    obtain ⟨r1, hr1, rfl⟩ := h
    simp only [querySelectorFrom]
    exact ih t s r1 hr1 hq
  | elem e0 kids rest ihk ihr =>
    intro t s f1 h hq
    cases hm2 : sel2.matchesElem s e0 with
    | true => rw [querySelectorFrom_elem_match _ _ _ _ _ hm2] at hq; cases hq
    | false =>
      cases hqk : querySelectorFrom sel2 (sel2.enter s e0) kids with
      | some r => rw [querySelectorFrom_elem_kids _ _ _ _ _ _ hm2 hqk] at hq; cases hq
      | none =>
        rw [querySelectorFrom_elem_rest _ _ _ _ _ hm2 hqk] at hq
        cases hm1 : sel.matchesElem t e0 with
        | true =>
          rw [withFirstFrom_elem_match _ _ _ _ _ _ hm1] at h
          simp only [Option.some.injEq] at h
          subst h
          have h1 : sel2.matchesElem s (g e0 kids).1 = false := by rw [hm, hm2]
          have h2 : querySelectorFrom sel2 (sel2.enter s (g e0 kids).1) (g e0 kids).2 = none := by
            rw [he]; exact hk _ e0 kids hqk
          rw [querySelectorFrom_elem_rest _ _ _ _ _ h1 h2]
          exact hq
        | false =>
          cases hw : withFirstFrom sel g (sel.enter t e0) kids with
          | some k1 =>
            rw [withFirstFrom_elem_kids _ _ _ _ _ _ _ hm1 hw] at h
            simp only [Option.some.injEq] at h
            subst h
            rw [querySelectorFrom_elem_rest _ _ _ _ _ hm2 (ihk _ _ k1 hw hqk)]
            exact hq
          | none =>
            rw [withFirstFrom_elem_rest _ _ _ _ _ _ hm1 hw] at h
            simp only [Option.map_eq_some'] at h
            obtain ⟨r1, hr1, rfl⟩ := h
            rw [querySelectorFrom_elem_rest _ _ _ _ _ hm2 hqk]
            exact ihr _ _ r1 hr1 hq

/-! ## Budget progress renderer -/

theorem writeProgressBar_dataBudget (b : BudgetStatus) (e : Elem) :
    (writeProgressBar b e).dataBudget = e.dataBudget := by
  unfold writeProgressBar
  split
  · rfl
  · split <;> rfl

theorem writeProgressBar_contains (b : BudgetStatus) (e : Elem) (cls : String)
    (h : cls ∉ colourClasses) :
    (writeProgressBar b e).classList.contains cls = e.classList.contains cls := by
  rw [writeProgressBar_classList]
  have hne : ¬ cls = (if b.over_budget then "bg-danger" else if b.percentage > 80 then "bg-warning"
        else "bg-success") := by
    intro heq
    exact h (heq ▸ colourRule_mem b)
  rw [Bool.eq_iff_iff]
  simp [otherTokens, h, hne]

theorem writeProgressBar_matchesElem (b : BudgetStatus) (c cls : String)
    (h : cls ∉ colourClasses) (s : Bool) (e : Elem) :
    (Selector.budget c cls).matchesElem s (writeProgressBar b e)
      = (Selector.budget c cls).matchesElem s e := by
  simp only [Selector.matchesElem, writeProgressBar_contains b e cls h]

theorem writeProgressBar_enter (b : BudgetStatus) (c cls : String) (s : Bool) (e : Elem) :
    (Selector.budget c cls).enter s (writeProgressBar b e)
      = (Selector.budget c cls).enter s e := by
  simp only [Selector.enter, writeProgressBar_dataBudget]

/-- A status leaves every progress bar selector without a match that had none. -/
theorem budgetWrites_keeps_none (c cls : String) (h : cls ∉ colourClasses)
    (d : Forest) (b : BudgetStatus) (hq : querySelector (.budget c cls) d = none) :
    querySelector (.budget c cls) (budgetWrites d b) = none := by
  unfold budgetWrites
  cases h1 : withFirst (.budget b.category "progress-bar")
      (fun e kids => (writeProgressBar b e, kids)) d with
  | none => exact hq
  | some d1 =>
    have hq1 : querySelector (.budget c cls) d1 = none :=
      querySelectorFrom_none_after_write _ (.budget c cls)
        (fun e kids => (writeProgressBar b e, kids))
        (fun s e _ => writeProgressBar_matchesElem b c cls h s e)
        (fun s e _ => writeProgressBar_enter b c cls s e)
        (fun _ _ _ hk => hk) d false false d1 h1 hq
    simp only []
    cases h2 : withFirst (.budget b.category "budget-text")
        (setTextContent (budgetTextContent b)) d1 with
    | none => exact hq1
    | some d2 =>
      exact querySelectorFrom_none_after_write _ (.budget c cls)
        (setTextContent (budgetTextContent b))
        (fun _ _ _ => rfl) (fun _ _ _ => rfl)
        (fun _ _ _ _ => rfl) d1 false false d2 h2 hq1

theorem budgetWrites_of_none (d : Forest) (b : BudgetStatus)
    (hq : querySelector (.budget b.category "progress-bar") d = none) :
    budgetWrites d b = d := by
  unfold budgetWrites
  have hw : withFirst (.budget b.category "progress-bar")
      (fun e kids => (writeProgressBar b e, kids)) d = none :=
    (withFirstFrom_eq_none _ _ d false).2 hq
  rw [hw]

theorem updateBudgetProgressBar_of_safe (d : Forest) (b : BudgetStatus)
    (h : selectorSafe b.category = true) :
    updateBudgetProgressBar d b = { document := budgetWrites d b, thrown := none } := by
  unfold updateBudgetProgressBar budgetWrites budgetSelector
  simp only [h, if_true]
  cases withFirst (.budget b.category "progress-bar")
      (fun e kids => (writeProgressBar b e, kids)) d with
  | none => rfl
  | some d1 =>
    simp only []
    cases withFirst (.budget b.category "budget-text")
        (setTextContent (budgetTextContent b)) d1 <;> rfl

theorem updateBudgetProgressBar_of_not_safe (d : Forest) (b : BudgetStatus)
    (h : selectorSafe b.category = false) :
    updateBudgetProgressBar d b = { document := d, thrown := some .syntaxError } := by
  unfold updateBudgetProgressBar budgetSelector
  simp [h]

/-- An entry whose category does not stand in the selector text as it is ends the
loop: the entries after it are not applied. -/
theorem forEachBudget_of_not_safe (d : Forest) (b : BudgetStatus) (rest : List BudgetStatus)
    (h : selectorSafe b.category = false) :
    forEachBudget d (b :: rest) = { document := d, thrown := some .syntaxError } := by
  simp only [forEachBudget, updateBudgetProgressBar_of_not_safe d b h]

theorem forEachBudget_cons (d : Forest) (x : BudgetStatus) (rest : List BudgetStatus) :
    forEachBudget d (x :: rest)
      = match (updateBudgetProgressBar d x).thrown with
        | none => forEachBudget (updateBudgetProgressBar d x).document rest
        | some e => { document := (updateBudgetProgressBar d x).document, thrown := some e } := by
  simp only [forEachBudget]
  cases hu : updateBudgetProgressBar d x with
  | mk d1 t => cases t <;> rfl

theorem updateBudgetProgressBar_keeps_none (c cls : String) (h : cls ∉ colourClasses)
    (d : Forest) (b : BudgetStatus) (hq : querySelector (.budget c cls) d = none) :
    querySelector (.budget c cls) (updateBudgetProgressBar d b).document = none := by
  cases hs : selectorSafe b.category with
  | true =>
    rw [updateBudgetProgressBar_of_safe d b hs]
    exact budgetWrites_keeps_none c cls h d b hq
  | false =>
    rw [updateBudgetProgressBar_of_not_safe d b hs]
    exact hq

/-- C9. A status whose category has no progress bar in the document is skipped:
`updateBudgetProgressBar` throws nothing and leaves the document as it is. In a
budgets list the loop applies `updateBudgetProgressBar` to the entries in turn, going
on after every entry that throws nothing, and the list with the skipped entry ends as
the list without it does: the entries before and after it are applied as if it were
not there. The category is a string that stands in the selector text as it is, as
the identifiers of the data model do. -/
theorem updateBudgetProgressBar_skips_missing (d : Forest) (b : BudgetStatus)
    (hsafe : selectorSafe b.category = true)
    (h : querySelector (.budget b.category "progress-bar") d = none) :
    updateBudgetProgressBar d b = { document := d, thrown := none }
      ∧ (∀ before after : List BudgetStatus,
          forEachBudget d (before ++ b :: after) = forEachBudget d (before ++ after))
      ∧ (∀ (d0 : Forest) (x : BudgetStatus) (rest : List BudgetStatus),
          forEachBudget d0 (x :: rest)
            = match (updateBudgetProgressBar d0 x).thrown with
              | none => forEachBudget (updateBudgetProgressBar d0 x).document rest
              | some e =>
                { document := (updateBudgetProgressBar d0 x).document, thrown := some e })
      ∧ (∀ d0 : Forest, forEachBudget d0 [] = { document := d0, thrown := none }) := by
  have hskip : ∀ d0 : Forest, querySelector (.budget b.category "progress-bar") d0 = none →
      updateBudgetProgressBar d0 b = { document := d0, thrown := none } := by
    intro d0 h0
    rw [updateBudgetProgressBar_of_safe d0 b hsafe, budgetWrites_of_none d0 b h0]
  refine ⟨hskip d h, ?_, forEachBudget_cons, fun _ => rfl⟩
  intro before
  induction before generalizing d with
  | nil =>
    intro after
    simp only [List.nil_append]
    rw [forEachBudget_cons, hskip d h]
  | cons x xs ih =>
    intro after
    simp only [List.cons_append]
    rw [forEachBudget_cons d x (xs ++ b :: after), forEachBudget_cons d x (xs ++ after)]
    cases ht : (updateBudgetProgressBar d x).thrown with
    | some e => rfl
    | none =>
      simp only []
      exact ih _ (updateBudgetProgressBar_keeps_none _ _ (by decide) d x h) after

/-- The witness of C9: the page `foodPage`, which has no bar for `rent`. -/
theorem updateBudgetProgressBar_skips_missing_witness :
    selectorSafe rentStatus.category = true
      ∧ querySelector (.budget rentStatus.category "progress-bar") foodPage = none
      ∧ (updateBudgetProgressBar foodPage rentStatus
          = { document := foodPage, thrown := none }
        ∧ (∀ before after : List BudgetStatus,
            forEachBudget foodPage (before ++ rentStatus :: after)
              = forEachBudget foodPage (before ++ after))
        ∧ (∀ (d0 : Forest) (x : BudgetStatus) (rest : List BudgetStatus),
            forEachBudget d0 (x :: rest)
              = match (updateBudgetProgressBar d0 x).thrown with
                | none => forEachBudget (updateBudgetProgressBar d0 x).document rest
                | some e =>
                  { document := (updateBudgetProgressBar d0 x).document, thrown := some e })
        ∧ (∀ d0 : Forest, forEachBudget d0 [] = { document := d0, thrown := none })) :=
  ⟨by decide, by decide,
    updateBudgetProgressBar_skips_missing foodPage rentStatus (by decide) (by decide)⟩

/-! ## Idempotence of the budget progress renderer -/

theorem writeProgressBar_eq (b : BudgetStatus) (e : Elem) :
    writeProgressBar b e =
      { e with
        styleWidth := some b.percentage
        ariaValuenow := some b.percentage
        classList := otherTokens e.classList ++
          [if b.over_budget then "bg-danger" else if b.percentage > 80 then "bg-warning"
            else "bg-success"] } := by
  unfold writeProgressBar
  by_cases h1 : b.over_budget = true
  · simp only [h1, if_true]
    rw [recolour_eq _ _ (by decide)]
  · by_cases h2 : b.percentage > 80
    · simp only [h1, h2, if_true, if_false, Bool.false_eq_true]
      rw [recolour_eq _ _ (by decide)]
    · simp only [h1, h2, if_false, Bool.false_eq_true]
      rw [recolour_eq _ _ (by decide)]

theorem writeProgressBar_idem (b : BudgetStatus) (e : Elem) :
    writeProgressBar b (writeProgressBar b e) = writeProgressBar b e := by
  rw [writeProgressBar_eq b (writeProgressBar b e), writeProgressBar_eq b e]
  simp only [otherTokens_recolour _ _ (colourRule_mem b)]

theorem querySelectorFrom_none_of_hasClass (c cls : String) :
    ∀ (f : Forest) (s : Bool), hasClass cls f = false →
      querySelectorFrom (.budget c cls) s f = none := by
  intro f
  induction f with
  | nil => intro s _; rfl
  | text t rest ih => intro s h; exact ih s h
  | elem e kids rest ihk ihr =>
    intro s h
    simp only [hasClass, Bool.or_eq_false_iff] at h
    obtain ⟨⟨h1, h2⟩, h3⟩ := h
    have hm : (Selector.budget c cls).matchesElem s e = false := by
      simp only [Selector.matchesElem, h1, Bool.and_false]
    rw [querySelectorFrom_elem_rest _ _ _ _ _ hm (ihk _ h2)]
    exact ihr s h3

theorem hasClass_withFirstFrom (sel : Selector) (w : Elem → Elem) (cls : String)
    (hc : ∀ e, (w e).classList.contains cls = e.classList.contains cls) :
    ∀ (f : Forest) (t : Bool) (f1 : Forest),
      withFirstFrom sel (fun e k => (w e, k)) t f = some f1 →
        hasClass cls f1 = hasClass cls f := by
  intro f
  induction f with
  | nil => intro t f1 h; simp [withFirstFrom] at h
  | text x rest ih =>
    intro t f1 h
    simp only [withFirstFrom, Option.map_eq_some'] at h
    obtain ⟨r1, hr1, rfl⟩ := h
    simp only [hasClass]
    exact ih t r1 hr1
  | elem e0 kids rest ihk ihr =>
    intro t f1 h
    cases hm1 : sel.matchesElem t e0 with
    | true =>
      rw [withFirstFrom_elem_match _ _ _ _ _ _ hm1] at h
      simp only [Option.some.injEq] at h
      subst h
      simp only [hasClass, hc]
    | false =>
      cases hw : withFirstFrom sel (fun e k => (w e, k)) (sel.enter t e0) kids with
      | some k1 =>
        rw [withFirstFrom_elem_kids _ _ _ _ _ _ _ hm1 hw] at h
        simp only [Option.some.injEq] at h
        subst h
        simp only [hasClass, ihk _ k1 hw]
      | none =>
        rw [withFirstFrom_elem_rest _ _ _ _ _ _ hm1 hw] at h
        simp only [Option.map_eq_some'] at h
        obtain ⟨r1, hr1, rfl⟩ := h
        simp only [hasClass, ihr _ r1 hr1]

/-- A write to the attributes of one element, which keeps the matching and the scope
of the element for a second selector, leaves the first match of the second selector in
place, with child nodes that carry a class `cls` exactly when they did. -/
theorem querySelectorFrom_after_relabel (sel sel2 : Selector) (w : Elem → Elem)
    (cls : String)
    (hm : ∀ s e, sel2.matchesElem s (w e) = sel2.matchesElem s e)
    (he : ∀ s e, sel2.enter s (w e) = sel2.enter s e)
    (hc : ∀ e, (w e).classList.contains cls = e.classList.contains cls) :
    ∀ (f : Forest) (t s : Bool) (f1 : Forest),
      withFirstFrom sel (fun e k => (w e, k)) t f = some f1 →
        (querySelectorFrom sel2 s f1).map (fun r => hasClass cls r.2)
          = (querySelectorFrom sel2 s f).map (fun r => hasClass cls r.2) := by
  intro f
  induction f with
  | nil => intro t s f1 h; simp [withFirstFrom] at h
  | text x rest ih =>
    intro t s f1 h
    simp only [withFirstFrom, Option.map_eq_some'] at h
    obtain ⟨r1, hr1, rfl⟩ := h
    simp only [querySelectorFrom]
    exact ih t s r1 hr1
  | elem e0 kids rest ihk ihr =>
    intro t s f1 h
    cases hm1 : sel.matchesElem t e0 with
    | true =>
      rw [withFirstFrom_elem_match _ _ _ _ _ _ hm1] at h
      simp only [Option.some.injEq] at h
      subst h
      cases hm2 : sel2.matchesElem s e0 with
      | true =>
        rw [querySelectorFrom_elem_match _ _ _ _ _ hm2,
          querySelectorFrom_elem_match _ _ _ _ _ ((hm s e0).trans hm2)]
        rfl
      | false =>
        have hm2w : sel2.matchesElem s (w e0) = false := (hm s e0).trans hm2
        cases hqk : querySelectorFrom sel2 (sel2.enter s e0) kids with
        | some r =>
          rw [querySelectorFrom_elem_kids _ _ _ _ _ _ hm2 hqk,
            querySelectorFrom_elem_kids _ _ _ _ _ _ hm2w (by rw [he]; exact hqk)]
        | none =>
          rw [querySelectorFrom_elem_rest _ _ _ _ _ hm2 hqk,
            querySelectorFrom_elem_rest _ _ _ _ _ hm2w (by rw [he]; exact hqk)]
    | false =>
      cases hw : withFirstFrom sel (fun e k => (w e, k)) (sel.enter t e0) kids with
      | some k1 =>
        rw [withFirstFrom_elem_kids _ _ _ _ _ _ _ hm1 hw] at h
        simp only [Option.some.injEq] at h
        subst h
        cases hm2 : sel2.matchesElem s e0 with
        | true =>
          rw [querySelectorFrom_elem_match _ _ _ _ _ hm2,
            querySelectorFrom_elem_match _ _ _ _ _ hm2]
          simp only [Option.map_some', hasClass_withFirstFrom sel w cls hc kids _ k1 hw]
        | false =>
          have ih := ihk (sel.enter t e0) (sel2.enter s e0) k1 hw
          cases hq1 : querySelectorFrom sel2 (sel2.enter s e0) k1 with
          | some r1 =>
            cases hq0 : querySelectorFrom sel2 (sel2.enter s e0) kids with
            | some r0 =>
              rw [querySelectorFrom_elem_kids _ _ _ _ _ _ hm2 hq1,
                querySelectorFrom_elem_kids _ _ _ _ _ _ hm2 hq0]
              rw [hq1, hq0] at ih
              exact ih
            | none => rw [hq1, hq0] at ih; cases ih
          | none =>
            cases hq0 : querySelectorFrom sel2 (sel2.enter s e0) kids with
            | some r0 => rw [hq1, hq0] at ih; cases ih
            | none =>
              rw [querySelectorFrom_elem_rest _ _ _ _ _ hm2 hq1,
                querySelectorFrom_elem_rest _ _ _ _ _ hm2 hq0]
      | none =>
        rw [withFirstFrom_elem_rest _ _ _ _ _ _ hm1 hw] at h
        simp only [Option.map_eq_some'] at h
        obtain ⟨r1, hr1, rfl⟩ := h
        cases hm2 : sel2.matchesElem s e0 with
        | true =>
          rw [querySelectorFrom_elem_match _ _ _ _ _ hm2,
            querySelectorFrom_elem_match _ _ _ _ _ hm2]
        | false =>
          cases hqk : querySelectorFrom sel2 (sel2.enter s e0) kids with
          | some r =>
            rw [querySelectorFrom_elem_kids _ _ _ _ _ _ hm2 hqk,
              querySelectorFrom_elem_kids _ _ _ _ _ _ hm2 hqk]
          | none =>
            rw [querySelectorFrom_elem_rest _ _ _ _ _ hm2 hqk,
              querySelectorFrom_elem_rest _ _ _ _ _ hm2 hqk]
            exact ihr t s r1 hr1

theorem withFirst_eq_none (sel : Selector) (g : Elem → Forest → Elem × Forest)
    (d : Forest) : withFirst sel g d = none ↔ querySelector sel d = none :=
  withFirstFrom_eq_none sel g d false

/-- The text write keeps the first progress bar of the category in place when the
element it writes to has no progress bar below it. -/
theorem progressBar_after_text (c str : String) :
    ∀ (f : Forest) (s : Bool) (f2 : Forest),
      withFirstFrom (.budget c "budget-text") (setTextContent str) s f = some f2 →
      (querySelectorFrom (.budget c "budget-text") s f).map
          (fun r => hasClass "progress-bar" r.2) = some false →
        (querySelectorFrom (.budget c "progress-bar") s f2).map Prod.fst
          = (querySelectorFrom (.budget c "progress-bar") s f).map Prod.fst := by
  intro f
  induction f with
  | nil => intro s f2 h; simp [withFirstFrom] at h
  | text x rest ih =>
    intro s f2 h hpre
    simp only [withFirstFrom, Option.map_eq_some'] at h
    obtain ⟨r1, hr1, rfl⟩ := h
    simp only [querySelectorFrom] at hpre ⊢
    exact ih s r1 hr1 hpre
  | elem e0 kids rest ihk ihr =>
    intro s f2 h hpre
    have henter : (Selector.budget c "progress-bar").enter s e0
        = (Selector.budget c "budget-text").enter s e0 := rfl
    cases hmT : (Selector.budget c "budget-text").matchesElem s e0 with
    | true =>
      rw [withFirstFrom_elem_match _ _ _ _ _ _ hmT] at h
      simp only [Option.some.injEq, setTextContent] at h
      subst h
      rw [querySelectorFrom_elem_match _ _ _ _ _ hmT] at hpre
      simp only [Option.map_some', Option.some.injEq] at hpre
      cases hmB : (Selector.budget c "progress-bar").matchesElem s e0 with
      | true =>
        rw [querySelectorFrom_elem_match _ _ _ _ _ hmB,
          querySelectorFrom_elem_match _ _ _ _ _ hmB]
        rfl
      | false =>
        rw [querySelectorFrom_elem_rest _ _ _ _ _ hmB
            (querySelectorFrom_none_of_hasClass c "progress-bar" kids _ hpre),
          querySelectorFrom_elem_rest _ s e0 (.text str .nil) rest hmB rfl]
    | false =>
      cases hwT : withFirstFrom (.budget c "budget-text") (setTextContent str)
          ((Selector.budget c "budget-text").enter s e0) kids with
      | some k1 =>
        rw [withFirstFrom_elem_kids _ _ _ _ _ _ _ hmT hwT] at h
        simp only [Option.some.injEq] at h
        subst h
        cases hqT : querySelectorFrom (.budget c "budget-text")
            ((Selector.budget c "budget-text").enter s e0) kids with
        | none => rw [(withFirstFrom_eq_none _ _ kids _).2 hqT] at hwT; cases hwT
        | some rT =>
          rw [querySelectorFrom_elem_kids _ _ _ _ _ _ hmT hqT] at hpre
          have ih := ihk _ k1 hwT (by rw [hqT]; exact hpre)
          cases hmB : (Selector.budget c "progress-bar").matchesElem s e0 with
          | true =>
            rw [querySelectorFrom_elem_match _ _ _ _ _ hmB,
              querySelectorFrom_elem_match _ _ _ _ _ hmB]
            rfl
          | false =>
            rw [← henter] at ih
            cases hq1 : querySelectorFrom (.budget c "progress-bar")
                ((Selector.budget c "progress-bar").enter s e0) k1 with
            | some r1 =>
              cases hq0 : querySelectorFrom (.budget c "progress-bar")
                  ((Selector.budget c "progress-bar").enter s e0) kids with
              | some r0 =>
                rw [querySelectorFrom_elem_kids _ _ _ _ _ _ hmB hq1,
                  querySelectorFrom_elem_kids _ _ _ _ _ _ hmB hq0]
                rw [hq1, hq0] at ih
                exact ih
              | none => rw [hq1, hq0] at ih; cases ih
            | none =>
              cases hq0 : querySelectorFrom (.budget c "progress-bar")
                  ((Selector.budget c "progress-bar").enter s e0) kids with
              | some r0 => rw [hq1, hq0] at ih; cases ih
              | none =>
                rw [querySelectorFrom_elem_rest _ _ _ _ _ hmB hq1,
                  querySelectorFrom_elem_rest _ _ _ _ _ hmB hq0]
      | none =>
        rw [withFirstFrom_elem_rest _ _ _ _ _ _ hmT hwT] at h
        simp only [Option.map_eq_some'] at h
        obtain ⟨r1, hr1, rfl⟩ := h
        have hqT := (withFirstFrom_eq_none _ _ kids _).1 hwT
        rw [querySelectorFrom_elem_rest _ _ _ _ _ hmT hqT] at hpre
        cases hmB : (Selector.budget c "progress-bar").matchesElem s e0 with
        | true =>
          rw [querySelectorFrom_elem_match _ _ _ _ _ hmB,
            querySelectorFrom_elem_match _ _ _ _ _ hmB]
        | false =>
          cases hq0 : querySelectorFrom (.budget c "progress-bar")
              ((Selector.budget c "progress-bar").enter s e0) kids with
          | some r0 =>
            rw [querySelectorFrom_elem_kids _ _ _ _ _ _ hmB hq0,
              querySelectorFrom_elem_kids _ _ _ _ _ _ hmB hq0]
          | none =>
            rw [querySelectorFrom_elem_rest _ _ _ _ _ hmB hq0,
              querySelectorFrom_elem_rest _ _ _ _ _ hmB hq0]
            exact ihr s r1 hr1 hpre

theorem barInsideTextFrom_elem_bar (c : String) (s : Bool) (e : Elem) (kids rest : Forest)
    (h : (Selector.budget c "progress-bar").matchesElem s e = true) :
    barInsideTextFrom c s (.elem e kids rest) = some false := by
  simp [barInsideTextFrom, h]

theorem barInsideTextFrom_elem_text (c : String) (s : Bool) (e : Elem) (kids rest : Forest)
    (hB : (Selector.budget c "progress-bar").matchesElem s e = false)
    (hT : (Selector.budget c "budget-text").matchesElem s e = true) :
    barInsideTextFrom c s (.elem e kids rest)
      = some (querySelectorFrom (.budget c "progress-bar")
          ((Selector.budget c "progress-bar").enter s e) kids).isSome := by
  simp [barInsideTextFrom, hB, hT]

theorem barInsideTextFrom_elem_other (c : String) (s : Bool) (e : Elem) (kids rest : Forest)
    (hB : (Selector.budget c "progress-bar").matchesElem s e = false)
    (hT : (Selector.budget c "budget-text").matchesElem s e = false) :
    barInsideTextFrom c s (.elem e kids rest)
      = match barInsideTextFrom c ((Selector.budget c "budget-text").enter s e) kids with
        | some r => some r
        | none => barInsideTextFrom c s rest := by
  simp [barInsideTextFrom, hB, hT]

theorem barInsideTextFrom_eq_none (c : String) :
    ∀ (f : Forest) (s : Bool),
      barInsideTextFrom c s f = none ↔
        (querySelectorFrom (.budget c "progress-bar") s f = none
          ∧ querySelectorFrom (.budget c "budget-text") s f = none) := by
  intro f
  induction f with
  | nil => intro s; simp [barInsideTextFrom, querySelectorFrom]
  | text t rest ih => intro s; simp only [barInsideTextFrom, querySelectorFrom]; exact ih s
  | elem e kids rest ihk ihr =>
    intro s
    have henter : (Selector.budget c "progress-bar").enter s e
        = (Selector.budget c "budget-text").enter s e := rfl
    cases hmB : (Selector.budget c "progress-bar").matchesElem s e with
    | true =>
      rw [barInsideTextFrom_elem_bar c s e kids rest hmB,
        querySelectorFrom_elem_match _ _ _ _ _ hmB]
      simp
    | false =>
      cases hmT : (Selector.budget c "budget-text").matchesElem s e with
      | true =>
        rw [barInsideTextFrom_elem_text c s e kids rest hmB hmT,
          querySelectorFrom_elem_match _ _ _ _ _ hmT]
        simp
      | false =>
        rw [barInsideTextFrom_elem_other c s e kids rest hmB hmT]
        have ih := ihk ((Selector.budget c "budget-text").enter s e)
        cases hk : barInsideTextFrom c ((Selector.budget c "budget-text").enter s e) kids with
        | some r =>
          have hnot : ¬ (querySelectorFrom (.budget c "progress-bar")
              ((Selector.budget c "budget-text").enter s e) kids = none
            ∧ querySelectorFrom (.budget c "budget-text")
              ((Selector.budget c "budget-text").enter s e) kids = none) := by
            intro hboth
            rw [ih.2 hboth] at hk
            cases hk
          constructor
          · intro h0; cases h0
          · intro ⟨h1, h2⟩
            exfalso
            apply hnot
            constructor
            · cases hqB : querySelectorFrom (.budget c "progress-bar")
                  ((Selector.budget c "budget-text").enter s e) kids with
              | none => rfl
              | some r0 =>
                rw [querySelectorFrom_elem_kids _ _ _ _ _ _ hmB (henter ▸ hqB)] at h1
                cases h1
            · cases hqT : querySelectorFrom (.budget c "budget-text")
                  ((Selector.budget c "budget-text").enter s e) kids with
              | none => rfl
              | some r0 =>
                rw [querySelectorFrom_elem_kids _ _ _ _ _ _ hmT hqT] at h2
                cases h2
        | none =>
          obtain ⟨hqB, hqT⟩ := ih.1 hk
          rw [querySelectorFrom_elem_rest _ _ _ _ _ hmB (henter ▸ hqB),
            querySelectorFrom_elem_rest _ _ _ _ _ hmT hqT]
          exact ihr s

/-- The text write keeps the first progress bar of the category in place when that bar
does not lie inside the element the text is written to. -/
theorem progressBar_after_text_outside (c str : String) :
    ∀ (f : Forest) (s : Bool) (f2 : Forest),
      withFirstFrom (.budget c "budget-text") (setTextContent str) s f = some f2 →
      barInsideTextFrom c s f ≠ some true →
        (querySelectorFrom (.budget c "progress-bar") s f2).map Prod.fst
          = (querySelectorFrom (.budget c "progress-bar") s f).map Prod.fst := by
  intro f
  induction f with
  | nil => intro s f2 h; simp [withFirstFrom] at h
  | text x rest ih =>
    intro s f2 h hpre
    simp only [withFirstFrom, Option.map_eq_some'] at h
    obtain ⟨r1, hr1, rfl⟩ := h
    simp only [querySelectorFrom, barInsideTextFrom] at hpre ⊢
    exact ih s r1 hr1 hpre
  | elem e0 kids rest ihk ihr =>
    intro s f2 h hpre
    have henter : (Selector.budget c "progress-bar").enter s e0
        = (Selector.budget c "budget-text").enter s e0 := rfl
    cases hmB : (Selector.budget c "progress-bar").matchesElem s e0 with
    | true =>
      -- the bar is the element itself, and every write keeps it
      have hq : querySelectorFrom (.budget c "progress-bar") s (.elem e0 kids rest)
          = some (e0, kids) := querySelectorFrom_elem_match _ _ _ _ _ hmB
      rw [hq]
      cases hmT : (Selector.budget c "budget-text").matchesElem s e0 with
      | true =>
        rw [withFirstFrom_elem_match _ _ _ _ _ _ hmT] at h
        simp only [Option.some.injEq, setTextContent] at h
        subst h
        rw [querySelectorFrom_elem_match _ _ _ _ _ hmB]
        rfl
      | false =>
        cases hwT : withFirstFrom (.budget c "budget-text") (setTextContent str)
            ((Selector.budget c "budget-text").enter s e0) kids with
        | some k1 =>
          rw [withFirstFrom_elem_kids _ _ _ _ _ _ _ hmT hwT] at h
          simp only [Option.some.injEq] at h
          subst h
          rw [querySelectorFrom_elem_match _ _ _ _ _ hmB]
          rfl
        | none =>
          rw [withFirstFrom_elem_rest _ _ _ _ _ _ hmT hwT] at h
          simp only [Option.map_eq_some'] at h
          obtain ⟨r1, hr1, rfl⟩ := h
          rw [querySelectorFrom_elem_match _ _ _ _ _ hmB]
    | false =>
      cases hmT : (Selector.budget c "budget-text").matchesElem s e0 with
      | true =>
        rw [withFirstFrom_elem_match _ _ _ _ _ _ hmT] at h
        simp only [Option.some.injEq, setTextContent] at h
        subst h
        rw [barInsideTextFrom_elem_text c s e0 kids rest hmB hmT] at hpre
        have hnone : querySelectorFrom (.budget c "progress-bar")
            ((Selector.budget c "progress-bar").enter s e0) kids = none := by
          cases hq : querySelectorFrom (.budget c "progress-bar")
              ((Selector.budget c "progress-bar").enter s e0) kids with
          | none => rfl
          | some r => rw [hq] at hpre; exact absurd rfl hpre
        rw [querySelectorFrom_elem_rest _ _ _ _ _ hmB hnone,
          querySelectorFrom_elem_rest _ s e0 (.text str .nil) rest hmB rfl]
      | false =>
        rw [barInsideTextFrom_elem_other c s e0 kids rest hmB hmT] at hpre
        cases hwT : withFirstFrom (.budget c "budget-text") (setTextContent str)
            ((Selector.budget c "budget-text").enter s e0) kids with
        | some k1 =>
          rw [withFirstFrom_elem_kids _ _ _ _ _ _ _ hmT hwT] at h
          simp only [Option.some.injEq] at h
          subst h
          have hprek : barInsideTextFrom c ((Selector.budget c "budget-text").enter s e0) kids
              ≠ some true := by
            cases hk : barInsideTextFrom c
                ((Selector.budget c "budget-text").enter s e0) kids with
            | some r => rw [hk] at hpre; exact hpre
            | none => intro h0; cases h0
          have ih := ihk _ k1 hwT hprek
          rw [← henter] at ih
          cases hq1 : querySelectorFrom (.budget c "progress-bar")
              ((Selector.budget c "progress-bar").enter s e0) k1 with
          | some r1 =>
            cases hq0 : querySelectorFrom (.budget c "progress-bar")
                ((Selector.budget c "progress-bar").enter s e0) kids with
            | some r0 =>
              rw [querySelectorFrom_elem_kids _ _ _ _ _ _ hmB hq1,
                querySelectorFrom_elem_kids _ _ _ _ _ _ hmB hq0]
              rw [hq1, hq0] at ih
              exact ih
            | none => rw [hq1, hq0] at ih; cases ih
          | none =>
            cases hq0 : querySelectorFrom (.budget c "progress-bar")
                ((Selector.budget c "progress-bar").enter s e0) kids with
            | some r0 => rw [hq1, hq0] at ih; cases ih
            | none =>
              rw [querySelectorFrom_elem_rest _ _ _ _ _ hmB hq1,
                querySelectorFrom_elem_rest _ _ _ _ _ hmB hq0]
        | none =>
          rw [withFirstFrom_elem_rest _ _ _ _ _ _ hmT hwT] at h
          simp only [Option.map_eq_some'] at h
          obtain ⟨r1, hr1, rfl⟩ := h
          have hqT := (withFirstFrom_eq_none _ _ kids _).1 hwT
          cases hq0 : querySelectorFrom (.budget c "progress-bar")
              ((Selector.budget c "progress-bar").enter s e0) kids with
          | some r0 =>
            rw [querySelectorFrom_elem_kids _ _ _ _ _ _ hmB hq0,
              querySelectorFrom_elem_kids _ _ _ _ _ _ hmB hq0]
          | none =>
            have hk : barInsideTextFrom c ((Selector.budget c "budget-text").enter s e0) kids
                = none := (barInsideTextFrom_eq_none c kids _).2 ⟨henter ▸ hq0, hqT⟩
            rw [hk] at hpre
            rw [querySelectorFrom_elem_rest _ _ _ _ _ hmB hq0,
              querySelectorFrom_elem_rest _ _ _ _ _ hmB hq0]
            exact ihr s r1 hr1 hpre

/-- A write to the attributes of one element, which keeps its matching and its scope
for the two selectors of a category, does not change whether the first progress bar
lies inside the first companion text element. -/
theorem barInsideTextFrom_after_relabel (sel : Selector) (c : String) (w : Elem → Elem)
    (hmB : ∀ s e, (Selector.budget c "progress-bar").matchesElem s (w e)
      = (Selector.budget c "progress-bar").matchesElem s e)
    (hmT : ∀ s e, (Selector.budget c "budget-text").matchesElem s (w e)
      = (Selector.budget c "budget-text").matchesElem s e)
    (he : ∀ s e, (Selector.budget c "budget-text").enter s (w e)
      = (Selector.budget c "budget-text").enter s e)
    (hc : ∀ e, (w e).classList.contains "progress-bar" = e.classList.contains "progress-bar") :
    ∀ (f : Forest) (t s : Bool) (f1 : Forest),
      withFirstFrom sel (fun e k => (w e, k)) t f = some f1 →
        barInsideTextFrom c s f1 = barInsideTextFrom c s f := by
  intro f
  induction f with
  | nil => intro t s f1 h; simp [withFirstFrom] at h
  | text x rest ih =>
    intro t s f1 h
    simp only [withFirstFrom, Option.map_eq_some'] at h
    obtain ⟨r1, hr1, rfl⟩ := h
    simp only [barInsideTextFrom]
    exact ih t s r1 hr1
  | elem e0 kids rest ihk ihr =>
    intro t s f1 h
    have heB : ∀ e, (Selector.budget c "progress-bar").enter s (w e)
        = (Selector.budget c "progress-bar").enter s e := fun e => he s e
    cases hm1 : sel.matchesElem t e0 with
    | true =>
      rw [withFirstFrom_elem_match _ _ _ _ _ _ hm1] at h
      simp only [Option.some.injEq] at h
      subst h
      simp only [barInsideTextFrom, hmB, hmT, he, heB]
    | false =>
      cases hw : withFirstFrom sel (fun e k => (w e, k)) (sel.enter t e0) kids with
      | some k1 =>
        rw [withFirstFrom_elem_kids _ _ _ _ _ _ _ hm1 hw] at h
        simp only [Option.some.injEq] at h
        subst h
        have hsome : (querySelectorFrom (.budget c "progress-bar")
            ((Selector.budget c "progress-bar").enter s e0) k1).isSome
            = (querySelectorFrom (.budget c "progress-bar")
            ((Selector.budget c "progress-bar").enter s e0) kids).isSome := by
          have := querySelectorFrom_after_relabel sel (.budget c "progress-bar") w
            "progress-bar" hmB (fun s e => he s e) hc kids (sel.enter t e0)
            ((Selector.budget c "progress-bar").enter s e0) k1 hw
          have h2 := congrArg Option.isSome this
          simpa using h2
        simp only [barInsideTextFrom, hsome, ihk _ _ k1 hw]
      | none =>
        rw [withFirstFrom_elem_rest _ _ _ _ _ _ hm1 hw] at h
        simp only [Option.map_eq_some'] at h
        obtain ⟨r1, hr1, rfl⟩ := h
        simp only [barInsideTextFrom, ihr _ _ r1 hr1]

theorem budgetWrites_stable (b : BudgetStatus) (s : Bool) (e : Elem) (k : Forest)
    (hm : (Selector.budget b.category "progress-bar").matchesElem s e = true) :
    (Selector.budget b.category "progress-bar").matchesElem s
      ((fun e kids => (writeProgressBar b e, kids)) e k).1 = true := by
  rw [← hm]
  exact writeProgressBar_matchesElem b _ _ (by decide) s e

/-- When the writes of a status are applied a second time, the document stays as the
first application left it exactly when the progress bar that the category selects
after the first application, if there is one, is already as the writes leave it. -/
theorem budgetWrites_twice_iff (d : Forest) (b : BudgetStatus) :
    budgetWrites (budgetWrites d b) b = budgetWrites d b ↔
      ∀ e k, querySelector (.budget b.category "progress-bar") (budgetWrites d b)
        = some (e, k) → writeProgressBar b e = e := by
  cases h1 : withFirst (.budget b.category "progress-bar")
      (fun e kids => (writeProgressBar b e, kids)) d with
  | none =>
    have hU : budgetWrites d b = d := by
      unfold budgetWrites; rw [h1]
    rw [hU, hU]
    constructor
    · intro _ e k hq
      rw [(withFirst_eq_none _ _ d).1 h1] at hq
      cases hq
    · intro _; rfl
  | some d1 =>
    cases hqB : querySelector (.budget b.category "progress-bar") d with
    | none => rw [(withFirst_eq_none _ _ d).2 hqB] at h1; cases h1
    | some r =>
      obtain ⟨e, k⟩ := r
      have hqB1 : querySelector (.budget b.category "progress-bar") d1
          = some (writeProgressBar b e, k) :=
        querySelectorFrom_withFirstFrom_self _ _ (budgetWrites_stable b) d false d1 e k h1 hqB
      have hfix1 : withFirst (.budget b.category "progress-bar")
          (fun e kids => (writeProgressBar b e, kids)) d1 = some d1 :=
        withFirstFrom_fixed _ _ d1 false _ _ hqB1 (by simp only [writeProgressBar_idem])
      cases h2 : withFirst (.budget b.category "budget-text")
          (setTextContent (budgetTextContent b)) d1 with
      | none =>
        have hU : budgetWrites d b = d1 := by
          unfold budgetWrites; rw [h1]; simp only []; rw [h2]
        have hU1 : budgetWrites d1 b = d1 := by
          unfold budgetWrites; rw [hfix1]; simp only []; rw [h2]
        rw [hU, hU1]
        constructor
        · intro _ e2 k2 hq2
          rw [hqB1] at hq2
          simp only [Option.some.injEq, Prod.mk.injEq] at hq2
          rw [← hq2.1]
          exact writeProgressBar_idem b e
        · intro _; rfl
      | some d2 =>
        have hU : budgetWrites d b = d2 := by
          unfold budgetWrites; rw [h1]; simp only []; rw [h2]
        rw [hU]
        -- the companion text element of `d2` holds the text already
        cases hqT1 : querySelector (.budget b.category "budget-text") d1 with
        | none => rw [(withFirst_eq_none _ _ d1).2 hqT1] at h2; cases h2
        | some rT1 =>
          obtain ⟨eT, kT⟩ := rT1
          have hqT2 : querySelector (.budget b.category "budget-text") d2
              = some (eT, .text (budgetTextContent b) .nil) :=
            querySelectorFrom_withFirstFrom_self (.budget b.category "budget-text")
              (setTextContent (budgetTextContent b)) (fun _ _ _ hm => hm) d1 false d2 eT kT
              h2 hqT1
          have hfixT : withFirst (.budget b.category "budget-text")
              (setTextContent (budgetTextContent b)) d2 = some d2 :=
            withFirstFrom_fixed _ _ d2 false _ _ hqT2 rfl
          constructor
          · -- a second application that changes nothing wrote the selected bar onto itself
            intro hsame e2 k2 hq2
            cases h3 : withFirst (.budget b.category "progress-bar")
                (fun e kids => (writeProgressBar b e, kids)) d2 with
            | none => rw [(withFirst_eq_none _ _ d2).1 h3] at hq2; cases hq2
            | some d3 =>
              have hq3 : querySelector (.budget b.category "progress-bar") d3
                  = some (writeProgressBar b e2, k2) :=
                querySelectorFrom_withFirstFrom_self _ _ (budgetWrites_stable b) d2 false d3
                  e2 k2 h3 hq2
              cases h4 : withFirst (.budget b.category "budget-text")
                  (setTextContent (budgetTextContent b)) d3 with
              | none =>
                have hU2 : budgetWrites d2 b = d3 := by
                  unfold budgetWrites; rw [h3]; simp only []; rw [h4]
                rw [hU2] at hsame
                rw [hsame, hq2] at hq3
                simp only [Option.some.injEq, Prod.mk.injEq] at hq3
                exact hq3.1.symm
              | some d4 =>
                have hU2 : budgetWrites d2 b = d4 := by
                  unfold budgetWrites; rw [h3]; simp only []; rw [h4]
                rw [hU2] at hsame
                have hobs := querySelectorFrom_after_relabel
                  (.budget b.category "progress-bar") (.budget b.category "budget-text")
                  (writeProgressBar b) "progress-bar"
                  (fun s e => writeProgressBar_matchesElem b _ _ (by decide) s e)
                  (fun s e => writeProgressBar_enter b _ _ s e)
                  (fun e => writeProgressBar_contains b e _ (by decide)) d2 false false d3 h3
                have hqT2f : querySelectorFrom (.budget b.category "budget-text") false d2
                    = some (eT, .text (budgetTextContent b) .nil) := hqT2
                rw [hqT2f] at hobs
                have hbar := progressBar_after_text b.category (budgetTextContent b) d3 false
                  d4 h4 hobs
                have hq3f : querySelectorFrom (.budget b.category "progress-bar") false d3
                    = some (writeProgressBar b e2, k2) := hq3
                have hq2f : querySelectorFrom (.budget b.category "progress-bar") false d2
                    = some (e2, k2) := hq2
                rw [hsame, hq3f, hq2f] at hbar
                simp only [Option.map_some', Option.some.injEq] at hbar
                exact hbar.symm
          · -- a selected bar that is as the writes leave it is written onto itself
            intro hfixed
            cases hq2 : querySelector (.budget b.category "progress-bar") d2 with
            | none =>
              unfold budgetWrites
              rw [(withFirst_eq_none _ _ d2).2 hq2]
            | some r2 =>
              obtain ⟨e2, k2⟩ := r2
              have hfixB : withFirst (.budget b.category "progress-bar")
                  (fun e kids => (writeProgressBar b e, kids)) d2 = some d2 :=
                withFirstFrom_fixed _ _ d2 false _ _ hq2 (by simp only [hfixed e2 k2 hq2])
              unfold budgetWrites
              rw [hfixB]
              simp only []
              rw [hfixT]

/-- The writes of a status leave the first progress bar of the category selected,
with the written attributes, when that bar does not lie inside the companion text
element of the category. -/
theorem budgetWrites_bar_of_outside (d : Forest) (b : BudgetStatus)
    (hout : barInsideText b.category d = false) :
    ∀ e k, querySelector (.budget b.category "progress-bar") (budgetWrites d b)
      = some (e, k) → writeProgressBar b e = e := by
  intro e2 k2 hq2
  cases h1 : withFirst (.budget b.category "progress-bar")
      (fun e kids => (writeProgressBar b e, kids)) d with
  | none =>
    have hU : budgetWrites d b = d := by
      unfold budgetWrites; rw [h1]
    rw [hU, (withFirst_eq_none _ _ d).1 h1] at hq2
    cases hq2
  | some d1 =>
    cases hqB : querySelector (.budget b.category "progress-bar") d with
    | none => rw [(withFirst_eq_none _ _ d).2 hqB] at h1; cases h1
    | some r =>
      obtain ⟨e, k⟩ := r
      have hqB1 : querySelector (.budget b.category "progress-bar") d1
          = some (writeProgressBar b e, k) :=
        querySelectorFrom_withFirstFrom_self _ _ (budgetWrites_stable b) d false d1 e k h1 hqB
      cases h2 : withFirst (.budget b.category "budget-text")
          (setTextContent (budgetTextContent b)) d1 with
      | none =>
        have hU : budgetWrites d b = d1 := by
          unfold budgetWrites; rw [h1]; simp only []; rw [h2]
        rw [hU, hqB1] at hq2
        simp only [Option.some.injEq, Prod.mk.injEq] at hq2
        rw [← hq2.1]
        exact writeProgressBar_idem b e
      | some d2 =>
        have hU : budgetWrites d b = d2 := by
          unfold budgetWrites; rw [h1]; simp only []; rw [h2]
        rw [hU] at hq2
        have hrel := barInsideTextFrom_after_relabel (.budget b.category "progress-bar")
          b.category (writeProgressBar b)
          (fun s e => writeProgressBar_matchesElem b _ _ (by decide) s e)
          (fun s e => writeProgressBar_matchesElem b _ _ (by decide) s e)
          (fun s e => writeProgressBar_enter b _ _ s e)
          (fun e => writeProgressBar_contains b e _ (by decide)) d false false d1 h1
        have hout1 : barInsideTextFrom b.category false d1 ≠ some true := by
          rw [hrel]
          intro h0
          simp [barInsideText, h0] at hout
        have hbar := progressBar_after_text_outside b.category (budgetTextContent b) d1 false
          d2 h2 hout1
        have hqB1f : querySelectorFrom (.budget b.category "progress-bar") false d1
            = some (writeProgressBar b e, k) := hqB1
        have hq2f : querySelectorFrom (.budget b.category "progress-bar") false d2
            = some (e2, k2) := hq2
        rw [hqB1f, hq2f] at hbar
        simp only [Option.map_some', Option.some.injEq] at hbar
        rw [hbar]
        exact writeProgressBar_idem b e

/-- C10 (as amended). For a status whose category stands in the selector text as it
is, applying the status twice leaves the whole document, and so the width,
`aria-valuenow`, class list and companion text, exactly as applying it once does if
and only if the progress bar that the category selects after the first call, when
there is one, is already as the writes leave it. This is so whenever the first
progress bar of the category does not lie inside the companion text element of the
category. The classes of a written bar that are not colour classes are the ones it
had before. -/
theorem updateBudgetProgressBar_idempotent (d : Forest) (b : BudgetStatus)
    (hsafe : selectorSafe b.category = true) :
    (updateBudgetProgressBar (updateBudgetProgressBar d b).document b
          = updateBudgetProgressBar d b ↔
        ∀ e k, querySelector (.budget b.category "progress-bar")
          (updateBudgetProgressBar d b).document = some (e, k) → writeProgressBar b e = e)
      ∧ (barInsideText b.category d = false →
          updateBudgetProgressBar (updateBudgetProgressBar d b).document b
            = updateBudgetProgressBar d b)
      ∧ ∀ e : Elem, otherTokens (writeProgressBar b e).classList = otherTokens e.classList := by
  have hiff : updateBudgetProgressBar (updateBudgetProgressBar d b).document b
        = updateBudgetProgressBar d b ↔
      ∀ e k, querySelector (.budget b.category "progress-bar")
        (updateBudgetProgressBar d b).document = some (e, k) → writeProgressBar b e = e := by
    rw [updateBudgetProgressBar_of_safe d b hsafe]
    simp only []
    rw [updateBudgetProgressBar_of_safe _ b hsafe, ← budgetWrites_twice_iff d b]
    constructor
    · intro h
      exact congrArg Completion.document h
    · intro h
      rw [h]
  refine ⟨hiff, ?_, fun e => by
    rw [writeProgressBar_classList]; exact otherTokens_recolour _ _ (colourRule_mem b)⟩
  intro hout
  rw [hiff, updateBudgetProgressBar_of_safe d b hsafe]
  exact budgetWrites_bar_of_outside d b hout

/-- The witness of C10 as amended: the status `foodStatus`, whose category is an
identifier. -/
theorem updateBudgetProgressBar_idempotent_witness :
    selectorSafe foodStatus.category = true
      ∧ ((updateBudgetProgressBar (updateBudgetProgressBar foodPage foodStatus).document
            foodStatus = updateBudgetProgressBar foodPage foodStatus ↔
          ∀ e k, querySelector (.budget foodStatus.category "progress-bar")
            (updateBudgetProgressBar foodPage foodStatus).document = some (e, k) →
              writeProgressBar foodStatus e = e)
        ∧ (barInsideText foodStatus.category foodPage = false →
            updateBudgetProgressBar (updateBudgetProgressBar foodPage foodStatus).document
              foodStatus = updateBudgetProgressBar foodPage foodStatus)
        ∧ ∀ e : Elem, otherTokens (writeProgressBar foodStatus e).classList
            = otherTokens e.classList) :=
  ⟨by decide, updateBudgetProgressBar_idempotent foodPage foodStatus (by decide)⟩

/-- C10, counterexample. On `nestedBarPage` the first progress bar of the `food` block
lies inside the companion text element: the first call writes it and then replaces
the content of the text element, which removes it, so that the bar the category
selects after one call has no width, and the second call writes that bar. -/
theorem updateBudgetProgressBar_not_idempotent :
    (querySelector (.budget "food" "progress-bar")
        (updateBudgetProgressBar (updateBudgetProgressBar nestedBarPage foodStatus).document
          foodStatus).document).map (fun r => r.1.styleWidth) = some (some 85)
      ∧ (querySelector (.budget "food" "progress-bar")
        (updateBudgetProgressBar nestedBarPage foodStatus).document).map
          (fun r => r.1.styleWidth) = some none
      ∧ updateBudgetProgressBar (updateBudgetProgressBar nestedBarPage foodStatus).document
          foodStatus ≠ updateBudgetProgressBar nestedBarPage foodStatus
      ∧ barInsideText "food" nestedBarPage = true := by
  refine ⟨?_, ?_, ?_, ?_⟩ <;> decide

/-! ## The token header of the AJAX form helper -/

theorem mem_elements_of_querySelectorFrom (n : String) :
    ∀ (f : Forest) (s : Bool) (r : Elem × Forest),
      querySelectorFrom (.byName n) s f = some r → r ∈ elements f ∧ r.1.name = some n := by
  intro f
  induction f with
  | nil => intro s r h; simp [querySelectorFrom] at h
  | text t rest ih => intro s r h; exact ih s r h
  | elem e kids rest ihk ihr =>
    intro s r h
    cases hm : (Selector.byName n).matchesElem s e with
    | true =>
      rw [querySelectorFrom_elem_match _ _ _ _ _ hm] at h
      simp only [Option.some.injEq] at h
      subst h
      refine ⟨by simp [elements], ?_⟩
      simpa [Selector.matchesElem] using hm
    | false =>
      cases hq : querySelectorFrom (.byName n) ((Selector.byName n).enter s e) kids with
      | some r0 =>
        rw [querySelectorFrom_elem_kids _ _ _ _ _ _ hm hq] at h
        simp only [Option.some.injEq] at h
        subst h
        obtain ⟨h1, h2⟩ := ihk _ _ hq
        exact ⟨by simp [elements, h1], h2⟩
      | none =>
        rw [querySelectorFrom_elem_rest _ _ _ _ _ hm hq] at h
        obtain ⟨h1, h2⟩ := ihr _ _ h
        exact ⟨by simp [elements, h1], h2⟩

theorem name_ne_of_querySelectorFrom_none (n : String) :
    ∀ (f : Forest) (s : Bool), querySelectorFrom (.byName n) s f = none →
      ∀ x ∈ elements f, x.1.name ≠ some n := by
  intro f
  induction f with
  | nil => intro s _ x hx; simp [elements] at hx
  | text t rest ih => intro s h x hx; exact ih s h x hx
  | elem e kids rest ihk ihr =>
    intro s h x hx
    cases hm : (Selector.byName n).matchesElem s e with
    | true => rw [querySelectorFrom_elem_match _ _ _ _ _ hm] at h; cases h
    | false =>
      cases hq : querySelectorFrom (.byName n) ((Selector.byName n).enter s e) kids with
      | some r0 => rw [querySelectorFrom_elem_kids _ _ _ _ _ _ hm hq] at h; cases h
      | none =>
        rw [querySelectorFrom_elem_rest _ _ _ _ _ hm hq] at h
        simp only [elements, List.mem_cons, List.mem_append] at hx
        rcases hx with rfl | hx | hx
        · simpa [Selector.matchesElem] using hm
        · exact ihk _ hq x hx
        · exact ihr _ h x hx

theorem elements_subforest :
    ∀ (f : Forest) (e : Elem) (k : Forest), (e, k) ∈ elements f →
      ∀ x ∈ elements k, x ∈ elements f := by
  intro f
  induction f with
  | nil => intro e k h; simp [elements] at h
  | text t rest ih => intro e k h x hx; exact ih e k h x hx
  | elem e0 kids rest ihk ihr =>
    intro e k h x hx
    simp only [elements, List.mem_cons, List.mem_append, Prod.mk.injEq] at h ⊢
    rcases h with ⟨rfl, rfl⟩ | h | h
    · exact Or.inr (Or.inl hx)
    · exact Or.inr (Or.inl (ihk e k h x hx))
    · exact Or.inr (Or.inr (ihr e k h x hx))

/-- C5 (as amended). On a document with an element named `csrfmiddlewaretoken`, the
`X-CSRFToken` header is the value of the first such element of the whole document,
whichever form is submitted and whether or not that form holds a token field. For a
form of the document with a token field of its own, the header is that form's token
exactly when the form's field and the first such element hold the same value, as they
do when all the elements of that name in the document carry one value. -/
theorem submitFormAjax_csrf_header (d : Forest) (first : Elem) (firstKids : Forest)
    (hfirst : querySelector (.byName "csrfmiddlewaretoken") d = some (first, firstKids)) :
    (∀ (α : Type) (form : Elem) (successCallback : Option (α → Except JsError Unit))
        (errorCallback : Option (JsError → Except JsError Unit)) (fetched : Fetched α),
        (submitFormAjax d form successCallback errorCallback fetched).csrfHeader
          = some first.value)
      ∧ ∀ (form : Elem) (kids : Forest) (field : Elem) (fieldKids : Forest),
          (form, kids) ∈ elements d →
          querySelector (.byName "csrfmiddlewaretoken") kids = some (field, fieldKids) →
          ((∀ (α : Type) (successCallback : Option (α → Except JsError Unit))
              (errorCallback : Option (JsError → Except JsError Unit)) (fetched : Fetched α),
              (submitFormAjax d form successCallback errorCallback fetched).csrfHeader
                = some field.value) ↔ field.value = first.value)
          ∧ ((∀ x ∈ elements d, ∀ y ∈ elements d,
                x.1.name = some "csrfmiddlewaretoken" →
                y.1.name = some "csrfmiddlewaretoken" → x.1.value = y.1.value) →
              field.value = first.value) := by
  have hheader : ∀ (α : Type) (form : Elem)
      (successCallback : Option (α → Except JsError Unit))
      (errorCallback : Option (JsError → Except JsError Unit)) (fetched : Fetched α),
      (submitFormAjax d form successCallback errorCallback fetched).csrfHeader
        = some first.value := by
    intro α form successCallback errorCallback fetched
    simp [submitFormAjax, hfirst, CallRecord.csrfHeader]
  refine ⟨hheader, ?_⟩
  intro form kids field fieldKids hform hfield
  obtain ⟨hfk, hfn⟩ := mem_elements_of_querySelectorFrom _ kids false _ hfield
  have hfd : (field, fieldKids) ∈ elements d := elements_subforest d form kids hform _ hfk
  obtain ⟨h1, h2⟩ := mem_elements_of_querySelectorFrom _ d false _ hfirst
  refine ⟨⟨?_, ?_⟩, ?_⟩
  · intro hall
    have := hall Unit none none (.rejected .networkError)
    rw [hheader] at this
    exact (Option.some.inj this).symm
  · intro heq α successCallback errorCallback fetched
    rw [hheader, heq]
  · intro hsame
    exact hsame _ hfd _ h1 hfn h2

/-- The witness of C5 as amended: the page `twoFormPage`, whose first token field
holds `A`. -/
theorem submitFormAjax_csrf_header_witness :
    querySelector (.byName "csrfmiddlewaretoken") twoFormPage
        = some ({ tag := "input", name := some "csrfmiddlewaretoken", value := some "A" }, .nil)
      ∧ ((∀ (α : Type) (form : Elem) (successCallback : Option (α → Except JsError Unit))
          (errorCallback : Option (JsError → Except JsError Unit)) (fetched : Fetched α),
          (submitFormAjax twoFormPage form successCallback errorCallback fetched).csrfHeader
            = some (Elem.value
                { tag := "input", name := some "csrfmiddlewaretoken", value := some "A" }))
        ∧ ∀ (form : Elem) (kids : Forest) (field : Elem) (fieldKids : Forest),
          (form, kids) ∈ elements twoFormPage →
          querySelector (.byName "csrfmiddlewaretoken") kids = some (field, fieldKids) →
          ((∀ (α : Type) (successCallback : Option (α → Except JsError Unit))
              (errorCallback : Option (JsError → Except JsError Unit)) (fetched : Fetched α),
              (submitFormAjax twoFormPage form successCallback errorCallback
                fetched).csrfHeader = some field.value)
              ↔ field.value = Elem.value
                { tag := "input", name := some "csrfmiddlewaretoken", value := some "A" })
          ∧ ((∀ x ∈ elements twoFormPage, ∀ y ∈ elements twoFormPage,
                x.1.name = some "csrfmiddlewaretoken" →
                y.1.name = some "csrfmiddlewaretoken" → x.1.value = y.1.value) →
              field.value = Elem.value
                { tag := "input", name := some "csrfmiddlewaretoken", value := some "A" })) :=
  ⟨by decide,
    submitFormAjax_csrf_header twoFormPage
      { tag := "input", name := some "csrfmiddlewaretoken", value := some "A" } .nil
      (by decide)⟩

/-- C5, counterexample. On `twoFormPage` the second form is submitted: its own token
is `B`, and the header sent is `A`, the token of the first form. -/
theorem submitFormAjax_sends_first_token :
    ({ tag := "form", action := "/b/" }, tokenField "B") ∈ elements twoFormPage
      ∧ (querySelector (.byName "csrfmiddlewaretoken") (tokenField "B")).map
          (fun r => r.1.value) = some (some "B")
      ∧ (submitFormAjax twoFormPage { tag := "form", action := "/b/" }
          (returns Nat) (returns JsError) (.response true (.ok 7))).csrfHeader
        = some (some "A") := by
  refine ⟨?_, ?_, ?_⟩ <;> decide

/-! ## The failure handler of the expense chart -/

theorem setParentContentFrom_elem_match (sel : Selector) (c : Forest) (s : Bool) (e : Elem)
    (kids rest : Forest) (h : sel.matchesElem s e = true) :
    setParentContentFrom sel c s (.elem e kids rest) = some .here := by
  simp [setParentContentFrom, h]

theorem setParentContentFrom_elem_kids_here (sel : Selector) (c : Forest) (s : Bool)
    (e : Elem) (kids rest : Forest) (h : sel.matchesElem s e = false)
    (hk : setParentContentFrom sel c (sel.enter s e) kids = some .here) :
    setParentContentFrom sel c s (.elem e kids rest) = some (.below (.elem e c rest)) := by
  simp [setParentContentFrom, h, hk]

theorem setParentContentFrom_elem_kids_below (sel : Selector) (c : Forest) (s : Bool)
    (e : Elem) (kids rest k1 : Forest) (h : sel.matchesElem s e = false)
    (hk : setParentContentFrom sel c (sel.enter s e) kids = some (.below k1)) :
    setParentContentFrom sel c s (.elem e kids rest) = some (.below (.elem e k1 rest)) := by
  simp [setParentContentFrom, h, hk]

theorem setParentContentFrom_elem_rest (sel : Selector) (c : Forest) (s : Bool)
    (e : Elem) (kids rest : Forest) (h : sel.matchesElem s e = false)
    (hk : setParentContentFrom sel c (sel.enter s e) kids = none) :
    setParentContentFrom sel c s (.elem e kids rest) =
      match setParentContentFrom sel c s rest with
      | none => none
      | some .here => some .here
      | some (.below rest1) => some (.below (.elem e kids rest1)) := by
  simp [setParentContentFrom, h, hk]

theorem setParentContentFrom_eq_none (sel : Selector) (c : Forest) :
    ∀ (f : Forest) (s : Bool),
      setParentContentFrom sel c s f = none ↔ querySelectorFrom sel s f = none := by
  intro f
  induction f with
  | nil => intro s; simp [setParentContentFrom, querySelectorFrom]
  | text t rest ih =>
    intro s
    simp only [setParentContentFrom, querySelectorFrom, ← ih s]
    cases h : setParentContentFrom sel c s rest with
    | none => simp
    | some l => cases l <;> simp
  | elem e kids rest ihk ihr =>
    intro s
    cases hm : sel.matchesElem s e with
    | true =>
      rw [setParentContentFrom_elem_match _ _ _ _ _ _ hm,
        querySelectorFrom_elem_match _ _ _ _ _ hm]
      simp
    | false =>
      cases hq : querySelectorFrom sel (sel.enter s e) kids with
      | none =>
        rw [setParentContentFrom_elem_rest _ _ _ _ _ _ hm ((ihk _).2 hq),
          querySelectorFrom_elem_rest _ _ _ _ _ hm hq, ← ihr s]
        cases h : setParentContentFrom sel c s rest with
        | none => simp
        | some l => cases l <;> simp
      | some r =>
        rw [querySelectorFrom_elem_kids _ _ _ _ _ _ hm hq]
        cases hs : setParentContentFrom sel c (sel.enter s e) kids with
        | none => rw [(ihk _).1 hs] at hq; cases hq
        | some l =>
          cases l with
          | here => rw [setParentContentFrom_elem_kids_here _ _ _ _ _ _ hm hs]; simp
          | below k1 => rw [setParentContentFrom_elem_kids_below _ _ _ _ _ _ _ hm hs]; simp

theorem querySelectorFrom_eq_none_iff_count (sel : Selector) :
    ∀ (f : Forest) (s : Bool),
      querySelectorFrom sel s f = none ↔ countMatchesFrom sel s f = 0 := by
  intro f
  induction f with
  | nil => intro s; simp [querySelectorFrom, countMatchesFrom]
  | text t rest ih => intro s; simp [querySelectorFrom, countMatchesFrom, ih]
  | elem e kids rest ihk ihr =>
    intro s
    cases hm : sel.matchesElem s e with
    | true =>
      rw [querySelectorFrom_elem_match _ _ _ _ _ hm]
      simp [countMatchesFrom, hm]
    | false =>
      cases hq : querySelectorFrom sel (sel.enter s e) kids with
      | none =>
        rw [querySelectorFrom_elem_rest _ _ _ _ _ hm hq, ihr s]
        simp [countMatchesFrom, hm, (ihk _).1 hq]
      | some r =>
        rw [querySelectorFrom_elem_kids _ _ _ _ _ _ hm hq]
        have hne : countMatchesFrom sel (sel.enter s e) kids ≠ 0 := by
          intro h0
          rw [(ihk _).2 h0] at hq
          cases hq
        simp [countMatchesFrom, hm, hne]

/-- A write to the attributes of the first match, which keeps its matching, does not
show in the document once the content of the parent of that match is replaced. -/
theorem setParentContentFrom_after_relabel (sel : Selector) (c : Forest) (w : Elem → Elem)
    (hm : ∀ s e, sel.matchesElem s e = true → sel.matchesElem s (w e) = true) :
    ∀ (f : Forest) (s : Bool) (f1 : Forest),
      withFirstFrom sel (fun e k => (w e, k)) s f = some f1 →
        setParentContentFrom sel c s f1 = setParentContentFrom sel c s f := by
  intro f
  induction f with
  | nil => intro s f1 h; simp [withFirstFrom] at h
  | text t rest ih =>
    intro s f1 h
    simp only [withFirstFrom, Option.map_eq_some'] at h
    obtain ⟨r1, hr1, rfl⟩ := h
    simp only [setParentContentFrom, ih s r1 hr1]
  | elem e0 kids rest ihk ihr =>
    intro s f1 h
    cases hm0 : sel.matchesElem s e0 with
    | true =>
      rw [withFirstFrom_elem_match _ _ _ _ _ _ hm0] at h
      simp only [Option.some.injEq] at h
      subst h
      rw [setParentContentFrom_elem_match _ _ _ _ _ _ hm0,
        setParentContentFrom_elem_match _ _ _ _ _ _ (hm s e0 hm0)]
    | false =>
      cases hw : withFirstFrom sel (fun e k => (w e, k)) (sel.enter s e0) kids with
      | some k1 =>
        rw [withFirstFrom_elem_kids _ _ _ _ _ _ _ hm0 hw] at h
        simp only [Option.some.injEq] at h
        subst h
        have ih := ihk _ k1 hw
        cases hs : setParentContentFrom sel c (sel.enter s e0) kids with
        | none =>
          rw [(withFirstFrom_eq_none _ _ kids _).2
            ((setParentContentFrom_eq_none sel c kids _).1 hs)] at hw
          cases hw
        | some l =>
          rw [hs] at ih
          cases l with
          | here =>
            rw [setParentContentFrom_elem_kids_here _ _ _ _ _ _ hm0 hs,
              setParentContentFrom_elem_kids_here _ _ _ _ _ _ hm0 ih]
          | below k2 =>
            rw [setParentContentFrom_elem_kids_below _ _ _ _ _ _ _ hm0 hs,
              setParentContentFrom_elem_kids_below _ _ _ _ _ _ _ hm0 ih]
      | none =>
        rw [withFirstFrom_elem_rest _ _ _ _ _ _ hm0 hw] at h
        simp only [Option.map_eq_some'] at h
        obtain ⟨r1, hr1, rfl⟩ := h
        have hs : setParentContentFrom sel c (sel.enter s e0) kids = none :=
          (setParentContentFrom_eq_none sel c kids _).2
            ((withFirstFrom_eq_none _ _ kids _).1 hw)
        rw [setParentContentFrom_elem_rest _ _ _ _ _ _ hm0 hs,
          setParentContentFrom_elem_rest _ _ _ _ _ _ hm0 hs, ihr s r1 hr1]

theorem countText_setParentContentFrom (sel : Selector) (c : Forest) (str : String) :
    ∀ (f : Forest) (s : Bool) (f1 : Forest),
      setParentContentFrom sel c s f = some (.below f1) → countText str f = 0 →
        countText str f1 = countText str c := by
  intro f
  induction f with
  | nil => intro s f1 h; simp [setParentContentFrom] at h
  | text t rest ih =>
    intro s f1 h h0
    simp only [countText, Nat.add_eq_zero] at h0
    simp only [setParentContentFrom] at h
    cases hs : setParentContentFrom sel c s rest with
    | none => rw [hs] at h; cases h
    | some l =>
      cases l with
      | here => rw [hs] at h; cases h
      | below r1 =>
        rw [hs] at h
        simp only [Option.some.injEq, Located.below.injEq] at h
        subst h
        simp only [countText, h0.1, ih s r1 hs h0.2, Nat.zero_add]
  | elem e kids rest ihk ihr =>
    intro s f1 h h0
    simp only [countText, Nat.add_eq_zero] at h0
    cases hm : sel.matchesElem s e with
    | true => rw [setParentContentFrom_elem_match _ _ _ _ _ _ hm] at h; cases h
    | false =>
      cases hs : setParentContentFrom sel c (sel.enter s e) kids with
      | some l =>
        cases l with
        | here =>
          rw [setParentContentFrom_elem_kids_here _ _ _ _ _ _ hm hs] at h
          simp only [Option.some.injEq, Located.below.injEq] at h
          subst h
          simp only [countText, h0.2, Nat.add_zero]
        | below k1 =>
          rw [setParentContentFrom_elem_kids_below _ _ _ _ _ _ _ hm hs] at h
          simp only [Option.some.injEq, Located.below.injEq] at h
          subst h
          simp only [countText, h0.2, ihk _ k1 hs h0.1, Nat.add_zero]
      | none =>
        rw [setParentContentFrom_elem_rest _ _ _ _ _ _ hm hs] at h
        cases hr : setParentContentFrom sel c s rest with
        | none => rw [hr] at h; cases h
        | some l =>
          cases l with
          | here => rw [hr] at h; cases h
          | below r1 =>
            rw [hr] at h
            simp only [Option.some.injEq, Located.below.injEq] at h
            subst h
            simp only [countText, h0.1, ihr s r1 hr h0.2, Nat.zero_add]

theorem countMatchesFrom_setParentContentFrom (sel : Selector) (c : Forest)
    (hc : ∀ s, countMatchesFrom sel s c = 0) :
    ∀ (f : Forest) (s : Bool) (f1 : Forest),
      setParentContentFrom sel c s f = some (.below f1) → countMatchesFrom sel s f = 1 →
        countMatchesFrom sel s f1 = 0 := by
  intro f
  induction f with
  | nil => intro s f1 h; simp [setParentContentFrom] at h
  | text t rest ih =>
    intro s f1 h h1
    simp only [countMatchesFrom] at h1
    simp only [setParentContentFrom] at h
    cases hs : setParentContentFrom sel c s rest with
    | none => rw [hs] at h; cases h
    | some l =>
      cases l with
      | here => rw [hs] at h; cases h
      | below r1 =>
        rw [hs] at h
        simp only [Option.some.injEq, Located.below.injEq] at h
        subst h
        simp only [countMatchesFrom, ih s r1 hs h1]
  | elem e kids rest ihk ihr =>
    intro s f1 h h1
    cases hm : sel.matchesElem s e with
    | true => rw [setParentContentFrom_elem_match _ _ _ _ _ _ hm] at h; cases h
    | false =>
      simp only [countMatchesFrom, hm, Bool.false_eq_true, if_false, Nat.zero_add] at h1
      cases hs : setParentContentFrom sel c (sel.enter s e) kids with
      | some l =>
        have hkne : countMatchesFrom sel (sel.enter s e) kids ≠ 0 := by
          intro h0
          have := (setParentContentFrom_eq_none sel c kids _).2
            ((querySelectorFrom_eq_none_iff_count sel kids _).2 h0)
          rw [this] at hs
          cases hs
        have hk1 : countMatchesFrom sel (sel.enter s e) kids = 1 := by omega
        have hr0 : countMatchesFrom sel s rest = 0 := by omega
        cases l with
        | here =>
          rw [setParentContentFrom_elem_kids_here _ _ _ _ _ _ hm hs] at h
          simp only [Option.some.injEq, Located.below.injEq] at h
          subst h
          simp [countMatchesFrom, hm, hc, hr0]
        | below k1 =>
          rw [setParentContentFrom_elem_kids_below _ _ _ _ _ _ _ hm hs] at h
          simp only [Option.some.injEq, Located.below.injEq] at h
          subst h
          simp [countMatchesFrom, hm, ihk _ k1 hs hk1, hr0]
      | none =>
        have hk0 : countMatchesFrom sel (sel.enter s e) kids = 0 :=
          (querySelectorFrom_eq_none_iff_count sel kids _).1
            ((setParentContentFrom_eq_none sel c kids _).1 hs)
        rw [setParentContentFrom_elem_rest _ _ _ _ _ _ hm hs] at h
        cases hr : setParentContentFrom sel c s rest with
        | none => rw [hr] at h; cases h
        | some l =>
          cases l with
          | here => rw [hr] at h; cases h
          | below r1 =>
            rw [hr] at h
            simp only [Option.some.injEq, Located.below.injEq] at h
            subst h
            have hr1 : countMatchesFrom sel s rest = 1 := by omega
            simp [countMatchesFrom, hm, hk0, ihr s r1 hr hr1]

theorem expenseChartCatch_of_none (d : Forest)
    (h : querySelector (.byId "expenseChart") d = none) :
    expenseChartCatch d = { document := d, escaped := some .typeError } := by
  unfold expenseChartCatch
  rw [(withFirst_eq_none _ _ d).2 h]

theorem initializeExpenseChart_of_none (newChart : ExpenseDataset → Except JsError Unit)
    (fetched : Fetched ExpenseDataset) (d : Forest)
    (h : querySelector (.byId "expenseChart") d = none) :
    initializeExpenseChart newChart fetched d
      = { document := d, escaped := some .typeError } := by
  unfold initializeExpenseChart
  cases fetched with
  | rejected e => exact expenseChartCatch_of_none d h
  | response ok json =>
    cases json with
    | error e => exact expenseChartCatch_of_none d h
    | ok data =>
      simp only [h]
      exact expenseChartCatch_of_none d h

theorem initializeExpenseChart_of_failure (newChart : ExpenseDataset → Except JsError Unit)
    (fetched : Fetched ExpenseDataset) (d : Forest)
    (hfail : ∀ ok data, fetched ≠ .response ok (.ok data)) :
    initializeExpenseChart newChart fetched d = expenseChartCatch d := by
  unfold initializeExpenseChart
  cases fetched with
  | rejected e => rfl
  | response ok json =>
    cases json with
    | error e => rfl
    | ok data => exact absurd rfl (hfail ok data)

/-- C7 (as amended). On a page with one `expenseChart` canvas and no placeholder text
yet, a fetch that rejects or whose JSON fails to parse ends with no error escaping the
handler and with the content of the container of the canvas replaced by the
placeholder: the canvas is no longer in the document and the placeholder text is there
exactly once. A later run of `initializeExpenseChart`, however its fetch ends, leaves
that document as it is. -/
theorem initializeExpenseChart_failure (newChart : ExpenseDataset → Except JsError Unit)
    (fetched : Fetched ExpenseDataset) (d : Forest)
    (hfail : ∀ ok data, fetched ≠ .response ok (.ok data))
    (hcanvas : countMatchesFrom (.byId "expenseChart") false d = 1)
    (hfresh : countText "No expense data available" d = 0) :
    (initializeExpenseChart newChart fetched d).escaped = none
      ∧ some (initializeExpenseChart newChart fetched d).document
          = setParentInnerHTML (.byId "expenseChart") placeholder d
      ∧ querySelector (.byId "expenseChart")
          (initializeExpenseChart newChart fetched d).document = none
      ∧ countText "No expense data available"
          (initializeExpenseChart newChart fetched d).document = 1
      ∧ ∀ (newChart2 : ExpenseDataset → Except JsError Unit)
          (fetched2 : Fetched ExpenseDataset),
          (initializeExpenseChart newChart2 fetched2
              (initializeExpenseChart newChart fetched d).document).document
            = (initializeExpenseChart newChart fetched d).document := by
  rw [initializeExpenseChart_of_failure newChart fetched d hfail]
  have hq : querySelector (.byId "expenseChart") d ≠ none := by
    intro h0
    have := (querySelectorFrom_eq_none_iff_count _ d false).1 h0
    omega
  cases hw : withFirst (.byId "expenseChart")
      (fun e kids => ({ e with styleDisplay := some "none" }, kids)) d with
  | none => exact absurd ((withFirst_eq_none _ _ d).1 hw) hq
  | some d1 =>
    have hrel : setParentInnerHTML (.byId "expenseChart") placeholder d1
        = setParentInnerHTML (.byId "expenseChart") placeholder d := by
      unfold setParentInnerHTML
      rw [setParentContentFrom_after_relabel (.byId "expenseChart") placeholder
        (fun e => { e with styleDisplay := some "none" }) (fun _ _ h => h) d false d1 hw]
    have hcount0 : ∀ s, countMatchesFrom (.byId "expenseChart") s placeholder = 0 := by
      intro s; cases s <;> decide
    -- the document after the replacement
    have key : ∀ d2, setParentInnerHTML (.byId "expenseChart") placeholder d = some d2 →
        countMatchesFrom (.byId "expenseChart") false d2 = 0
          ∧ countText "No expense data available" d2 = 1 := by
      intro d2 h2
      unfold setParentInnerHTML at h2
      cases hs : setParentContentFrom (.byId "expenseChart") placeholder false d with
      | none => rw [hs] at h2; cases h2
      | some l =>
        rw [hs] at h2
        cases l with
        | here =>
          simp only [Option.some.injEq] at h2
          subst h2
          exact ⟨hcount0 false, by decide⟩
        | below f1 =>
          simp only [Option.some.injEq] at h2
          subst h2
          refine ⟨countMatchesFrom_setParentContentFrom _ _ hcount0 d false _ hs hcanvas, ?_⟩
          rw [countText_setParentContentFrom _ _ _ d false _ hs hfresh]
          decide
    cases hs : setParentInnerHTML (.byId "expenseChart") placeholder d with
    | none =>
      exfalso
      unfold setParentInnerHTML at hs
      cases hc : setParentContentFrom (.byId "expenseChart") placeholder false d with
      | none => exact hq ((setParentContentFrom_eq_none _ _ d false).1 hc)
      | some l => rw [hc] at hs; cases l <;> cases hs
    | some d2 =>
      have hcatch : expenseChartCatch d = { document := d2, escaped := none } := by
        unfold expenseChartCatch
        rw [hw]
        simp only []
        rw [hrel, hs]
      obtain ⟨hk1, hk2⟩ := key d2 hs
      have hnone : querySelector (.byId "expenseChart") d2 = none :=
        (querySelectorFrom_eq_none_iff_count _ d2 false).2 hk1
      rw [hcatch]
      refine ⟨rfl, rfl, hnone, hk2, ?_⟩
      intro newChart2 fetched2
      rw [initializeExpenseChart_of_none newChart2 fetched2 d2 hnone]

/-- The witness of C7 as amended: the page `chartPage` and a fetch that rejects. -/
theorem initializeExpenseChart_failure_witness :
    (∀ ok data, (Fetched.rejected .networkError : Fetched ExpenseDataset)
        ≠ .response ok (.ok data))
      ∧ countMatchesFrom (.byId "expenseChart") false chartPage = 1
      ∧ countText "No expense data available" chartPage = 0
      ∧ ((initializeExpenseChart (fun _ => .ok ()) (.rejected .networkError)
            chartPage).escaped = none
        ∧ some (initializeExpenseChart (fun _ => .ok ()) (.rejected .networkError)
            chartPage).document
            = setParentInnerHTML (.byId "expenseChart") placeholder chartPage
        ∧ querySelector (.byId "expenseChart")
            (initializeExpenseChart (fun _ => .ok ()) (.rejected .networkError)
              chartPage).document = none
        ∧ countText "No expense data available"
            (initializeExpenseChart (fun _ => .ok ()) (.rejected .networkError)
              chartPage).document = 1
        ∧ ∀ (newChart2 : ExpenseDataset → Except JsError Unit)
            (fetched2 : Fetched ExpenseDataset),
            (initializeExpenseChart newChart2 fetched2
                (initializeExpenseChart (fun _ => .ok ()) (.rejected .networkError)
                  chartPage).document).document
              = (initializeExpenseChart (fun _ => .ok ()) (.rejected .networkError)
                  chartPage).document) :=
  ⟨(fun _ _ h => by cases h), by decide, by decide,
    initializeExpenseChart_failure (fun _ => .ok ()) (.rejected .networkError) chartPage
      (fun _ _ h => by cases h) (by decide) (by decide)⟩

/-- C7, counterexample. The first failed run on `chartPage` replaces the content of
the card, canvas included, by the placeholder; in the run after it, whether its fetch
rejects or is fine, the handler reads `style` on the `null` that `getElementById`
returns, and the `TypeError` escapes. -/
theorem initializeExpenseChart_repeated_failure_throws :
    initializeExpenseChart (fun _ => .ok ()) (.rejected .networkError) chartPage
        = { document := chartPageFailed, escaped := none }
      ∧ initializeExpenseChart (fun _ => .ok ()) (.rejected .networkError) chartPageFailed
        = { document := chartPageFailed, escaped := some .typeError }
      ∧ expenseChartCatch chartPageFailed
        = { document := chartPageFailed, escaped := some .typeError }
      ∧ initializeExpenseChart (fun _ => .ok ()) (.response true (.ok ⟨[], [], []⟩))
          chartPageFailed
        = { document := chartPageFailed, escaped := some .typeError } := by
  refine ⟨?_, ?_, ?_, ?_⟩ <;> decide

end BudgetPlanner
